import Mathlib

/-!
Verification of the freight-calculator / portfolio-optimizer core
(`src/freight_calculator.py`, `src/portfolio_optimizer.py`).

Shallow embedding conventions:
* Python floats are modelled as exact rationals (`ℚ`); `round(x, 2)` is
  modelled by `round2` (round-half-to-even at two decimals, as in Python).
* Dates (`datetime` values parsed from the fixed `'%d %b %Y'` format by
  `FreightCalculator._parse_date`) are modelled as rational day numbers;
  date subtraction and `timedelta(days=d)` become rational arithmetic.
* The `PortDistanceManager` and `BunkerPrices` collaborators are constructor
  parameters of `FreightCalculator` in the source; they are modelled as
  function parameters `DistFn` (`get_distance`, `None` for a missing route)
  and `PriceFn` (`get_price`, total).
* Fallible code (`raise ValueError`) is modelled with `Except String`.
-/

namespace Freight

/-- Python `int(x)` truncation toward zero. -/
def pyTrunc (q : ℚ) : ℤ := if q < 0 then ⌈q⌉ else ⌊q⌋

/-- Python `round` to an integer: round half to even (banker's rounding). -/
def pyRoundInt (q : ℚ) : ℤ :=
  if q - (⌊q⌋ : ℚ) < 1/2 then ⌊q⌋
  else if q - (⌊q⌋ : ℚ) > 1/2 then ⌊q⌋ + 1
  else if ⌊q⌋ % 2 = 0 then ⌊q⌋ else ⌊q⌋ + 1

/-- Python `round(x, 2)`, used for every rational field of a `VoyageResult`. -/
def round2 (q : ℚ) : ℚ := (pyRoundInt (100 * q) : ℚ) / 100

theorem abs_pyRoundInt_sub_le (q : ℚ) : |(pyRoundInt q : ℚ) - q| ≤ 1/2 := by
  have hf : ((⌊q⌋ : ℚ)) ≤ q := Int.floor_le q
  have hf1 : q < (⌊q⌋ : ℚ) + 1 := Int.lt_floor_add_one q
  unfold pyRoundInt
  split
  · rename_i h
    rw [abs_le]
    constructor <;> linarith
  · split
    · rename_i h h2
      rw [abs_le]
      push_cast
      constructor <;> linarith
    · rename_i h h2
      push_neg at h h2
      have he : q - (⌊q⌋ : ℚ) = 1/2 := le_antisymm h2 h
      split <;> rw [abs_le] <;> push_cast <;> constructor <;> linarith

theorem abs_round2_sub_le (q : ℚ) : |round2 q - q| ≤ 1/200 := by
  unfold round2
  have h := abs_pyRoundInt_sub_le (100 * q)
  have hrw : (pyRoundInt (100 * q) : ℚ) / 100 - q
      = ((pyRoundInt (100 * q) : ℚ) - 100 * q) / 100 := by ring
  rw [hrw, abs_div, abs_of_pos (show (0:ℚ) < 100 by norm_num)]
  rw [div_le_iff₀ (show (0:ℚ) < 100 by norm_num)]
  linarith

theorem round2_intCast (n : ℤ) : round2 ((n : ℚ) / 100) = (n : ℚ) / 100 := by
  unfold round2 pyRoundInt
  have h : (100 : ℚ) * ((n : ℚ) / 100) = (n : ℚ) := by ring
  rw [h]
  simp [Int.floor_intCast]

theorem round2_zero : round2 0 = 0 := by
  have h := round2_intCast 0
  simpa using h

/-- Rounded values are integer multiples of 1/100; so a rounded value
strictly above 1/1000 is at least 1/100, hence the unrounded value is
at least 1/200 and in particular above the 1/1000 guard. -/
theorem gt_guard_of_round2_gt (q : ℚ) (h : round2 q > 1/1000) : q > 1/1000 := by
  unfold round2 at h
  have hn : (1 : ℚ) ≤ (pyRoundInt (100 * q) : ℚ) := by
    by_contra hlt
    push_neg at hlt
    have : (pyRoundInt (100 * q) : ℚ) ≤ 0 := by
      have : pyRoundInt (100 * q) < 1 := by exact_mod_cast hlt
      have : pyRoundInt (100 * q) ≤ 0 := by omega
      exact_mod_cast this
    have : (pyRoundInt (100 * q) : ℚ) / 100 ≤ 0 := by
      apply div_nonpos_of_nonpos_of_nonneg this (by norm_num)
    linarith
  have hr : round2 q ≥ 1/100 := by
    unfold round2
    rw [ge_iff_le, le_div_iff₀ (show (0:ℚ) < 100 by norm_num)]
    linarith
  have hb := abs_round2_sub_le q
  rw [abs_le] at hb
  linarith [hb.1, hb.2]

-- =========================================================================
-- Data model (`Vessel`, `Cargo`, `VoyageConfig`, `VoyageResult`)
-- =========================================================================

structure Vessel where
  name : String
  dwt : ℤ
  hire_rate : ℚ
  speed_laden : ℚ
  speed_ballast : ℚ
  speed_laden_eco : ℚ
  speed_ballast_eco : ℚ
  fuel_laden_vlsfo : ℚ
  fuel_laden_mgo : ℚ
  fuel_ballast_vlsfo : ℚ
  fuel_ballast_mgo : ℚ
  fuel_laden_eco_vlsfo : ℚ
  fuel_laden_eco_mgo : ℚ
  fuel_ballast_eco_vlsfo : ℚ
  fuel_ballast_eco_mgo : ℚ
  port_idle_mgo : ℚ
  port_working_mgo : ℚ
  current_port : String
  etd : ℚ
  bunker_rob_vlsfo : ℚ
  bunker_rob_mgo : ℚ
  is_cargill : Bool
deriving DecidableEq

structure Cargo where
  name : String
  customer : String
  commodity : String
  quantity : ℤ
  quantity_tolerance : ℚ
  laycan_start : ℚ
  laycan_end : ℚ
  freight_rate : ℚ
  load_port : String
  load_rate : ℚ
  load_turn_time : ℚ
  discharge_port : String
  discharge_rate : ℚ
  discharge_turn_time : ℚ
  port_cost_load : ℚ
  port_cost_discharge : ℚ
  commission : ℚ
  is_cargill : Bool
  half_freight_threshold : Option ℤ
deriving DecidableEq

/-- `VoyageConfig` constants (source defaults). -/
structure VoyageConfig where
  misc_costs : ℚ
  vessel_constants : ℚ
  port_delay_load_fraction : ℚ
  min_voyage_days : ℚ
  bunker_threshold_mt : ℚ
deriving DecidableEq

def defaultConfig : VoyageConfig :=
  { misc_costs := 15000
    vessel_constants := 3500
    port_delay_load_fraction := 1/2
    min_voyage_days := 1/1000
    bunker_threshold_mt := 50 }

structure VoyageResult where
  vessel_name : String
  cargo_name : String
  ballast_days : ℚ
  laden_days : ℚ
  load_days : ℚ
  discharge_days : ℚ
  total_days : ℚ
  arrival_date : ℚ
  laycan_start : ℚ
  laycan_end : ℚ
  can_make_laycan : Bool
  waiting_days : ℚ
  cargo_quantity : ℚ
  gross_freight : ℚ
  commission_cost : ℚ
  net_freight : ℚ
  bunker_cost_vlsfo : ℚ
  bunker_cost_mgo : ℚ
  total_bunker_cost : ℚ
  hire_cost : ℚ
  port_costs : ℚ
  misc_costs : ℚ
  total_costs : ℚ
  gross_profit : ℚ
  net_profit : ℚ
  tce : ℚ
  vlsfo_consumed : ℚ
  mgo_consumed : ℚ
  bunker_needed_vlsfo : ℚ
  bunker_needed_mgo : ℚ
  num_bunkering_stops : ℕ
  extra_bunkering_days : ℚ
  bunkering_lumpsum_fee : ℚ
  extra_mgo_for_bunker : ℚ
  selected_bunker_port : Option String
  bunker_port_savings : ℚ
  ballast_leg_to_bunker : ℚ
  bunker_to_load_leg : ℚ
  direct_ballast_distance : ℚ
  bunker_fuel_vlsfo_qty : ℚ
  bunker_fuel_mgo_qty : ℚ
deriving DecidableEq

/-- `PortDistanceManager.get_distance`: `None` models a route with no
resolver tier succeeding. -/
abbrev DistFn := String → String → Option ℚ

/-- `BunkerPrices.get_price` (total: regional and global fallbacks always
produce a price in the source). -/
abbrev PriceFn := String → String → ℚ

/-- `ALL_BUNKER_PORTS`: the fixed candidate refueling hubs. -/
def ALL_BUNKER_PORTS : List String :=
  ["Singapore", "Fujairah", "Rotterdam", "Gibraltar", "Durban",
   "Qingdao", "Shanghai", "Port Louis", "Richards Bay"]

/-- `get_bunker_candidates` returns all hubs regardless of position. -/
def get_bunker_candidates (_vessel_port _load_port : String) : List String :=
  ALL_BUNKER_PORTS

-- =========================================================================
-- `FreightCalculator.find_optimal_bunker_port`
-- =========================================================================

/-- Loop state of the candidate scan in `find_optimal_bunker_port`. -/
structure BunkerBest where
  best_port : Option String
  best_cost : ℚ
  best_leg1 : ℚ
  best_leg2 : ℚ
  best_bunker_cost : ℚ
deriving DecidableEq

/-- Body of one candidate-loop iteration of `find_optimal_bunker_port`,
once both candidate legs have been resolved.  A candidate with an
unresolved or zero leg is skipped (`if not leg1 or not leg2: continue`).
The source computes the detour costs by the same formula in both the
`detour > 0` and `detour ≤ 0` branches, merged here. -/
def bunkerCandidateCheck (vlsfo_price mgo_price : ℚ) (direct_distance : ℚ)
    (bunker_needed_vlsfo bunker_needed_mgo current_speed_ballast
     fuel_rate_vlsfo fuel_rate_mgo hire_rate : ℚ)
    (st : BunkerBest) (bunker_port : String) :
    Option ℚ → Option ℚ → BunkerBest
  | some leg1, some leg2 =>
    if leg1 = 0 ∨ leg2 = 0 then st
    else
      let detour_distance := (leg1 + leg2) - direct_distance
      let bunker_fuel_cost :=
        bunker_needed_vlsfo * vlsfo_price + bunker_needed_mgo * mgo_price
      let lumpsum_fee : ℚ := 5000
      let detour_days := detour_distance / (current_speed_ballast * 24)
      let detour_fuel_cost :=
        detour_days * fuel_rate_vlsfo * vlsfo_price +
        detour_days * fuel_rate_mgo * mgo_price
      let detour_hire_cost := detour_days * hire_rate
      let total_cost := bunker_fuel_cost + lumpsum_fee + detour_fuel_cost + detour_hire_cost
      if total_cost < st.best_cost ∨
          (|total_cost - st.best_cost| < 1000 ∧ leg1 + leg2 < st.best_leg1 + st.best_leg2) then
        { best_port := some bunker_port
          best_cost := total_cost
          best_leg1 := leg1
          best_leg2 := leg2
          best_bunker_cost := bunker_fuel_cost + lumpsum_fee }
      else st
  | some _, none => st
  | none, some _ => st
  | none, none => st

/-- One iteration of the candidate loop of `find_optimal_bunker_port`:
resolve the two candidate legs, then evaluate the candidate. -/
def bunkerCandidateStep (dist : DistFn) (price : PriceFn)
    (current_port load_port : String) (direct_distance : ℚ)
    (bunker_needed_vlsfo bunker_needed_mgo current_speed_ballast
     fuel_rate_vlsfo fuel_rate_mgo hire_rate : ℚ)
    (st : BunkerBest) (bunker_port : String) : BunkerBest :=
  bunkerCandidateCheck (price bunker_port "VLSFO") (price bunker_port "MGO")
    direct_distance bunker_needed_vlsfo bunker_needed_mgo current_speed_ballast
    fuel_rate_vlsfo fuel_rate_mgo hire_rate st bunker_port
    (dist current_port bunker_port) (dist bunker_port load_port)

/-- Main body of `find_optimal_bunker_port`, given the already-resolved
direct ballast distance.  Python truthiness: an unresolved (`None`) or zero
direct distance takes the early-return path. -/
def findOptimalBunkerAux (dist : DistFn) (price : PriceFn)
    (current_port load_port : String)
    (bunker_needed_vlsfo bunker_needed_mgo current_speed_ballast
     fuel_rate_vlsfo fuel_rate_mgo hire_rate : ℚ) :
    Option ℚ → Option String × ℚ × ℚ × ℚ × ℚ
  | none => (none, 0, 0, 0, 0)
  | some direct_distance =>
    if direct_distance = 0 then (none, 0, 0, 0, 0)
    else
      let baseline_cost :=
        bunker_needed_vlsfo * price load_port "VLSFO" +
        bunker_needed_mgo * price load_port "MGO" + 5000
      let init : BunkerBest :=
        { best_port := none
          best_cost := baseline_cost
          best_leg1 := 0
          best_leg2 := direct_distance
          best_bunker_cost := baseline_cost }
      let final := (get_bunker_candidates current_port load_port).foldl
        (bunkerCandidateStep dist price current_port load_port direct_distance
          bunker_needed_vlsfo bunker_needed_mgo current_speed_ballast
          fuel_rate_vlsfo fuel_rate_mgo hire_rate) init
      (final.best_port, final.best_leg1, final.best_leg2,
       baseline_cost - final.best_cost, final.best_bunker_cost)

/-- `FreightCalculator.find_optimal_bunker_port`.  Returns
`(selected_port, leg1, leg2, savings, bunker_cost)`. -/
def find_optimal_bunker_port (dist : DistFn) (price : PriceFn)
    (vessel : Vessel) (cargo : Cargo)
    (bunker_needed_vlsfo bunker_needed_mgo current_speed_ballast
     fuel_rate_vlsfo fuel_rate_mgo hire_rate : ℚ) :
    Option String × ℚ × ℚ × ℚ × ℚ :=
  findOptimalBunkerAux dist price vessel.current_port cargo.load_port
    bunker_needed_vlsfo bunker_needed_mgo current_speed_ballast
    fuel_rate_vlsfo fuel_rate_mgo hire_rate
    (dist vessel.current_port cargo.load_port)

/-- Each candidate-loop step raises the running best cost by strictly less
than the $1,000 near-tie tolerance (it can only be replaced by a strictly
cheaper option, or by a near-tie within $1,000 with shorter routing). -/
theorem bunkerCandidateCheck_cost_lt (pv pm dd nv nm sp rv rm hr : ℚ)
    (st : BunkerBest) (p : String) (o1 o2 : Option ℚ) :
    (bunkerCandidateCheck pv pm dd nv nm sp rv rm hr st p o1 o2).best_cost
      < st.best_cost + 1000 := by
  unfold bunkerCandidateCheck
  split
  · split
    · linarith
    · dsimp only
      split
      · rename_i hcond
        rcases hcond with h | ⟨habs, _⟩
        · dsimp only
          linarith
        · rw [abs_lt] at habs
          dsimp only
          linarith
      · linarith
  · linarith
  · linarith
  · linarith

theorem bunkerCandidateStep_cost_lt (dist : DistFn) (price : PriceFn)
    (cp lp : String) (dd nv nm sp rv rm hr : ℚ) (st : BunkerBest) (p : String) :
    (bunkerCandidateStep dist price cp lp dd nv nm sp rv rm hr st p).best_cost
      < st.best_cost + 1000 := by
  unfold bunkerCandidateStep
  exact bunkerCandidateCheck_cost_lt _ _ _ _ _ _ _ _ _ _ _ _ _

theorem bunkerFold_cost_le (dist : DistFn) (price : PriceFn)
    (cp lp : String) (dd nv nm sp rv rm hr : ℚ) :
    ∀ (l : List String) (st : BunkerBest),
      (l.foldl (bunkerCandidateStep dist price cp lp dd nv nm sp rv rm hr) st).best_cost
        ≤ st.best_cost + 1000 * l.length := by
  intro l
  induction l with
  | nil => intro st; simp
  | cons x xs ih =>
    intro st
    have h1 := bunkerCandidateStep_cost_lt dist price cp lp dd nv nm sp rv rm hr st x
    have h2 := ih (bunkerCandidateStep dist price cp lp dd nv nm sp rv rm hr st x)
    simp only [List.foldl_cons, List.length_cons]
    push_cast
    linarith

/-- A candidate hub whose first leg does not resolve is skipped unchanged. -/
theorem bunkerCandidateStep_skip (dist : DistFn) (price : PriceFn)
    (cp lp : String) (dd nv nm sp rv rm hr : ℚ) (st : BunkerBest) (p : String)
    (h1 : dist cp p = none) :
    bunkerCandidateStep dist price cp lp dd nv nm sp rv rm hr st p = st := by
  cases h2 : dist p lp <;>
    simp [bunkerCandidateStep, bunkerCandidateCheck, h1, h2]

/-- C3 (amended): the selected bunker port's total cost can exceed the
baseline (bunker-at-load-port) cost, but by less than the $1,000 near-tie
tolerance per candidate hub; with 9 candidate hubs the reported savings
versus baseline is bounded below by -9000. -/
theorem find_optimal_bunker_port_savings_lower_bound
    (dist : DistFn) (price : PriceFn) (vessel : Vessel) (cargo : Cargo)
    (nv nm sp rv rm hr : ℚ) (d : ℚ)
    (hd : dist vessel.current_port cargo.load_port = some d) (hne : d ≠ 0) :
    -9000 ≤ (find_optimal_bunker_port dist price vessel cargo nv nm sp rv rm hr).2.2.2.1 := by
  unfold find_optimal_bunker_port
  rw [hd]
  simp only [findOptimalBunkerAux, if_neg hne]
  have h := bunkerFold_cost_le dist price vessel.current_port cargo.load_port d
    nv nm sp rv rm hr (get_bunker_candidates vessel.current_port cargo.load_port)
    { best_port := none
      best_cost := nv * price cargo.load_port "VLSFO" + nm * price cargo.load_port "MGO" + 5000
      best_leg1 := 0
      best_leg2 := d
      best_bunker_cost := nv * price cargo.load_port "VLSFO" + nm * price cargo.load_port "MGO" + 5000 }
  have hlen : ((get_bunker_candidates vessel.current_port cargo.load_port).length : ℚ) = 9 := by
    norm_num [get_bunker_candidates, ALL_BUNKER_PORTS]
  rw [hlen] at h
  dsimp only at h ⊢
  linarith

theorem foldl_fixed {α β : Type} (f : β → α → β) (st : β) :
    ∀ (l : List α), (∀ p ∈ l, f st p = st) → l.foldl f st = st
  | [], _ => rfl
  | x :: xs, h => by
    rw [List.foldl_cons, h x (by simp)]
    exact foldl_fixed f st xs (fun p hp => h p (by simp [hp]))

/-- Concrete instance for the bunkering sub-optimization: the vessel sits at
`POS`, loads at `LOAD` (direct distance 1000 nm), and only the Singapore hub
resolves (400 nm + 500 nm, a shortcut of 100 nm). -/
def exVesselC3 : Vessel :=
  { name := "EX VESSEL", dwt := 180000, hire_rate := 0,
    speed_laden := 14, speed_ballast := 14, speed_laden_eco := 12, speed_ballast_eco := 12,
    fuel_laden_vlsfo := 60, fuel_laden_mgo := 2, fuel_ballast_vlsfo := 55, fuel_ballast_mgo := 2,
    fuel_laden_eco_vlsfo := 42, fuel_laden_eco_mgo := 2, fuel_ballast_eco_vlsfo := 38,
    fuel_ballast_eco_mgo := 2, port_idle_mgo := 2, port_working_mgo := 3,
    current_port := "POS", etd := 0, bunker_rob_vlsfo := 400, bunker_rob_mgo := 45,
    is_cargill := true }

def exCargoC3 : Cargo :=
  { name := "EX CARGO", customer := "X", commodity := "ore", quantity := 100000,
    quantity_tolerance := 1/10, laycan_start := 0, laycan_end := 30, freight_rate := 8,
    load_port := "LOAD", load_rate := 50000, load_turn_time := 12,
    discharge_port := "DISCH", discharge_rate := 30000, discharge_turn_time := 12,
    port_cost_load := 100000, port_cost_discharge := 100000, commission := 1/20,
    is_cargill := true, half_freight_threshold := none }

def exDistC3 : DistFn := fun a b =>
  if a = "POS" ∧ b = "LOAD" then some 1000
  else if a = "POS" ∧ b = "Singapore" then some 400
  else if a = "Singapore" ∧ b = "LOAD" then some 500
  else none

def exPriceC3 : PriceFn := fun p _fuel => if p = "LOAD" then 500 else 600

/-- C3 counterexample: with fuel need 10 t VLSFO, ballast speed 10 kn,
ballast burn 2.4 t/day, the Singapore candidate costs $10,400 against a
$10,000 baseline, yet is selected by the near-tie tie-break because its
routed distance 900 nm beats the direct 1000 nm; the reported savings is
-$400, strictly negative. -/
theorem find_optimal_bunker_port_negative_savings :
    (find_optimal_bunker_port exDistC3 exPriceC3 exVesselC3 exCargoC3 10 0 10 (12/5) 0 0).1
        = some "Singapore" ∧
    (find_optimal_bunker_port exDistC3 exPriceC3 exVesselC3 exCargoC3 10 0 10 (12/5) 0 0).2.2.2.1 < 0 := by
  have hstep1 : bunkerCandidateStep exDistC3 exPriceC3 "POS" "LOAD" 1000 10 0 10 (12/5) 0 0
      { best_port := none, best_cost := 10000, best_leg1 := 0, best_leg2 := 1000,
        best_bunker_cost := 10000 } "Singapore"
      = { best_port := some "Singapore", best_cost := 10400, best_leg1 := 400,
          best_leg2 := 500, best_bunker_cost := 11000 } := by
    simp only [bunkerCandidateStep, bunkerCandidateCheck, exDistC3, exPriceC3,
      String.reduceEq, reduceIte, and_true, true_and, and_false, false_and,
      if_true, if_false]
    norm_num [abs_lt]
  have hskip : ∀ p ∈ (["Fujairah", "Rotterdam", "Gibraltar", "Durban", "Qingdao",
      "Shanghai", "Port Louis", "Richards Bay"] : List String),
      bunkerCandidateStep exDistC3 exPriceC3 "POS" "LOAD" 1000 10 0 10 (12/5) 0 0
        { best_port := some "Singapore", best_cost := 10400, best_leg1 := 400,
          best_leg2 := 500, best_bunker_cost := 11000 } p
        = { best_port := some "Singapore", best_cost := 10400, best_leg1 := 400,
            best_leg2 := 500, best_bunker_cost := 11000 } := by
    intro p hp
    apply bunkerCandidateStep_skip
    fin_cases hp <;>
      simp only [exDistC3, String.reduceEq, reduceIte, and_true, true_and,
        and_false, false_and, if_true, if_false]
  have hfold : find_optimal_bunker_port exDistC3 exPriceC3 exVesselC3 exCargoC3 10 0 10 (12/5) 0 0
      = (some "Singapore", 400, 500, -400, 11000) := by
    have haux : find_optimal_bunker_port exDistC3 exPriceC3 exVesselC3 exCargoC3 10 0 10 (12/5) 0 0
        = findOptimalBunkerAux exDistC3 exPriceC3 "POS" "LOAD" 10 0 10 (12/5) 0 0 (some 1000) := by
      norm_num [find_optimal_bunker_port, exVesselC3, exCargoC3, exDistC3, String.reduceEq]
    rw [haux]
    simp only [findOptimalBunkerAux]
    rw [if_neg (by norm_num)]
    have hinit : (10 : ℚ) * exPriceC3 "LOAD" "VLSFO" + 0 * exPriceC3 "LOAD" "MGO" + 5000
        = 10000 := by
      norm_num [exPriceC3, String.reduceEq]
    rw [hinit]
    have hports : get_bunker_candidates "POS" "LOAD" = "Singapore" ::
        ["Fujairah", "Rotterdam", "Gibraltar", "Durban", "Qingdao",
         "Shanghai", "Port Louis", "Richards Bay"] := rfl
    rw [hports, List.foldl_cons, hstep1,
      foldl_fixed _ _ _ hskip]
    norm_num
  rw [hfold]
  norm_num

/-- Witness for the C3 savings lower bound at the concrete instance. -/
theorem find_optimal_bunker_port_savings_lower_bound_witness :
    -9000 ≤ (find_optimal_bunker_port exDistC3 exPriceC3 exVesselC3 exCargoC3
      10 0 10 (12/5) 0 0).2.2.2.1 :=
  find_optimal_bunker_port_savings_lower_bound exDistC3 exPriceC3 exVesselC3 exCargoC3
    10 0 10 (12/5) 0 0 1000
    (by simp only [exVesselC3, exCargoC3, exDistC3, String.reduceEq, reduceIte,
      and_true, true_and, and_self, if_true])
    (by norm_num)

-- =========================================================================
-- `FreightCalculator.calculate_voyage`
-- =========================================================================

/-- The half-freight split of step 3: `if cargo.half_freight_threshold and
total_cargo_qty > threshold` (Python truthiness: `None` and `0` are falsy)
splits the loaded quantity into a full-rate and a half-rate portion. -/
def halfFreightSplit : Option ℤ → ℚ → ℚ × ℚ
  | none, q => (q, 0)
  | some t, q => if t ≠ 0 ∧ q > (t : ℚ) then ((t : ℚ), q - (t : ℚ)) else (q, 0)

/-- Final assembly of the (unrounded) voyage result: revenue (step 9),
other costs (step 10), profit (step 11) and TCE (step 12) from the raw
components.  `calculate_voyage` applies the per-field rounding afterwards. -/
def assembleRaw (vessel : Vessel) (cargo : Cargo) (cfg : VoyageConfig)
    (ballast_days laden_days load_days discharge_days waiting_days total_days arrival : ℚ)
    (can_make : Bool)
    (total_cargo_qty full_freight_qty half_freight_qty
     vlsfo_price mgo_price vlsfo_consumed mgo_consumed
     bunker_needed_vlsfo bunker_needed_mgo : ℚ)
    (num_stops : ℕ)
    (extra_bunkering_days bunkering_lumpsum_fee extra_mgo_for_bunker : ℚ)
    (selected_bunker_port : Option String)
    (bunker_port_savings ballast_leg_to_bunker bunker_to_load_leg
     direct_ballast_distance : ℚ) : VoyageResult :=
  let gross_freight := full_freight_qty * cargo.freight_rate +
    (if half_freight_qty > 0 then half_freight_qty * cargo.freight_rate * (1/2) else 0)
  let commission_cost := gross_freight * cargo.commission
  let net_freight := gross_freight - commission_cost
  let hire_cost := if vessel.is_cargill then total_days * vessel.hire_rate else 0
  let port_costs := cargo.port_cost_load + cargo.port_cost_discharge
  let misc_costs := cfg.misc_costs
  let bunker_cost_vlsfo := vlsfo_consumed * vlsfo_price
  let bunker_cost_mgo := mgo_consumed * mgo_price
  let total_bunker_cost := bunker_cost_vlsfo + bunker_cost_mgo
  let total_costs := total_bunker_cost + hire_cost + port_costs + misc_costs + bunkering_lumpsum_fee
  let gross_profit := net_freight - total_bunker_cost - port_costs - misc_costs
  let net_profit := net_freight - total_costs
  let voyage_costs := total_bunker_cost + port_costs + misc_costs
  let tce := if total_days > cfg.min_voyage_days then (net_freight - voyage_costs) / total_days else 0
  { vessel_name := vessel.name
    cargo_name := cargo.name
    ballast_days := ballast_days
    laden_days := laden_days
    load_days := load_days
    discharge_days := discharge_days
    total_days := total_days
    arrival_date := arrival
    laycan_start := cargo.laycan_start
    laycan_end := cargo.laycan_end
    can_make_laycan := can_make
    waiting_days := waiting_days
    cargo_quantity := total_cargo_qty
    gross_freight := gross_freight
    commission_cost := commission_cost
    net_freight := net_freight
    bunker_cost_vlsfo := bunker_cost_vlsfo
    bunker_cost_mgo := bunker_cost_mgo
    total_bunker_cost := total_bunker_cost
    hire_cost := hire_cost
    port_costs := port_costs
    misc_costs := misc_costs
    total_costs := total_costs
    gross_profit := gross_profit
    net_profit := net_profit
    tce := tce
    vlsfo_consumed := vlsfo_consumed
    mgo_consumed := mgo_consumed
    bunker_needed_vlsfo := bunker_needed_vlsfo
    bunker_needed_mgo := bunker_needed_mgo
    num_bunkering_stops := num_stops
    extra_bunkering_days := extra_bunkering_days
    bunkering_lumpsum_fee := bunkering_lumpsum_fee
    extra_mgo_for_bunker := extra_mgo_for_bunker
    selected_bunker_port := selected_bunker_port
    bunker_port_savings := bunker_port_savings
    ballast_leg_to_bunker := ballast_leg_to_bunker
    bunker_to_load_leg := bunker_to_load_leg
    direct_ballast_distance := direct_ballast_distance
    bunker_fuel_vlsfo_qty := bunker_needed_vlsfo
    bunker_fuel_mgo_qty := bunker_needed_mgo }

/-- Step 8a when the bunkering sub-optimization has been triggered, given
the tuple returned by `find_optimal_bunker_port`.  With a selected hub the
ballast leg is rerouted (`leg1 + leg2`) and the hub's prices replace the
load-port prices; otherwise the voyage falls back to bunkering at the load
port.  In the source, `total_days` is not recomputed from the rerouted
ballast leg: only the fixed extra bunkering day is added. -/
def bunkeredRaw (vessel : Vessel) (cargo : Cargo) (cfg : VoyageConfig)
    (adj : ℚ) (price : PriceFn)
    (speed_ballast fuel_ballast_vlsfo fuel_ballast_mgo : ℚ)
    (ballast_distance ballast_days laden_days load_days discharge_days
     waiting_days total_days arrival : ℚ)
    (can_make : Bool)
    (total_cargo_qty full_qty half_qty : ℚ)
    (vlsfo_laden mgo_laden mgo_working mgo_idle : ℚ)
    (vlsfo_price0 mgo_price0 vlsfo_consumed0 mgo_consumed0
     bunker_needed_vlsfo0 bunker_needed_mgo0 : ℚ)
    (direct_lookup : Option ℚ) :
    Option String × ℚ × ℚ × ℚ × ℚ → VoyageResult
  | (some p, leg1, leg2, savings, _bcost) =>
    let ballast_distance2 := leg1 + leg2
    let ballast_days2 := ballast_distance2 / (speed_ballast * 24)
    let vlsfo_ballast2 := ballast_days2 * fuel_ballast_vlsfo
    let mgo_ballast2 := ballast_days2 * fuel_ballast_mgo
    let vlsfo_consumed2 := vlsfo_ballast2 + vlsfo_laden
    let mgo_consumed2 := mgo_ballast2 + mgo_laden + mgo_working + mgo_idle
    let bunker_needed_vlsfo2 := max 0 (vlsfo_consumed2 - vessel.bunker_rob_vlsfo)
    let bunker_needed_mgo2 := max 0 (mgo_consumed2 - vessel.bunker_rob_mgo)
    let vlsfo_price2 := price p "VLSFO" * adj
    let mgo_price2 := price p "MGO" * adj
    let extra_mgo := 1 * vessel.port_idle_mgo
    assembleRaw vessel cargo cfg
      ballast_days2 laden_days load_days discharge_days waiting_days (total_days + 1) arrival
      can_make total_cargo_qty full_qty half_qty
      vlsfo_price2 mgo_price2 vlsfo_consumed2 (mgo_consumed2 + extra_mgo)
      bunker_needed_vlsfo2 bunker_needed_mgo2
      1 1 5000 extra_mgo (some p) savings leg1 leg2
      (direct_lookup.getD ballast_distance2)
  | (none, _, _, _, _) =>
    let extra_mgo := 1 * vessel.port_idle_mgo
    assembleRaw vessel cargo cfg
      ballast_days laden_days load_days discharge_days waiting_days (total_days + 1) arrival
      can_make total_cargo_qty full_qty half_qty
      vlsfo_price0 mgo_price0 vlsfo_consumed0 (mgo_consumed0 + extra_mgo)
      bunker_needed_vlsfo0 bunker_needed_mgo0
      1 1 5000 extra_mgo (some cargo.load_port) 0 0 ballast_distance
      (direct_lookup.getD ballast_distance)

/-- Speed/burn selection for the chosen speed mode
(`if use_eco_speed: ... else: ...`). -/
def ecoSel (use_eco_speed : Bool) (eco_value std_value : ℚ) : ℚ :=
  cond use_eco_speed eco_value std_value

/-- The laycan feasibility flag `arrival_at_loadport <= laycan_end`. -/
def leBool (a b : ℚ) : Bool := if a ≤ b then true else false

/-- Waiting days when arriving before the laycan opens. -/
def waitingCalc (arrival laycan_start : ℚ) : ℚ :=
  if arrival < laycan_start then laycan_start - arrival else 0

/-- Steps 2-12 of `calculate_voyage`, after both leg distances resolved. -/
def calcVoyageCore (dist : DistFn) (price : PriceFn) (cfg : VoyageConfig)
    (vessel : Vessel) (cargo : Cargo) (use_eco_speed : Bool)
    (extra_port_delay_days bunker_price_adjustment : ℚ)
    (ballast_distance laden_distance : ℚ) : Except String VoyageResult :=
  let speed_ballast := ecoSel use_eco_speed vessel.speed_ballast_eco vessel.speed_ballast
  let speed_laden := ecoSel use_eco_speed vessel.speed_laden_eco vessel.speed_laden
  let fuel_ballast_vlsfo := ecoSel use_eco_speed vessel.fuel_ballast_eco_vlsfo vessel.fuel_ballast_vlsfo
  let fuel_ballast_mgo := ecoSel use_eco_speed vessel.fuel_ballast_eco_mgo vessel.fuel_ballast_mgo
  let fuel_laden_vlsfo := ecoSel use_eco_speed vessel.fuel_laden_eco_vlsfo vessel.fuel_laden_vlsfo
  let fuel_laden_mgo := ecoSel use_eco_speed vessel.fuel_laden_eco_mgo vessel.fuel_laden_mgo
  let ballast_days := ballast_distance / (speed_ballast * 24)
  let laden_days := laden_distance / (speed_laden * 24)
  let max_by_cargo := pyTrunc ((cargo.quantity : ℚ) * (1 + cargo.quantity_tolerance))
  let min_by_cargo := pyTrunc ((cargo.quantity : ℚ) * (1 - cargo.quantity_tolerance))
  let max_by_vessel := (vessel.dwt : ℚ) - cfg.vessel_constants
  let total_cargo_qty := min (max_by_cargo : ℚ) max_by_vessel
  if total_cargo_qty < (min_by_cargo : ℚ) then
    .error ("Vessel " ++ vessel.name ++ " cannot meet minimum cargo requirement for " ++ cargo.name)
  else
    let fh := halfFreightSplit cargo.half_freight_threshold total_cargo_qty
    let load_days := total_cargo_qty / cargo.load_rate + cargo.load_turn_time / 24
      + extra_port_delay_days * cfg.port_delay_load_fraction
    let discharge_days := total_cargo_qty / cargo.discharge_rate + cargo.discharge_turn_time / 24
      + extra_port_delay_days * (1 - cfg.port_delay_load_fraction)
    let arrival := vessel.etd + ballast_days
    let can_make := leBool arrival cargo.laycan_end
    let waiting_days := waitingCalc arrival cargo.laycan_start
    let total_days := ballast_days + waiting_days + load_days + laden_days + discharge_days
    let vlsfo_ballast := ballast_days * fuel_ballast_vlsfo
    let mgo_ballast := ballast_days * fuel_ballast_mgo
    let vlsfo_laden := laden_days * fuel_laden_vlsfo
    let mgo_laden := laden_days * fuel_laden_mgo
    let working_days := load_days + discharge_days - (cargo.load_turn_time + cargo.discharge_turn_time) / 24
    let mgo_working := working_days * vessel.port_working_mgo
    let idle_days := waiting_days + (cargo.load_turn_time + cargo.discharge_turn_time) / 24
    let mgo_idle := idle_days * vessel.port_idle_mgo
    let vlsfo_consumed := vlsfo_ballast + vlsfo_laden
    let mgo_consumed := mgo_ballast + mgo_laden + mgo_working + mgo_idle
    let vlsfo_price := price cargo.load_port "VLSFO" * bunker_price_adjustment
    let mgo_price := price cargo.load_port "MGO" * bunker_price_adjustment
    let bunker_needed_vlsfo := max 0 (vlsfo_consumed - vessel.bunker_rob_vlsfo)
    let bunker_needed_mgo := max 0 (mgo_consumed - vessel.bunker_rob_mgo)
    if bunker_needed_vlsfo + bunker_needed_mgo > cfg.bunker_threshold_mt then
      .ok (bunkeredRaw vessel cargo cfg bunker_price_adjustment price
        speed_ballast fuel_ballast_vlsfo fuel_ballast_mgo
        ballast_distance ballast_days laden_days load_days discharge_days
        waiting_days total_days arrival can_make
        total_cargo_qty fh.1 fh.2
        vlsfo_laden mgo_laden mgo_working mgo_idle
        vlsfo_price mgo_price vlsfo_consumed mgo_consumed
        bunker_needed_vlsfo bunker_needed_mgo
        (dist vessel.current_port cargo.load_port)
        (find_optimal_bunker_port dist price vessel cargo bunker_needed_vlsfo bunker_needed_mgo
          speed_ballast fuel_ballast_vlsfo fuel_ballast_mgo vessel.hire_rate))
    else
      .ok (assembleRaw vessel cargo cfg ballast_days laden_days load_days discharge_days
        waiting_days total_days arrival can_make
        total_cargo_qty fh.1 fh.2
        vlsfo_price mgo_price vlsfo_consumed mgo_consumed
        bunker_needed_vlsfo bunker_needed_mgo
        0 0 0 0 none 0 0 ballast_distance ballast_distance)

/-- Leg-distance override: in `if custom_ballast_distance:` a `None` or a
zero override is falsy, so the resolver result is used instead. -/
def legDistance : Option ℚ → Except String ℚ → Except String ℚ
  | none, r => r
  | some d, r => if d = 0 then r else .ok d

/-- Resolver outcome for one leg: a missing route raises the
no-distance `ValueError`. -/
def distOrError : Option ℚ → String → String → Except String ℚ
  | some d, _, _ => .ok d
  | none, a, b => .error ("Cannot find distance: " ++ a ++ " -> " ++ b)

/-- Propagates the first unresolved leg (ballast first, as in the source),
then runs the main computation. -/
def calcVoyageWithLegs (dist : DistFn) (price : PriceFn) (cfg : VoyageConfig)
    (vessel : Vessel) (cargo : Cargo) (use_eco_speed : Bool)
    (extra_port_delay_days bunker_price_adjustment : ℚ) :
    Except String ℚ → Except String ℚ → Except String VoyageResult
  | .error e, _ => .error e
  | .ok _, .error e => .error e
  | .ok b, .ok l => calcVoyageCore dist price cfg vessel cargo use_eco_speed
      extra_port_delay_days bunker_price_adjustment b l

/-- `calculate_voyage`, without the final per-field rounding. -/
def calcVoyageRaw (dist : DistFn) (price : PriceFn) (cfg : VoyageConfig)
    (vessel : Vessel) (cargo : Cargo) (use_eco_speed : Bool)
    (extra_port_delay_days bunker_price_adjustment : ℚ)
    (custom_ballast_distance custom_laden_distance : Option ℚ) :
    Except String VoyageResult :=
  calcVoyageWithLegs dist price cfg vessel cargo use_eco_speed
    extra_port_delay_days bunker_price_adjustment
    (legDistance custom_ballast_distance
      (distOrError (dist vessel.current_port cargo.load_port)
        vessel.current_port cargo.load_port))
    (legDistance custom_laden_distance
      (distOrError (dist cargo.load_port cargo.discharge_port)
        cargo.load_port cargo.discharge_port))

/-- The per-field rounding applied when the source builds its
`VoyageResult` (dates, the cargo quantity, the stop count and the selected
port are not rounded). -/
def roundVoyage (r : VoyageResult) : VoyageResult :=
  { vessel_name := r.vessel_name
    cargo_name := r.cargo_name
    ballast_days := round2 r.ballast_days
    laden_days := round2 r.laden_days
    load_days := round2 r.load_days
    discharge_days := round2 r.discharge_days
    total_days := round2 r.total_days
    arrival_date := r.arrival_date
    laycan_start := r.laycan_start
    laycan_end := r.laycan_end
    can_make_laycan := r.can_make_laycan
    waiting_days := round2 r.waiting_days
    cargo_quantity := r.cargo_quantity
    gross_freight := round2 r.gross_freight
    commission_cost := round2 r.commission_cost
    net_freight := round2 r.net_freight
    bunker_cost_vlsfo := round2 r.bunker_cost_vlsfo
    bunker_cost_mgo := round2 r.bunker_cost_mgo
    total_bunker_cost := round2 r.total_bunker_cost
    hire_cost := round2 r.hire_cost
    port_costs := round2 r.port_costs
    misc_costs := round2 r.misc_costs
    total_costs := round2 r.total_costs
    gross_profit := round2 r.gross_profit
    net_profit := round2 r.net_profit
    tce := round2 r.tce
    vlsfo_consumed := round2 r.vlsfo_consumed
    mgo_consumed := round2 r.mgo_consumed
    bunker_needed_vlsfo := round2 r.bunker_needed_vlsfo
    bunker_needed_mgo := round2 r.bunker_needed_mgo
    num_bunkering_stops := r.num_bunkering_stops
    extra_bunkering_days := round2 r.extra_bunkering_days
    bunkering_lumpsum_fee := round2 r.bunkering_lumpsum_fee
    extra_mgo_for_bunker := round2 r.extra_mgo_for_bunker
    selected_bunker_port := r.selected_bunker_port
    bunker_port_savings := round2 r.bunker_port_savings
    ballast_leg_to_bunker := round2 r.ballast_leg_to_bunker
    bunker_to_load_leg := round2 r.bunker_to_load_leg
    direct_ballast_distance := round2 r.direct_ballast_distance
    bunker_fuel_vlsfo_qty := round2 r.bunker_fuel_vlsfo_qty
    bunker_fuel_mgo_qty := round2 r.bunker_fuel_mgo_qty }

/-- `FreightCalculator.calculate_voyage` (source defaults:
`use_eco_speed=False`, `extra_port_delay_days=0`,
`bunker_price_adjustment=1.0`, custom distances `None`). -/
def calculate_voyage (dist : DistFn) (price : PriceFn) (cfg : VoyageConfig)
    (vessel : Vessel) (cargo : Cargo) (use_eco_speed : Bool)
    (extra_port_delay_days bunker_price_adjustment : ℚ)
    (custom_ballast_distance custom_laden_distance : Option ℚ) :
    Except String VoyageResult :=
  (calcVoyageRaw dist price cfg vessel cargo use_eco_speed
    extra_port_delay_days bunker_price_adjustment
    custom_ballast_distance custom_laden_distance).map roundVoyage

/-- The TCE field identity satisfied by every assembled raw result. -/
def TceSpec (g : ℚ) (r : VoyageResult) : Prop :=
  r.tce = if r.total_days > g
    then (r.net_freight - (r.total_bunker_cost + r.port_costs + r.misc_costs)) / r.total_days
    else 0

theorem assembleRaw_tceSpec (vessel : Vessel) (cargo : Cargo) (cfg : VoyageConfig)
    (a1 a2 a3 a4 a5 a6 a7 : ℚ) (cm : Bool) (b1 b2 b3 b4 b5 b6 b7 b8 b9 : ℚ)
    (ns : ℕ) (c1 c2 c3 : ℚ) (sp : Option String) (d1 d2 d3 d4 : ℚ) :
    TceSpec cfg.min_voyage_days (assembleRaw vessel cargo cfg a1 a2 a3 a4 a5 a6 a7 cm
      b1 b2 b3 b4 b5 b6 b7 b8 b9 ns c1 c2 c3 sp d1 d2 d3 d4) := rfl

theorem bunkeredRaw_tceSpec (vessel : Vessel) (cargo : Cargo) (cfg : VoyageConfig)
    (adj : ℚ) (price : PriceFn) (s1 s2 s3 : ℚ) (a0 a1 a2 a3 a4 a5 a6 a7 : ℚ) (cm : Bool)
    (q1 q2 q3 : ℚ) (l1 l2 l3 l4 : ℚ) (p1 p2 p3 p4 p5 p6 : ℚ) (dl : Option ℚ)
    (t : Option String × ℚ × ℚ × ℚ × ℚ) :
    TceSpec cfg.min_voyage_days (bunkeredRaw vessel cargo cfg adj price s1 s2 s3
      a0 a1 a2 a3 a4 a5 a6 a7 cm q1 q2 q3 l1 l2 l3 l4 p1 p2 p3 p4 p5 p6 dl t) := by
  rcases t with ⟨op, w1, w2, w3, w4⟩
  cases op
  · exact rfl
  · exact rfl

/-- Every successful raw voyage satisfies the TCE field identity. -/
theorem calcVoyageRaw_ok_tceSpec (dist : DistFn) (price : PriceFn) (cfg : VoyageConfig)
    (vessel : Vessel) (cargo : Cargo) (eco : Bool) (delay adj : ℚ)
    (cb cl : Option ℚ) (raw : VoyageResult)
    (h : calcVoyageRaw dist price cfg vessel cargo eco delay adj cb cl = .ok raw) :
    TceSpec cfg.min_voyage_days raw := by
  unfold calcVoyageRaw at h
  cases hE1 : legDistance cb (distOrError (dist vessel.current_port cargo.load_port)
      vessel.current_port cargo.load_port) with
  | error e =>
    rw [hE1] at h
    simp [calcVoyageWithLegs] at h
  | ok b =>
    rw [hE1] at h
    cases hE2 : legDistance cl (distOrError (dist cargo.load_port cargo.discharge_port)
        cargo.load_port cargo.discharge_port) with
    | error e =>
      rw [hE2] at h
      simp [calcVoyageWithLegs] at h
    | ok l =>
      rw [hE2] at h
      simp only [calcVoyageWithLegs, calcVoyageCore] at h
      split at h
      · simp at h
      · split at h
        · rw [Except.ok.injEq] at h
          rw [← h]
          apply bunkeredRaw_tceSpec
        · rw [Except.ok.injEq] at h
          rw [← h]
          apply assembleRaw_tceSpec

theorem abs_add_six (a b c d e f : ℚ) :
    |a + b + c + d + e + f| ≤ |a| + |b| + |c| + |d| + |e| + |f| := by
  have h1 := abs_add (a + b + c + d + e) f
  have h2 := abs_add (a + b + c + d) e
  have h3 := abs_add (a + b + c) d
  have h4 := abs_add (a + b) c
  have h5 := abs_add a b
  linarith

/-- C4: in every successful voyage whose (rounded) total days exceed the
minimum-days guard, TCE times total days equals net freight minus
bunker+port+misc costs up to the accumulated two-decimal rounding error;
hire cost and the bunkering lumpsum fee play no part in the identity, and
when the unrounded total days do not exceed the guard the reported TCE
is zero. -/
theorem calculate_voyage_tce_identity
    (dist : DistFn) (price : PriceFn) (vessel : Vessel) (cargo : Cargo)
    (eco : Bool) (delay adj : ℚ) (cb cl : Option ℚ) (raw r : VoyageResult)
    (hraw : calcVoyageRaw dist price defaultConfig vessel cargo eco delay adj cb cl = .ok raw)
    (hr : calculate_voyage dist price defaultConfig vessel cargo eco delay adj cb cl = .ok r) :
    (r.total_days > 1/1000 →
      |r.tce * r.total_days - (r.net_freight - (r.total_bunker_cost + r.port_costs + r.misc_costs))|
        ≤ (|r.tce| + r.total_days + 5) / 200) ∧
    (raw.total_days ≤ 1/1000 → r.tce = 0) := by
  have hspec := calcVoyageRaw_ok_tceSpec dist price defaultConfig vessel cargo
    eco delay adj cb cl raw hraw
  have hrr : r = roundVoyage raw := by
    unfold calculate_voyage at hr
    rw [hraw] at hr
    simp only [Except.map, Except.ok.injEq] at hr
    exact hr.symm
  subst hrr
  unfold TceSpec at hspec
  have hguard : defaultConfig.min_voyage_days = 1/1000 := rfl
  rw [hguard] at hspec
  constructor
  · intro hgt
    have hgt2 : round2 raw.total_days > 1/1000 := hgt
    have htdgt : raw.total_days > 1/1000 := gt_guard_of_round2_gt _ hgt2
    rw [if_pos htdgt] at hspec
    have htdne : raw.total_days ≠ 0 := by
      intro h0
      rw [h0] at htdgt
      norm_num at htdgt
    have hid : raw.tce * raw.total_days
        = raw.net_freight - (raw.total_bunker_cost + raw.port_costs + raw.misc_costs) := by
      rw [hspec]
      field_simp
    show |round2 raw.tce * round2 raw.total_days
        - (round2 raw.net_freight - (round2 raw.total_bunker_cost + round2 raw.port_costs
            + round2 raw.misc_costs))|
      ≤ (|round2 raw.tce| + round2 raw.total_days + 5) / 200
    have e1 := abs_round2_sub_le raw.tce
    have e2 := abs_round2_sub_le raw.total_days
    have e3 := abs_round2_sub_le raw.net_freight
    have e4 := abs_round2_sub_le raw.total_bunker_cost
    have e5 := abs_round2_sub_le raw.port_costs
    have e6 := abs_round2_sub_le raw.misc_costs
    have hdec : round2 raw.tce * round2 raw.total_days
        - (round2 raw.net_freight - (round2 raw.total_bunker_cost + round2 raw.port_costs
            + round2 raw.misc_costs))
        = (round2 raw.tce - raw.tce) * raw.total_days
          + round2 raw.tce * (round2 raw.total_days - raw.total_days)
          + (-(round2 raw.net_freight - raw.net_freight))
          + (round2 raw.total_bunker_cost - raw.total_bunker_cost)
          + (round2 raw.port_costs - raw.port_costs)
          + (round2 raw.misc_costs - raw.misc_costs) := by
      linear_combination hid
    rw [hdec]
    have habs := abs_add_six ((round2 raw.tce - raw.tce) * raw.total_days)
        (round2 raw.tce * (round2 raw.total_days - raw.total_days))
        (-(round2 raw.net_freight - raw.net_freight))
        (round2 raw.total_bunker_cost - raw.total_bunker_cost)
        (round2 raw.port_costs - raw.port_costs)
        (round2 raw.misc_costs - raw.misc_costs)
    have hm1 : |(round2 raw.tce - raw.tce) * raw.total_days| ≤ (1/200) * |raw.total_days| := by
      rw [abs_mul]
      exact mul_le_mul_of_nonneg_right e1 (abs_nonneg _)
    have hm2 : |round2 raw.tce * (round2 raw.total_days - raw.total_days)|
        ≤ |round2 raw.tce| * (1/200) := by
      rw [abs_mul]
      exact mul_le_mul_of_nonneg_left e2 (abs_nonneg _)
    have habs_td : |raw.total_days| ≤ round2 raw.total_days + 1/200 := by
      rw [abs_le]
      rw [abs_le] at e2
      constructor <;> linarith
    have htr : (1/200) * |raw.total_days| ≤ (1/200) * (round2 raw.total_days + 1/200) :=
      mul_le_mul_of_nonneg_left habs_td (by norm_num)
    have hneg : |(-(round2 raw.net_freight - raw.net_freight))|
        = |round2 raw.net_freight - raw.net_freight| := abs_neg _
    rw [hneg] at habs
    linarith
  · intro hle
    rw [if_neg (not_lt.mpr hle)] at hspec
    show round2 raw.tce = 0
    rw [hspec, round2_zero]

-- =========================================================================
-- A concrete voyage instance (vessel at A, loading at B, discharging at C;
-- generous fuel on board, so no bunkering stop is triggered)
-- =========================================================================

def exDist : DistFn := fun a b =>
  if a = "A" ∧ b = "B" then some 3000
  else if a = "B" ∧ b = "C" then some 3000
  else none

def exPrice : PriceFn := fun _p _fuel => 500

def exVessel : Vessel :=
  { name := "VESSEL ONE", dwt := 53500, hire_rate := 1000,
    speed_laden := 25/2, speed_ballast := 25/2, speed_laden_eco := 12, speed_ballast_eco := 12,
    fuel_laden_vlsfo := 10, fuel_laden_mgo := 0, fuel_ballast_vlsfo := 10, fuel_ballast_mgo := 0,
    fuel_laden_eco_vlsfo := 8, fuel_laden_eco_mgo := 0,
    fuel_ballast_eco_vlsfo := 8, fuel_ballast_eco_mgo := 0,
    port_idle_mgo := 1, port_working_mgo := 1,
    current_port := "A", etd := 10, bunker_rob_vlsfo := 1000, bunker_rob_mgo := 100,
    is_cargill := true }

def exCargo : Cargo :=
  { name := "CARGO ONE", customer := "CUST", commodity := "ore",
    quantity := 40000, quantity_tolerance := 0, laycan_start := 0, laycan_end := 30,
    freight_rate := 10, load_port := "B", load_rate := 20000, load_turn_time := 0,
    discharge_port := "C", discharge_rate := 20000, discharge_turn_time := 0,
    port_cost_load := 0, port_cost_discharge := 0, commission := 0, is_cargill := true,
    half_freight_threshold := none }

/-- The raw (unrounded) result of the concrete voyage above at standard
speed, no extra delay, baseline bunker prices. -/
def exRaw : VoyageResult :=
  assembleRaw exVessel exCargo defaultConfig 10 10 2 2 0 24 20 true
    40000 40000 0 500 500 200 4 0 0 0 0 0 0 none 0 0 3000 3000

theorem exRaw_eval :
    calcVoyageRaw exDist exPrice defaultConfig exVessel exCargo false 0 1 none none
      = .ok exRaw := by
  unfold calcVoyageRaw
  rw [show exVessel.current_port = "A" from rfl, show exCargo.load_port = "B" from rfl,
    show exCargo.discharge_port = "C" from rfl]
  rw [show exDist "A" "B" = some 3000 from by simp [exDist],
    show exDist "B" "C" = some 3000 from by simp [exDist]]
  simp only [distOrError, legDistance, calcVoyageWithLegs]
  unfold calcVoyageCore exRaw
  norm_num [ecoSel, leBool, waitingCalc, halfFreightSplit, pyTrunc, max_def,
    exVessel, exCargo, exPrice, defaultConfig]

theorem exRound_eval :
    calculate_voyage exDist exPrice defaultConfig exVessel exCargo false 0 1 none none
      = .ok (roundVoyage exRaw) := by
  unfold calculate_voyage
  rw [exRaw_eval]
  rfl

/-- Witness for the C4 TCE identity at the concrete voyage. -/
theorem calculate_voyage_tce_identity_witness :
    ((roundVoyage exRaw).total_days > 1/1000 →
      |(roundVoyage exRaw).tce * (roundVoyage exRaw).total_days
          - ((roundVoyage exRaw).net_freight - ((roundVoyage exRaw).total_bunker_cost
            + (roundVoyage exRaw).port_costs + (roundVoyage exRaw).misc_costs))|
        ≤ (|(roundVoyage exRaw).tce| + (roundVoyage exRaw).total_days + 5) / 200) ∧
    (exRaw.total_days ≤ 1/1000 → (roundVoyage exRaw).tce = 0) :=
  calculate_voyage_tce_identity exDist exPrice exVessel exCargo false 0 1 none none
    exRaw (roundVoyage exRaw) exRaw_eval exRound_eval


theorem bunkeredRaw_cargo_quantity (vessel : Vessel) (cargo : Cargo) (cfg : VoyageConfig)
    (adj : ℚ) (price : PriceFn) (s1 s2 s3 : ℚ) (a0 a1 a2 a3 a4 a5 a6 a7 : ℚ) (cm : Bool)
    (q1 q2 q3 : ℚ) (l1 l2 l3 l4 : ℚ) (p1 p2 p3 p4 p5 p6 : ℚ) (dl : Option ℚ)
    (t : Option String × ℚ × ℚ × ℚ × ℚ) :
    (bunkeredRaw vessel cargo cfg adj price s1 s2 s3
      a0 a1 a2 a3 a4 a5 a6 a7 cm q1 q2 q3 l1 l2 l3 l4 p1 p2 p3 p4 p5 p6 dl t).cargo_quantity
      = q1 := by
  rcases t with ⟨op, w1, w2, w3, w4⟩
  cases op
  · exact rfl
  · exact rfl

theorem bunkeredRaw_gross_freight (vessel : Vessel) (cargo : Cargo) (cfg : VoyageConfig)
    (adj : ℚ) (price : PriceFn) (s1 s2 s3 : ℚ) (a0 a1 a2 a3 a4 a5 a6 a7 : ℚ) (cm : Bool)
    (q1 q2 q3 : ℚ) (l1 l2 l3 l4 : ℚ) (p1 p2 p3 p4 p5 p6 : ℚ) (dl : Option ℚ)
    (t : Option String × ℚ × ℚ × ℚ × ℚ) :
    (bunkeredRaw vessel cargo cfg adj price s1 s2 s3
      a0 a1 a2 a3 a4 a5 a6 a7 cm q1 q2 q3 l1 l2 l3 l4 p1 p2 p3 p4 p5 p6 dl t).gross_freight
      = q2 * cargo.freight_rate + (if q3 > 0 then q3 * cargo.freight_rate * (1/2) else 0) := by
  rcases t with ⟨op, w1, w2, w3, w4⟩
  cases op
  · exact rfl
  · exact rfl

/-- C5: with both leg distances resolvable (and the source default config),
`calculate_voyage` raises the cannot-meet-minimum-cargo error exactly when
`min(floor(quantity*(1+tolerance)), dwt - 3500) <
floor(quantity*(1-tolerance))`; otherwise the loaded quantity equals that
min, and gross freight splits it at any half-freight threshold into
full-rate and half-rate portions. -/
theorem calculate_voyage_min_cargo_spec
    (dist : DistFn) (price : PriceFn) (vessel : Vessel) (cargo : Cargo)
    (eco : Bool) (delay adj : ℚ) (d1 d2 : ℚ)
    (h1 : dist vessel.current_port cargo.load_port = some d1)
    (h2 : dist cargo.load_port cargo.discharge_port = some d2)
    (hq : 0 ≤ cargo.quantity) (ht0 : 0 ≤ cargo.quantity_tolerance)
    (ht1 : cargo.quantity_tolerance ≤ 1) :
    (min (⌊(cargo.quantity : ℚ) * (1 + cargo.quantity_tolerance)⌋) (vessel.dwt - 3500)
        < ⌊(cargo.quantity : ℚ) * (1 - cargo.quantity_tolerance)⌋ →
      calculate_voyage dist price defaultConfig vessel cargo eco delay adj none none
        = .error ("Vessel " ++ vessel.name ++ " cannot meet minimum cargo requirement for "
            ++ cargo.name)) ∧
    (¬ (min (⌊(cargo.quantity : ℚ) * (1 + cargo.quantity_tolerance)⌋) (vessel.dwt - 3500)
        < ⌊(cargo.quantity : ℚ) * (1 - cargo.quantity_tolerance)⌋) →
      ∃ r, calculate_voyage dist price defaultConfig vessel cargo eco delay adj none none
          = .ok r ∧
        r.cargo_quantity = ((min (⌊(cargo.quantity : ℚ) * (1 + cargo.quantity_tolerance)⌋)
            (vessel.dwt - 3500) : ℤ) : ℚ) ∧
        r.gross_freight = round2 ((halfFreightSplit cargo.half_freight_threshold
              ((min (⌊(cargo.quantity : ℚ) * (1 + cargo.quantity_tolerance)⌋)
                (vessel.dwt - 3500) : ℤ) : ℚ)).1 * cargo.freight_rate
          + (if (halfFreightSplit cargo.half_freight_threshold
                ((min (⌊(cargo.quantity : ℚ) * (1 + cargo.quantity_tolerance)⌋)
                  (vessel.dwt - 3500) : ℤ) : ℚ)).2 > 0
             then (halfFreightSplit cargo.half_freight_threshold
                ((min (⌊(cargo.quantity : ℚ) * (1 + cargo.quantity_tolerance)⌋)
                  (vessel.dwt - 3500) : ℤ) : ℚ)).2 * cargo.freight_rate * (1/2)
             else 0))) := by
  have hcq : (0 : ℚ) ≤ (cargo.quantity : ℚ) := by exact_mod_cast hq
  have hA : 0 ≤ (cargo.quantity : ℚ) * (1 + cargo.quantity_tolerance) :=
    mul_nonneg hcq (by linarith)
  have hB : 0 ≤ (cargo.quantity : ℚ) * (1 - cargo.quantity_tolerance) :=
    mul_nonneg hcq (by linarith)
  have hpyA : pyTrunc ((cargo.quantity : ℚ) * (1 + cargo.quantity_tolerance))
      = ⌊(cargo.quantity : ℚ) * (1 + cargo.quantity_tolerance)⌋ := by
    unfold pyTrunc
    rw [if_neg (not_lt.mpr hA)]
  have hpyB : pyTrunc ((cargo.quantity : ℚ) * (1 - cargo.quantity_tolerance))
      = ⌊(cargo.quantity : ℚ) * (1 - cargo.quantity_tolerance)⌋ := by
    unfold pyTrunc
    rw [if_neg (not_lt.mpr hB)]
  have hvc : defaultConfig.vessel_constants = 3500 := rfl
  have hQ : min ((pyTrunc ((cargo.quantity : ℚ) * (1 + cargo.quantity_tolerance)) : ℚ))
        ((vessel.dwt : ℚ) - defaultConfig.vessel_constants)
      = ((min (⌊(cargo.quantity : ℚ) * (1 + cargo.quantity_tolerance)⌋)
          (vessel.dwt - 3500) : ℤ) : ℚ) := by
    rw [hpyA, hvc]
    push_cast
    rfl
  have hcore : calculate_voyage dist price defaultConfig vessel cargo eco delay adj none none
      = (calcVoyageCore dist price defaultConfig vessel cargo eco delay adj d1 d2).map
          roundVoyage := by
    unfold calculate_voyage calcVoyageRaw
    rw [h1, h2]
    simp only [distOrError, legDistance, calcVoyageWithLegs]
  have hcond : (min ((pyTrunc ((cargo.quantity : ℚ) * (1 + cargo.quantity_tolerance)) : ℚ))
        ((vessel.dwt : ℚ) - defaultConfig.vessel_constants)
        < (pyTrunc ((cargo.quantity : ℚ) * (1 - cargo.quantity_tolerance)) : ℚ))
      ↔ (min (⌊(cargo.quantity : ℚ) * (1 + cargo.quantity_tolerance)⌋) (vessel.dwt - 3500)
        < ⌊(cargo.quantity : ℚ) * (1 - cargo.quantity_tolerance)⌋) := by
    rw [hQ, hpyB]
    exact_mod_cast Iff.rfl
  constructor
  · intro hc
    rw [hcore]
    unfold calcVoyageCore
    rw [if_pos (hcond.mpr hc)]
    rfl
  · intro hc
    rw [hcore]
    unfold calcVoyageCore
    rw [if_neg (fun hx => hc (hcond.mp hx))]
    rw [hQ]
    rw [apply_ite (Except.map roundVoyage)]
    split
    · simp only [Except.map]
      refine ⟨_, rfl, ?_, ?_⟩
      · simp only [roundVoyage]
        rw [bunkeredRaw_cargo_quantity]
      · simp only [roundVoyage]
        rw [bunkeredRaw_gross_freight]
    · simp only [Except.map]
      refine ⟨_, rfl, ?_, ?_⟩
      · simp only [roundVoyage]
        rfl
      · simp only [roundVoyage]
        rfl

/-- Witness for C5 at the concrete voyage instance (tolerance 0,
40,000 t within the 50,000 t capacity: the no-raise branch). -/
theorem calculate_voyage_min_cargo_spec_witness :
    ∃ r, calculate_voyage exDist exPrice defaultConfig exVessel exCargo false 0 1 none none
        = .ok r ∧
      r.cargo_quantity = ((min (⌊(exCargo.quantity : ℚ) * (1 + exCargo.quantity_tolerance)⌋)
          (exVessel.dwt - 3500) : ℤ) : ℚ) ∧
      r.gross_freight = round2 ((halfFreightSplit exCargo.half_freight_threshold
            ((min (⌊(exCargo.quantity : ℚ) * (1 + exCargo.quantity_tolerance)⌋)
              (exVessel.dwt - 3500) : ℤ) : ℚ)).1 * exCargo.freight_rate
        + (if (halfFreightSplit exCargo.half_freight_threshold
              ((min (⌊(exCargo.quantity : ℚ) * (1 + exCargo.quantity_tolerance)⌋)
                (exVessel.dwt - 3500) : ℤ) : ℚ)).2 > 0
           then (halfFreightSplit exCargo.half_freight_threshold
              ((min (⌊(exCargo.quantity : ℚ) * (1 + exCargo.quantity_tolerance)⌋)
                (exVessel.dwt - 3500) : ℤ) : ℚ)).2 * exCargo.freight_rate * (1/2)
           else 0)) :=
  (calculate_voyage_min_cargo_spec exDist exPrice exVessel exCargo false 0 1 3000 3000
    (by simp [exDist, exVessel, exCargo])
    (by simp [exDist, exVessel, exCargo])
    (by norm_num [exCargo])
    (by norm_num [exCargo])
    (by norm_num [exCargo])).2
    (by norm_num [exCargo, exVessel])


/-- C9: a custom leg-distance override of 0 is falsy in
`if custom_ballast_distance:` and is ignored: the voyage is computed
exactly as with no override, consulting the resolver, and still fails
with the no-distance error when the resolver cannot find the leg. -/
theorem calculate_voyage_zero_override (dist : DistFn) (price : PriceFn)
    (cfg : VoyageConfig) (vessel : Vessel) (cargo : Cargo) (eco : Bool)
    (delay adj : ℚ) (cb cl : Option ℚ) :
    (calculate_voyage dist price cfg vessel cargo eco delay adj (some 0) cl
      = calculate_voyage dist price cfg vessel cargo eco delay adj none cl) ∧
    (calculate_voyage dist price cfg vessel cargo eco delay adj cb (some 0)
      = calculate_voyage dist price cfg vessel cargo eco delay adj cb none) ∧
    (dist vessel.current_port cargo.load_port = none →
      calculate_voyage dist price cfg vessel cargo eco delay adj (some 0) cl
        = .error ("Cannot find distance: " ++ vessel.current_port ++ " -> "
            ++ cargo.load_port)) := by
  have hleg : ∀ (r : Except String ℚ), legDistance (some 0) r = r := by
    intro r
    simp [legDistance]
  refine ⟨?_, ?_, ?_⟩
  · unfold calculate_voyage calcVoyageRaw
    rw [hleg]
    simp only [legDistance]
  · unfold calculate_voyage calcVoyageRaw
    rw [hleg]
    simp only [legDistance]
  · intro h
    unfold calculate_voyage calcVoyageRaw
    rw [h]
    rw [show distOrError none vessel.current_port cargo.load_port
        = .error ("Cannot find distance: " ++ vessel.current_port ++ " -> "
            ++ cargo.load_port) from rfl]
    rw [hleg]
    cases hcl : legDistance cl (distOrError (dist cargo.load_port cargo.discharge_port)
        cargo.load_port cargo.discharge_port) <;>
      simp [calcVoyageWithLegs, Except.map]

/-- Witness for C9: a resolver with no routes at all. -/
theorem calculate_voyage_zero_override_witness :
    calculate_voyage (fun _ _ => none) exPrice defaultConfig exVessel exCargo false 0 1
        (some 0) none
      = .error ("Cannot find distance: " ++ exVessel.current_port ++ " -> "
          ++ exCargo.load_port) :=
  (calculate_voyage_zero_override (fun _ _ => none) exPrice defaultConfig exVessel exCargo
    false 0 1 (some 0) none).2.2 rfl

-- =========================================================================
-- `PortfolioOptimizer` (pairwise assignment)
-- =========================================================================

/-- One row of the all-voyages DataFrame built by `calculate_all_voyages`
(the display-only columns are omitted; an errored pair is recorded with
`can_make_laycan=False` and is filtered out before any numeric field of it
is read, so its NaN profit/TCE are modelled as 0). -/
structure VoyRow where
  vessel : String
  cargo : String
  can_make_laycan : Bool
  total_days : ℚ
  net_freight : ℚ
  net_profit : ℚ
  tce : ℚ
  result : Option VoyageResult
  error : Option String
deriving DecidableEq

def voyageRowOf (v : Vessel) (c : Cargo) : Except String VoyageResult → VoyRow
  | .ok r => ⟨v.name, c.name, r.can_make_laycan, r.total_days, r.net_freight,
      r.net_profit, r.tce, some r, none⟩
  | .error e => ⟨v.name, c.name, false, 0, 0, 0, 0, none, some e⟩

/-- `PortfolioOptimizer.calculate_all_voyages` (defaults modelled:
`port_delays=None`, `dual_speed_mode=False`, hence a single speed option
per pair). -/
def calculate_all_voyages (dist : DistFn) (price : PriceFn) (cfg : VoyageConfig)
    (vessels : List Vessel) (cargoes : List Cargo)
    (use_eco_speed : Bool) (extra_port_delay bunker_adjustment : ℚ) : List VoyRow :=
  vessels.flatMap (fun v => cargoes.map (fun c =>
    voyageRowOf v c (calculate_voyage dist price cfg v c use_eco_speed
      extra_port_delay bunker_adjustment none none)))

/-- First-occurrence deduplication (`pandas.Series.unique` keeps the order
of first appearance). -/
def uniqueFirstAux (seen : List String) : List String → List String
  | [] => []
  | x :: xs => if x ∈ seen then uniqueFirstAux seen xs
    else x :: uniqueFirstAux (x :: seen) xs

def uniqueFirst (l : List String) : List String := uniqueFirstAux [] l

/-- The `voyage_lookup` dict built by
`set_index(['vessel','cargo']).to_dict('index')`: with duplicate keys the
later row overwrites the earlier one. -/
def rowLookup (valid : List VoyRow) (v c : String) : Option VoyRow :=
  (valid.filter (fun r => r.vessel == v && r.cargo == c)).getLast?

/-- `itertools.combinations`, in its enumeration order. -/
def combinationsL {α : Type} : List α → ℕ → List (List α)
  | _, 0 => [[]]
  | [], _ + 1 => []
  | x :: xs, k + 1 => (combinationsL xs k).map (fun c => x :: c) ++ combinationsL xs (k + 1)

/-- Every way to pick one element of a list together with the remaining
elements, in order. -/
def selections {α : Type} : List α → List (α × List α)
  | [] => []
  | x :: xs => (x, xs) :: (selections xs).map (fun p => (p.1, x :: p.2))

/-- `itertools.permutations(l, k)`, in its enumeration order. -/
def kperms {α : Type} : ℕ → List α → List (List α)
  | 0, _ => [[]]
  | k + 1, l => (selections l).flatMap (fun p => (kperms k p.2).map (fun q => p.1 :: q))

/-- Search state of `_optimize_brute_force` (`best_score` starts at
`float('-inf')`, modelled as `none`). -/
structure BFState where
  best_score : Option ℚ
  best_profit : ℚ
  best_tce : ℚ
  best_assignments : List (String × String × Option VoyageResult)

def beats (s : ℚ) : Option ℚ → Bool
  | none => true
  | some b => decide (s > b)

/-- One vessel-cargo pair of a candidate assignment: missing from the
lookup aborts the whole candidate (`valid_assignment = False`). -/
def buildCandidateCons (v c : String) :
    Option VoyRow → Option (List (String × String × Option VoyageResult) × ℚ × ℚ) →
    Option (List (String × String × Option VoyageResult) × ℚ × ℚ)
  | none, _ => none
  | some _, none => none
  | some row, some (as, p, t) => some ((v, c, row.result) :: as, row.net_profit + p, row.tce + t)

def buildCandidate (lookup : String → String → Option VoyRow) :
    List (String × String) → Option (List (String × String × Option VoyageResult) × ℚ × ℚ)
  | [] => some ([], 0, 0)
  | (v, c) :: rest => buildCandidateCons v c (lookup v c) (buildCandidate lookup rest)

/-- The candidate score: total profit, or TCE averaged over the assignment
count when maximizing `'tce'`. -/
def bfScore (maximize : String) (p t : ℚ) (n : ℕ) : ℚ :=
  if maximize = "profit" then p else if maximize = "tce" then t / (n : ℚ) else p

/-- Keep a completed candidate only if it strictly beats the incumbent
(`score > best_score`). -/
def bfConsider (maximize : String) (st : BFState) :
    Option (List (String × String × Option VoyageResult) × ℚ × ℚ) → BFState
  | none => st
  | some (as, p, t) =>
    if as.length > 0 then
      if beats (bfScore maximize p t as.length) st.best_score then
        ⟨some (bfScore maximize p t as.length), p, t, as⟩
      else st
    else st

def bfStep (lookup : String → String → Option VoyRow) (maximize : String)
    (st : BFState) (pairs : List (String × String)) : BFState :=
  bfConsider maximize st (buildCandidate lookup pairs)

/-- All candidate pair lists of `_optimize_brute_force`: every assignment
size from 1 to `min(n_vessels, n_cargoes)`, every vessel combination,
every cargo permutation, zipped. -/
def allCandidatePairs (valid_vessels valid_cargoes : List String) :
    List (List (String × String)) :=
  (List.range (min valid_vessels.length valid_cargoes.length)).flatMap (fun i =>
    (combinationsL valid_vessels (i + 1)).flatMap (fun vs =>
      (kperms (i + 1) valid_cargoes).map (fun cs => vs.zip cs)))

structure PortfolioResult where
  assignments : List (String × String × Option VoyageResult)
  unassigned_vessels : List String
  unassigned_cargoes : List String
  total_profit : ℚ
  total_tce : ℚ
  avg_tce : ℚ
deriving DecidableEq

/-- `PortfolioOptimizer._optimize_brute_force`. -/
def optimize_brute_force (vessels : List Vessel) (cargoes : List Cargo)
    (valid_vessels valid_cargoes : List String)
    (lookup : String → String → Option VoyRow) (maximize : String) : PortfolioResult :=
  let final := (allCandidatePairs valid_vessels valid_cargoes).foldl
    (bfStep lookup maximize) ⟨none, 0, 0, []⟩
  let assigned_vessels := final.best_assignments.map (fun a => a.1)
  let assigned_cargoes := final.best_assignments.map (fun a => a.2.1)
  { assignments := final.best_assignments
    unassigned_vessels := (vessels.map Vessel.name).filter
      (fun n => ! assigned_vessels.contains n)
    unassigned_cargoes := (cargoes.map Cargo.name).filter
      (fun n => ! assigned_cargoes.contains n)
    total_profit := final.best_profit
    total_tce := final.best_tce
    avg_tce := if final.best_assignments.length > 0
      then final.best_tce / (final.best_assignments.length : ℚ) else 0 }

/-- `PortfolioOptimizer.optimize_assignments` (the brute-force dispatch:
the Hungarian branch at line 299 requires the external `scipy` solver, so
the `HAS_SCIPY = False` configuration is modelled). -/
def optimize_assignments (dist : DistFn) (price : PriceFn) (cfg : VoyageConfig)
    (vessels : List Vessel) (cargoes : List Cargo)
    (use_eco_speed : Bool) (extra_port_delay bunker_adjustment : ℚ)
    (maximize : String) (include_negative_profit : Bool) : PortfolioResult :=
  let df := calculate_all_voyages dist price cfg vessels cargoes use_eco_speed
    extra_port_delay bunker_adjustment
  let valid0 := df.filter (fun r => r.can_make_laycan)
  let valid := if include_negative_profit then valid0
    else valid0.filter (fun r => decide (r.net_profit > 0))
  if valid.isEmpty then
    { assignments := []
      unassigned_vessels := vessels.map Vessel.name
      unassigned_cargoes := cargoes.map Cargo.name
      total_profit := 0
      total_tce := 0
      avg_tce := 0 }
  else
    optimize_brute_force vessels cargoes
      (uniqueFirst (valid.map (fun r => r.vessel)))
      (uniqueFirst (valid.map (fun r => r.cargo)))
      (rowLookup valid) maximize

-- =========================================================================
-- Assignment-list invariants of the pairwise optimizer
-- =========================================================================

theorem uniqueFirstAux_nodup (l : List String) : ∀ seen,
    (uniqueFirstAux seen l).Nodup ∧ ∀ x ∈ uniqueFirstAux seen l, x ∉ seen := by
  induction l with
  | nil => intro seen; exact ⟨List.nodup_nil, by intro x hx; simp [uniqueFirstAux] at hx⟩
  | cons a l ih =>
    intro seen
    by_cases ha : a ∈ seen
    · simp only [uniqueFirstAux, if_pos ha]
      exact ih seen
    · simp only [uniqueFirstAux, if_neg ha]
      obtain ⟨hnd, hmem⟩ := ih (a :: seen)
      refine ⟨List.nodup_cons.mpr
        ⟨fun hx => (hmem a hx) (List.mem_cons_self a seen), hnd⟩, ?_⟩
      intro x hx
      rcases List.mem_cons.mp hx with rfl | hx'
      · exact ha
      · exact fun hs => hmem x hx' (List.mem_cons_of_mem _ hs)

theorem uniqueFirst_nodup (l : List String) : (uniqueFirst l).Nodup :=
  (uniqueFirstAux_nodup l []).1

theorem uniqueFirstAux_subset (l : List String) :
    ∀ seen x, x ∈ uniqueFirstAux seen l → x ∈ l := by
  induction l with
  | nil => intro seen x hx; simp [uniqueFirstAux] at hx
  | cons a l ih =>
    intro seen x hx
    by_cases ha : a ∈ seen
    · simp only [uniqueFirstAux, if_pos ha] at hx
      exact List.mem_cons_of_mem _ (ih seen x hx)
    · simp only [uniqueFirstAux, if_neg ha] at hx
      rcases List.mem_cons.mp hx with rfl | hx'
      · exact List.mem_cons_self _ _
      · exact List.mem_cons_of_mem _ (ih _ x hx')

theorem uniqueFirst_subset (l : List String) (x : String) :
    x ∈ uniqueFirst l → x ∈ l :=
  uniqueFirstAux_subset l [] x

theorem combinationsL_sublist {α : Type} :
    ∀ (l : List α) (k : ℕ) (c : List α), c ∈ combinationsL l k → c.Sublist l := by
  intro l
  induction l with
  | nil =>
    intro k c hc
    cases k with
    | zero => simp [combinationsL] at hc; subst hc; exact List.Sublist.refl []
    | succ k => simp [combinationsL] at hc
  | cons x xs ih =>
    intro k c hc
    cases k with
    | zero => simp [combinationsL] at hc; subst hc; exact List.nil_sublist _
    | succ k =>
      simp only [combinationsL, List.mem_append, List.mem_map] at hc
      rcases hc with ⟨c', hc', rfl⟩ | hc
      · exact List.Sublist.cons₂ x (ih k c' hc')
      · exact List.Sublist.cons x (ih (k + 1) c hc)

theorem selections_perm {α : Type} :
    ∀ (l : List α) (a : α) (rest : List α),
      (a, rest) ∈ selections l → (a :: rest).Perm l := by
  intro l
  induction l with
  | nil => intro a rest h; simp [selections] at h
  | cons x xs ih =>
    intro a rest h
    simp only [selections, List.mem_cons, List.mem_map, Prod.mk.injEq] at h
    rcases h with ⟨rfl, rfl⟩ | ⟨⟨b, r'⟩, hmem, rfl, rfl⟩
    · exact List.Perm.refl _
    · exact (List.Perm.swap x b r').trans (List.Perm.cons x (ih b r' hmem))

theorem kperms_nodup_subset {α : Type} :
    ∀ (k : ℕ) (l : List α), l.Nodup →
      ∀ p ∈ kperms k l, p.Nodup ∧ ∀ x ∈ p, x ∈ l := by
  intro k
  induction k with
  | zero =>
    intro l _ p hp
    simp [kperms] at hp; subst hp
    exact ⟨List.nodup_nil, by intro x hx; simp at hx⟩
  | succ k ih =>
    intro l hl p hp
    simp only [kperms, List.mem_flatMap, List.mem_map] at hp
    obtain ⟨⟨a, rest⟩, hsel, q, hq, rfl⟩ := hp
    have hperm := selections_perm l a rest hsel
    have hnd : (a :: rest).Nodup := hperm.symm.nodup hl
    obtain ⟨hq_nd, hq_sub⟩ := ih rest (List.nodup_cons.mp hnd).2 q hq
    refine ⟨List.nodup_cons.mpr
      ⟨fun hx => (List.nodup_cons.mp hnd).1 (hq_sub a hx), hq_nd⟩, ?_⟩
    intro x hx
    rcases List.mem_cons.mp hx with rfl | hx'
    · exact hperm.mem_iff.mp (List.mem_cons_self _ _)
    · exact hperm.mem_iff.mp (List.mem_cons_of_mem _ (hq_sub x hx'))

theorem zip_map_fst_sublist {α β : Type} :
    ∀ (vs : List α) (cs : List β), ((vs.zip cs).map Prod.fst).Sublist vs := by
  intro vs
  induction vs with
  | nil => intro cs; simp
  | cons v vs ih =>
    intro cs
    cases cs with
    | nil => simp
    | cons c cs =>
      simpa [List.zip_cons_cons] using List.Sublist.cons₂ v (ih cs)

theorem zip_map_snd_sublist {α β : Type} :
    ∀ (cs : List β) (vs : List α), ((vs.zip cs).map Prod.snd).Sublist cs := by
  intro cs
  induction cs with
  | nil => intro vs; cases vs <;> simp
  | cons c cs ih =>
    intro vs
    cases vs with
    | nil => simp
    | cons v vs =>
      simpa [List.zip_cons_cons] using List.Sublist.cons₂ c (ih vs)

theorem buildCandidate_proj (lookup : String → String → Option VoyRow) :
    ∀ (pairs : List (String × String))
      (as : List (String × String × Option VoyageResult)) (p t : ℚ),
      buildCandidate lookup pairs = some (as, p, t) →
      as.map (fun a => a.1) = pairs.map Prod.fst ∧
        as.map (fun a => a.2.1) = pairs.map Prod.snd := by
  intro pairs
  induction pairs with
  | nil =>
    intro as p t h
    simp only [buildCandidate, Option.some.injEq, Prod.mk.injEq] at h
    obtain ⟨h1, -, -⟩ := h
    subst h1; exact ⟨rfl, rfl⟩
  | cons pr rest ih =>
    intro as p t h
    obtain ⟨v, c⟩ := pr
    simp only [buildCandidate] at h
    cases hl : lookup v c with
    | none => rw [hl] at h; simp [buildCandidateCons] at h
    | some row =>
      rw [hl] at h
      cases hb : buildCandidate lookup rest with
      | none => rw [hb] at h; simp [buildCandidateCons] at h
      | some trip =>
        obtain ⟨as', p', t'⟩ := trip
        rw [hb] at h
        simp only [buildCandidateCons, Option.some.injEq, Prod.mk.injEq] at h
        obtain ⟨h1, -, -⟩ := h
        subst h1
        obtain ⟨e1, e2⟩ := ih as' p' t' hb
        simp [List.map_cons, e1, e2]

/-- The at-most-once and containment invariant of an assignment list. -/
def GoodAssign (vn cn : List String)
    (as : List (String × String × Option VoyageResult)) : Prop :=
  (as.map (fun a => a.1)).Nodup ∧ (as.map (fun a => a.2.1)).Nodup ∧
    ∀ a ∈ as, a.1 ∈ vn ∧ a.2.1 ∈ cn

theorem allCandidatePairs_good (vv vc : List String)
    (hvv : vv.Nodup) (hvc : vc.Nodup)
    (pairs : List (String × String)) (hp : pairs ∈ allCandidatePairs vv vc) :
    (pairs.map Prod.fst).Nodup ∧ (pairs.map Prod.snd).Nodup ∧
      ∀ pr ∈ pairs, pr.1 ∈ vv ∧ pr.2 ∈ vc := by
  simp only [allCandidatePairs, List.mem_flatMap, List.mem_map, List.mem_range] at hp
  obtain ⟨i, _, vs, hvs, cs, hcs, rfl⟩ := hp
  have hvsnd : vs.Nodup := (combinationsL_sublist vv (i + 1) vs hvs).nodup hvv
  obtain ⟨hcsnd, hcssub⟩ := kperms_nodup_subset (i + 1) vc hvc cs hcs
  refine ⟨(zip_map_fst_sublist vs cs).nodup hvsnd,
    (zip_map_snd_sublist cs vs).nodup hcsnd, ?_⟩
  intro pr hpr
  obtain ⟨h1, h2⟩ := List.of_mem_zip hpr
  exact ⟨(combinationsL_sublist vv (i + 1) vs hvs).subset h1, hcssub _ h2⟩

theorem bfConsider_cases (m : String) (st : BFState)
    (o : Option (List (String × String × Option VoyageResult) × ℚ × ℚ)) :
    (bfConsider m st o).best_assignments = st.best_assignments ∨
      ∃ p t, o = some ((bfConsider m st o).best_assignments, p, t) := by
  cases o with
  | none => exact Or.inl rfl
  | some trip =>
    obtain ⟨as, p, t⟩ := trip
    simp only [bfConsider]
    split
    · split
      · exact Or.inr ⟨p, t, rfl⟩
      · exact Or.inl rfl
    · exact Or.inl rfl

theorem foldl_bfStep_good (lookup : String → String → Option VoyRow)
    (m : String) (vn cn : List String) :
    ∀ (l : List (List (String × String))),
      (∀ pairs ∈ l, ∀ as p t, buildCandidate lookup pairs = some (as, p, t) →
        GoodAssign vn cn as) →
      ∀ st : BFState, GoodAssign vn cn st.best_assignments →
        GoodAssign vn cn ((l.foldl (bfStep lookup m) st).best_assignments) := by
  intro l
  induction l with
  | nil => intro _ st h; exact h
  | cons pairs rest ih =>
    intro hl st hst
    rw [List.foldl_cons]
    refine ih (fun p hp => hl p (List.mem_cons_of_mem _ hp)) _ ?_
    rcases bfConsider_cases m st (buildCandidate lookup pairs) with h | ⟨p, t, h⟩
    · show GoodAssign vn cn
        ((bfConsider m st (buildCandidate lookup pairs)).best_assignments)
      rw [h]; exact hst
    · exact hl pairs (List.mem_cons_self _ _) _ p t h

theorem voyageRowOf_vessel (v : Vessel) (c : Cargo) (e : Except String VoyageResult) :
    (voyageRowOf v c e).vessel = v.name := by cases e <;> rfl

theorem voyageRowOf_cargo (v : Vessel) (c : Cargo) (e : Except String VoyageResult) :
    (voyageRowOf v c e).cargo = c.name := by cases e <;> rfl

theorem calc_rows_names (dist : DistFn) (price : PriceFn) (cfg : VoyageConfig)
    (vessels : List Vessel) (cargoes : List Cargo) (ue : Bool) (epd ba : ℚ) :
    ∀ r ∈ calculate_all_voyages dist price cfg vessels cargoes ue epd ba,
      r.vessel ∈ vessels.map Vessel.name ∧ r.cargo ∈ cargoes.map Cargo.name := by
  intro r hr
  simp only [calculate_all_voyages, List.mem_flatMap, List.mem_map] at hr
  obtain ⟨v, hv, c, hc, rfl⟩ := hr
  exact ⟨by rw [voyageRowOf_vessel]; exact List.mem_map_of_mem _ hv,
    by rw [voyageRowOf_cargo]; exact List.mem_map_of_mem _ hc⟩

/-- Assigned names, names of the inputs and the unassigned list cover the
inputs exactly: assigned names lie in the inputs, assigned and unassigned
never overlap, and every input name lands in one of the two. -/
def NamePartition (inputs assigned unassigned : List String) : Prop :=
  (∀ n ∈ assigned, n ∈ inputs ∧ n ∉ unassigned) ∧
    (∀ n ∈ unassigned, n ∈ inputs) ∧
    ∀ n ∈ inputs, n ∈ assigned ∨ n ∈ unassigned

theorem filter_partition (inputs assigned : List String)
    (hsub : ∀ n ∈ assigned, n ∈ inputs) :
    NamePartition inputs assigned
      (inputs.filter (fun n => ! assigned.contains n)) := by
  refine ⟨fun n hn => ⟨hsub n hn, ?_⟩,
    fun n hn => List.mem_of_mem_filter hn, fun n hn => ?_⟩
  · intro hmem
    have hc := (List.mem_filter.mp hmem).2
    rw [Bool.not_eq_true'] at hc
    exact absurd hn (by simpa using hc)
  · by_cases h : n ∈ assigned
    · exact Or.inl h
    · exact Or.inr (List.mem_filter.mpr ⟨hn, by simpa using h⟩)

theorem optimize_assignments_invariant (dist : DistFn) (price : PriceFn)
    (cfg : VoyageConfig) (vessels : List Vessel) (cargoes : List Cargo)
    (ue : Bool) (epd ba : ℚ) (m : String) (inc : Bool) :
    GoodAssign (vessels.map Vessel.name) (cargoes.map Cargo.name)
      (optimize_assignments dist price cfg vessels cargoes ue epd ba m inc).assignments ∧
    NamePartition (vessels.map Vessel.name)
      ((optimize_assignments dist price cfg vessels cargoes ue epd ba m inc).assignments.map
        (fun a => a.1))
      (optimize_assignments dist price cfg vessels cargoes ue epd ba m inc).unassigned_vessels ∧
    NamePartition (cargoes.map Cargo.name)
      ((optimize_assignments dist price cfg vessels cargoes ue epd ba m inc).assignments.map
        (fun a => a.2.1))
      (optimize_assignments dist price cfg vessels cargoes ue epd ba m inc).unassigned_cargoes := by
  set df := calculate_all_voyages dist price cfg vessels cargoes ue epd ba with hdf
  set valid := (if inc then df.filter (fun r => r.can_make_laycan)
    else (df.filter (fun r => r.can_make_laycan)).filter
      (fun r => decide (r.net_profit > 0))) with hvalid
  have hvalid_sub : ∀ r ∈ valid, r ∈ df := by
    intro r hr
    rw [hvalid] at hr
    split at hr
    · exact List.mem_of_mem_filter hr
    · exact List.mem_of_mem_filter (List.mem_of_mem_filter hr)
  have hrow : ∀ r ∈ valid,
      r.vessel ∈ vessels.map Vessel.name ∧ r.cargo ∈ cargoes.map Cargo.name :=
    fun r hr => calc_rows_names dist price cfg vessels cargoes ue epd ba r
      (hvalid_sub r hr)
  have hres : optimize_assignments dist price cfg vessels cargoes ue epd ba m inc =
      if valid.isEmpty then
        ⟨[], vessels.map Vessel.name, cargoes.map Cargo.name, 0, 0, 0⟩
      else optimize_brute_force vessels cargoes
        (uniqueFirst (valid.map (fun r => r.vessel)))
        (uniqueFirst (valid.map (fun r => r.cargo)))
        (rowLookup valid) m := by
    rw [hvalid, hdf]
    cases inc <;> rfl
  rw [hres]
  by_cases hempty : valid.isEmpty
  · rw [if_pos hempty]
    refine ⟨⟨List.nodup_nil, List.nodup_nil, by intro a ha; simp at ha⟩, ?_, ?_⟩ <;>
      exact ⟨by intro n hn; simp at hn, fun n hn => hn, fun n hn => Or.inr hn⟩
  · rw [if_neg hempty]
    set vv := uniqueFirst (valid.map (fun r => r.vessel)) with hvv
    set vc := uniqueFirst (valid.map (fun r => r.cargo)) with hvc
    have hvvsub : ∀ n ∈ vv, n ∈ vessels.map Vessel.name := by
      intro n hn
      have := uniqueFirst_subset _ n hn
      obtain ⟨r, hr, rfl⟩ := List.mem_map.mp this
      exact (hrow r hr).1
    have hvcsub : ∀ n ∈ vc, n ∈ cargoes.map Cargo.name := by
      intro n hn
      have := uniqueFirst_subset _ n hn
      obtain ⟨r, hr, rfl⟩ := List.mem_map.mp this
      exact (hrow r hr).2
    have hgood : GoodAssign (vessels.map Vessel.name) (cargoes.map Cargo.name)
        (((allCandidatePairs vv vc).foldl
          (bfStep (rowLookup valid) m) ⟨none, 0, 0, []⟩).best_assignments) := by
      apply foldl_bfStep_good
      · intro pairs hp as p t hbc
        obtain ⟨e1, e2⟩ := buildCandidate_proj (rowLookup valid) pairs as p t hbc
        obtain ⟨hnd1, hnd2, hmem⟩ := allCandidatePairs_good vv vc
          (uniqueFirst_nodup _) (uniqueFirst_nodup _) pairs hp
        refine ⟨e1 ▸ hnd1, e2 ▸ hnd2, ?_⟩
        intro a ha
        have h1 : a.1 ∈ pairs.map Prod.fst := e1 ▸ List.mem_map_of_mem _ ha
        have h2 : a.2.1 ∈ pairs.map Prod.snd := e2 ▸ List.mem_map_of_mem _ ha
        obtain ⟨pr1, hpr1, hpr1e⟩ := List.mem_map.mp h1
        obtain ⟨pr2, hpr2, hpr2e⟩ := List.mem_map.mp h2
        exact ⟨hpr1e ▸ hvvsub _ (hmem pr1 hpr1).1, hpr2e ▸ hvcsub _ (hmem pr2 hpr2).2⟩
      · exact ⟨List.nodup_nil, List.nodup_nil, by intro a ha; simp at ha⟩
    refine ⟨hgood, ?_, ?_⟩
    · exact filter_partition _ _ (fun n hn => by
        obtain ⟨a, ha, rfl⟩ := List.mem_map.mp hn
        exact (hgood.2.2 a ha).1)
    · exact filter_partition _ _ (fun n hn => by
        obtain ⟨a, ha, rfl⟩ := List.mem_map.mp hn
        exact (hgood.2.2 a ha).2)

-- =========================================================================
-- C6: no feasible pair — explicit empty result
-- =========================================================================

/-- C6. If no vessel-cargo pair of the voyage matrix both makes its laycan
and has strictly positive net profit, then `optimize_assignments` (with the
default `include_negative_profit=False`) returns the explicit empty result:
no assignments, every input vessel and cargo unassigned, and zero total
profit, total TCE and average TCE — it does not fail. -/
theorem optimize_assignments_no_feasible (dist : DistFn) (price : PriceFn)
    (cfg : VoyageConfig) (vessels : List Vessel) (cargoes : List Cargo)
    (ue : Bool) (epd ba : ℚ) (maximize : String)
    (h : ∀ r ∈ calculate_all_voyages dist price cfg vessels cargoes ue epd ba,
        ¬(r.can_make_laycan = true ∧ r.net_profit > 0)) :
    optimize_assignments dist price cfg vessels cargoes ue epd ba maximize false =
      ⟨[], vessels.map Vessel.name, cargoes.map Cargo.name, 0, 0, 0⟩ := by
  have hval : (((calculate_all_voyages dist price cfg vessels cargoes ue epd ba).filter
      (fun r => r.can_make_laycan)).filter
        (fun r => decide (r.net_profit > 0))) = [] := by
    rw [List.filter_eq_nil_iff]
    intro r hr
    have hr' := List.mem_filter.mp hr
    simp only [decide_eq_true_eq]
    exact fun hp => h r hr'.1 ⟨hr'.2, hp⟩
  simp only [optimize_assignments, hval, Bool.false_eq_true, if_false,
    List.isEmpty_nil, if_true]

theorem optimize_assignments_no_feasible_witness :
    optimize_assignments (fun _ _ => none) exPrice defaultConfig [exVessel] [exCargo]
      true 0 1 "profit" false =
      ⟨[], [exVessel.name], [exCargo.name], 0, 0, 0⟩ := by
  apply optimize_assignments_no_feasible
  intro r hr
  have hr' : r = voyageRowOf exVessel exCargo
      (.error ("Cannot find distance: " ++ exVessel.current_port ++ " -> "
        ++ exCargo.load_port)) := by
    simpa [calculate_all_voyages, calculate_voyage, calcVoyageRaw, legDistance,
      distOrError, calcVoyageWithLegs, Except.map] using hr
  subst hr'
  simp [voyageRowOf]

-- =========================================================================
-- `FullPortfolioOptimizer` (joint optimization)
-- =========================================================================

/-- Python substring test `needle in hay`. -/
def strContains (needle hay : String) : Bool :=
  decide (needle.data.IsInfix hay.data)

/-- The FFA benchmark rate used for a zero-rate cargo, keyed on the load
port (21 $/MT for Brazilian hubs, 9 $/MT for Australian hubs, 15 $/MT
otherwise). -/
def estimated_rate (load_port : String) : ℚ :=
  let up := load_port.toUpper
  if strContains "BRAZIL" up || strContains "ITAGUAI" up || strContains "TUBARAO" up
    then 21
  else if strContains "AUSTRALIA" up || strContains "HEDLAND" up
      || strContains "DAMPIER" up
    then 9
  else 15

/-- The temporary cargo used by `_calculate_option` when the freight rate
is zero: identical except for the substituted benchmark rate. -/
def temp_cargo (cargo : Cargo) : Cargo :=
  if cargo.freight_rate = 0 then
    { cargo with freight_rate := estimated_rate cargo.load_port }
  else cargo

structure VoyageOption where
  vessel : Vessel
  cargo : Cargo
  result : Option VoyageResult
  can_make_laycan : Bool
  tce : ℚ
  net_profit : ℚ
  voyage_days : ℚ
  recommended_hire_rate : ℚ
  min_freight_rate : ℚ
  vessel_type : String
  cargo_type : String
  error : Option String
deriving DecidableEq

/-- The economics of `_calculate_option` applied to the voyage outcome.
A raised `ValueError` is caught by the `except` handler, as is the
`ZeroDivisionError` from the `1 - commission` divisor of the market-cargo
required gross freight. -/
def mkOption (vessel : Vessel) (cargo : Cargo) (vessel_type cargo_type : String)
    (target_tce : ℚ) : Except String VoyageResult → VoyageOption
  | .error e =>
    ⟨vessel, cargo, none, false, 0, 0, 0, 0, 0, vessel_type, cargo_type, some e⟩
  | .ok result =>
    if cargo_type = "market" ∧ cargo.commission = 1 then
      ⟨vessel, cargo, none, false, 0, 0, 0, 0, 0, vessel_type, cargo_type,
        some "float division by zero"⟩
    else
      let voyage_costs := result.total_bunker_cost + result.port_costs + result.misc_costs
      let max_total_hire := result.net_freight - voyage_costs - target_tce * result.total_days
      let recommended_hire := if vessel_type = "market" then
          max 0 (if result.total_days > 0 then max_total_hire / result.total_days else 0)
        else 0
      let net_profit := if vessel_type = "market" then
          (if recommended_hire > 0 then
            result.net_freight - voyage_costs - recommended_hire * result.total_days
          else result.net_freight - voyage_costs)
        else result.net_profit
      let required_net_freight := if vessel_type = "cargill" then
          voyage_costs + vessel.hire_rate * result.total_days + target_tce * result.total_days
        else voyage_costs + target_tce * result.total_days
      let min_freight := if cargo_type = "market" then
          (if result.cargo_quantity > 0 then
            (required_net_freight / (1 - cargo.commission)) / result.cargo_quantity
          else 0)
        else 0
      ⟨vessel, cargo, some result, result.can_make_laycan, result.tce, net_profit,
        result.total_days, recommended_hire, min_freight, vessel_type, cargo_type, none⟩

/-- `_calculate_option` (source defaults in the voyage call:
`bunker_price_adjustment=1.0`, custom leg distances `None`). -/
def calculate_option (dist : DistFn) (price : PriceFn) (cfg : VoyageConfig)
    (vessel : Vessel) (cargo : Cargo) (vessel_type cargo_type : String)
    (use_eco_speed : Bool) (target_tce extra_port_delay : ℚ) : VoyageOption :=
  mkOption vessel cargo vessel_type cargo_type target_tce
    (calculate_voyage dist price cfg vessel (temp_cargo cargo) use_eco_speed
      extra_port_delay 1 none none)

/-- One row of the options DataFrame (`_option_to_dict`; the display-only
columns are omitted). -/
structure OptRow where
  vessel : String
  cargo : String
  vessel_type : String
  cargo_type : String
  can_make_laycan : Bool
  tce : ℚ
  net_profit : ℚ
  recommended_hire_rate : ℚ
  min_freight_rate : ℚ
  total_days : ℚ
  cargo_qty : ℚ
  net_freight : ℚ
  total_bunker_cost : ℚ
  port_costs : ℚ
  error : Option String
  option : VoyageOption
deriving DecidableEq

def optField (f : VoyageResult → ℚ) : Option VoyageResult → ℚ
  | none => 0
  | some r => f r

def option_to_row (o : VoyageOption) : OptRow :=
  { vessel := o.vessel.name
    cargo := o.cargo.name
    vessel_type := o.vessel_type
    cargo_type := o.cargo_type
    can_make_laycan := o.can_make_laycan
    tce := o.tce
    net_profit := o.net_profit
    recommended_hire_rate := o.recommended_hire_rate
    min_freight_rate := o.min_freight_rate
    total_days := optField VoyageResult.total_days o.result
    cargo_qty := optField VoyageResult.cargo_quantity o.result
    net_freight := optField VoyageResult.net_freight o.result
    total_bunker_cost := optField VoyageResult.total_bunker_cost o.result
    port_costs := optField VoyageResult.port_costs o.result
    error := o.error
    option := o }

/-- `calculate_all_options` (defaults modelled: `dual_speed_mode=False`,
so a single speed option; `port_delays` as a delay function on discharge
ports). Only the three valid vessel-class pairings are generated. -/
def calculate_all_options (dist : DistFn) (price : PriceFn) (cfg : VoyageConfig)
    (cargill_vessels market_vessels : List Vessel)
    (cargill_cargoes market_cargoes : List Cargo)
    (use_eco_speed : Bool) (target_tce : ℚ) (pdel : String → ℚ) : List OptRow :=
  (cargill_vessels.flatMap fun v => cargill_cargoes.map fun c =>
    option_to_row (calculate_option dist price cfg v c "cargill" "cargill"
      use_eco_speed target_tce (pdel c.discharge_port)))
  ++ (cargill_vessels.flatMap fun v => market_cargoes.map fun c =>
    option_to_row (calculate_option dist price cfg v c "cargill" "market"
      use_eco_speed target_tce (pdel c.discharge_port)))
  ++ (market_vessels.flatMap fun v => cargill_cargoes.map fun c =>
    option_to_row (calculate_option dist price cfg v c "market" "cargill"
      use_eco_speed target_tce (pdel c.discharge_port)))

def FFA_MARKET_RATE : ℚ := 18000

def MIN_DAILY_PROFIT : ℚ := 5000

/-- One coverage option for a committed cargo. -/
structure CoverageOpt where
  vessel : String
  vessel_type : String
  profit : ℚ
  option : VoyageOption
  total_days : ℚ
deriving DecidableEq

/-- A valid-options row turned into a coverage entry: a market vessel is
hired at the FFA rate, so the profit is net freight minus voyage costs
(bunkers, ports and the 15000 misc) minus the hire. -/
def coverageOf (row : OptRow) : CoverageOpt :=
  { vessel := row.vessel
    vessel_type := row.vessel_type
    profit := if row.vessel_type = "cargill" then row.net_profit
      else row.net_freight - (row.total_bunker_cost + row.port_costs + 15000)
        - FFA_MARKET_RATE * row.total_days
    option := row.option
    total_days := row.total_days }

def cargo_coverage (valid : List OptRow) (cname : String) : List CoverageOpt :=
  (valid.filter (fun r => r.cargo == cname)).map coverageOf

/-- The per-vessel market-cargo rows admitted to `vessel_market_lookup`:
positive duration, daily profit above `MIN_DAILY_PROFIT` and net profit
above `MIN_DAILY_PROFIT * 30`. -/
def vm_rows (valid : List OptRow) (vname : String) : List OptRow :=
  (valid.filter (fun r => r.vessel == vname && r.cargo_type == "market")).filter
    (fun r => decide (r.total_days > 0) &&
      (decide (r.net_profit / r.total_days > MIN_DAILY_PROFIT) &&
        decide (r.net_profit > MIN_DAILY_PROFIT * 30)))

/-- Dict lookup `vessel_market_lookup[vname][cname]` (with duplicate keys
the later row overwrites the earlier one). -/
def vm_lookup (valid : List OptRow) (vname cname : String) : Option OptRow :=
  ((vm_rows valid vname).filter (fun r => r.cargo == cname)).getLast?

/-- The key list of `vessel_market_lookup[vname]`, in insertion order. -/
def vm_keys (valid : List OptRow) (vname : String) : List String :=
  uniqueFirst ((vm_rows valid vname).map (fun r => r.cargo))

/-- One candidate of `_exhaustive_market_assignments`: a missing lookup
key invalidates the whole candidate. -/
def emaBuild (lookup : String → String → Option OptRow) :
    List (String × String) → Option (List OptRow × ℚ)
  | [] => some ([], 0)
  | (vn, cn) :: rest =>
    match lookup vn cn, emaBuild lookup rest with
    | some row, some (as, p) => some (row :: as, row.net_profit + p)
    | _, _ => none

/-- Keep a valid candidate only on strict profit improvement
(`total_profit > best_profit`, starting from 0). -/
def emaStep (lookup : String → String → Option OptRow)
    (best : ℚ × List OptRow) (pairs : List (String × String)) : ℚ × List OptRow :=
  match emaBuild lookup pairs with
  | none => best
  | some (as, p) => if p > best.1 then (p, as) else best

/-- All candidate pair lists: every size from 0 to the minimum count,
every vessel combination, every cargo permutation (the source enumerates
index tuples, which map one-to-one onto these lists in the same order). -/
def emaPairsList (vnames all_mc : List String) : List (List (String × String)) :=
  (List.range (min vnames.length all_mc.length + 1)).flatMap (fun k =>
    (combinationsL vnames k).flatMap (fun vs =>
      (kperms k all_mc).map (fun cs => vs.zip cs)))

/-- `_exhaustive_market_assignments`.  The source collects the reachable
market cargoes through `list(set(...))`, whose CPython iteration order is
unspecified; it is modelled as first-occurrence order, which only affects
which of several equal-profit optima is kept. -/
def exhaustive_market_assignments (lookup : String → String → Option OptRow)
    (keys : String → List String) (remaining : List Vessel) : ℚ × List OptRow :=
  match remaining with
  | [] => (0, [])
  | _ :: _ =>
    let vnames := remaining.map Vessel.name
    let all_mc := uniqueFirst (vnames.flatMap keys)
    (emaPairsList vnames all_mc).foldl (emaStep lookup) (0, [])

/-- itertools.product over a list of lists, in enumeration order. -/
def productL {α : Type} : List (List α) → List (List α)
  | [] => [[]]
  | l :: ls => l.flatMap (fun x => (productL ls).map (fun xs => x :: xs))

/-- One tracked top combination: `(total_profit, combo_id, coverage_combo,
market_assignments)`. -/
structure ComboEntry where
  profit : ℚ
  id : ℕ
  coverage : List CoverageOpt
  markets : List OptRow
deriving DecidableEq

def entryLt (a b : ComboEntry) : Bool :=
  decide (a.profit < b.profit) || (decide (a.profit = b.profit) && decide (a.id < b.id))

/-- The minimum of the heap, under the lexicographic `(profit, combo_id)`
tuple order used by `heapq`. -/
def heapMin (l : List ComboEntry) : Option ComboEntry :=
  l.foldl (fun acc e => match acc with
    | none => some e
    | some m => if entryLt e m then some e else some m) none

/-- `heappush` below capacity, else `heapreplace` of the minimum when the
new profit strictly beats the minimum profit.  The heap is modelled as a
multiset; with `top_n = 0` the source would raise an `IndexError` on
`top_combinations[0]`, so the theorems below assume `0 < top_n`. -/
def topNStep (top_n : ℕ) (l : List ComboEntry) (e : ComboEntry) : List ComboEntry :=
  if l.length < top_n then e :: l
  else match heapMin l with
    | none => l
    | some m => if e.profit > m.profit then e :: l.erase m else l

/-- The body of the `product` loop: skip a combination that reuses a
vessel, otherwise price it (coverage profit plus the best market-cargo
assignment of the remaining Cargill vessels) and offer it to the top-N
tracker with the next `combo_id`. -/
def comboFold (lookup : String → String → Option OptRow) (keys : String → List String)
    (cargill_vessels : List Vessel) (top_n : ℕ)
    (state : ℕ × List ComboEntry) (combo : List CoverageOpt) : ℕ × List ComboEntry :=
  let vessels_used := combo.map (fun c => c.vessel)
  if vessels_used.Nodup then
    let coverage_profit := (combo.map (fun c => c.profit)).sum
    let remaining := cargill_vessels.filter (fun v => ! vessels_used.contains v.name)
    let ema := exhaustive_market_assignments lookup keys remaining
    let total := coverage_profit + ema.1
    (state.1 + 1, topNStep top_n state.2 ⟨total, state.1 + 1, combo, ema.2⟩)
  else state

/-- The returned portfolio plan (`FullPortfolioResult`; the display-only
hire-offer and freight-bid dictionaries and the `all_options` frame are
omitted). -/
structure FullResult where
  cargill_vessel_assignments : List (String × String × VoyageOption)
  market_vessel_assignments : List (String × String × VoyageOption)
  unassigned_cargill_vessels : List String
  unassigned_cargill_cargoes : List String
  total_profit : ℚ
  total_tce : ℚ
  avg_tce : ℚ
deriving DecidableEq

/-- Step 6: one result from a top combination.  The combination covers the
committed cargoes positionally, market-vessel coverage goes to the market
assignment list, and market-cargo assignments of the remaining Cargill
vessels are appended to the Cargill list.  The TCE sums skip zero values
(`if opt and opt.tce`), and the unassigned lists only enumerate Cargill
vessels and committed cargoes. -/
def buildFull (cargill_vessels : List Vessel) (cargill_cargoes : List Cargo)
    (e : ComboEntry) : FullResult :=
  let covPairs := cargill_cargoes.zip e.coverage
  let cargill_assignments :=
    (covPairs.filter (fun p => p.2.vessel_type == "cargill")).map
      (fun p => (p.2.vessel, p.1.name, p.2.option))
    ++ e.markets.map (fun r => (r.vessel, r.cargo, r.option))
  let market_assignments :=
    (covPairs.filter (fun p => ! (p.2.vessel_type == "cargill"))).map
      (fun p => (p.2.vessel, p.1.name, p.2.option))
  let assigned_vessels := covPairs.map (fun p => p.2.vessel)
    ++ e.markets.map (fun r => r.vessel)
  let assigned_cargoes := covPairs.map (fun p => p.1.name)
    ++ e.markets.map (fun r => r.cargo)
  let total_tce :=
    ((cargill_assignments.filter (fun a => ! (a.2.2.tce == 0))).map
      (fun a => a.2.2.tce)).sum
    + ((market_assignments.filter (fun a => ! (a.2.2.tce == 0))).map
      (fun a => a.2.2.tce)).sum
  let n := cargill_assignments.length + market_assignments.length
  { cargill_vessel_assignments := cargill_assignments
    market_vessel_assignments := market_assignments
    unassigned_cargill_vessels := (cargill_vessels.map Vessel.name).filter
      (fun n => ! assigned_vessels.contains n)
    unassigned_cargill_cargoes := (cargill_cargoes.map Cargo.name).filter
      (fun n => ! assigned_cargoes.contains n)
    total_profit := e.profit
    total_tce := total_tce
    avg_tce := if n > 0 then total_tce / (n : ℚ) else 0 }

/-- The first row of the valid options for one cargo after the stable
descending sort on net profit: the first row attaining the maximum. -/
def pickBestStep (acc : Option OptRow) (r : OptRow) : Option OptRow :=
  match acc with
  | none => some r
  | some b => if r.net_profit > b.net_profit then some r else acc

def pickBest (rows : List OptRow) : Option OptRow :=
  rows.foldl pickBestStep none

/-- One greedy step of `_build_fallback_result`: an uncoverable cargo is
skipped, otherwise the best not-yet-used vessel for it (if any) is
assigned.  State: `(assignments, assigned_vessels, assigned_cargoes)`. -/
def fallbackStep (valid : List OptRow) (uncNames : List String)
    (st : List (String × String × VoyageOption × String) × List String × List String)
    (cargo : Cargo) :
    List (String × String × VoyageOption × String) × List String × List String :=
  if uncNames.contains cargo.name then st
  else
    match pickBest ((valid.filter (fun r => r.cargo == cargo.name)).filter
        (fun r => ! st.2.1.contains r.vessel)) with
    | none => st
    | some best =>
      let t := if best.vessel_type == "cargill" then "cargill_to_cargill"
        else "market_to_cargill"
      (st.1 ++ [(best.vessel, best.cargo, best.option, t)],
        st.2.1 ++ [best.vessel], st.2.2 ++ [best.cargo])

/-- `_build_fallback_result` (the unused market-vessel and market-cargo
display parameters are omitted). -/
def build_fallback_result (cargill_vessels : List Vessel)
    (cargill_cargoes : List Cargo) (valid : List OptRow)
    (uncoverable : List Cargo) : FullResult :=
  let uncNames := uncoverable.map Cargo.name
  let st := cargill_cargoes.foldl (fallbackStep valid uncNames) ([], [], [])
  let assignments := st.1
  let total_profit := ((assignments.filter
    (fun a => ! (a.2.2.1.net_profit == 0))).map (fun a => a.2.2.1.net_profit)).sum
  let total_tce := ((assignments.filter
    (fun a => ! (a.2.2.1.tce == 0))).map (fun a => a.2.2.1.tce)).sum
  { cargill_vessel_assignments :=
      (assignments.filter (fun a => a.2.2.2 == "cargill_to_cargill")).map
        (fun a => (a.1, a.2.1, a.2.2.1))
    market_vessel_assignments :=
      (assignments.filter (fun a => a.2.2.2 == "market_to_cargill")).map
        (fun a => (a.1, a.2.1, a.2.2.1))
    unassigned_cargill_vessels := (cargill_vessels.map Vessel.name).filter
      (fun n => ! st.2.1.contains n)
    unassigned_cargill_cargoes := (cargill_cargoes.map Cargo.name).filter
      (fun n => ! st.2.2.contains n)
    total_profit := total_profit
    total_tce := total_tce
    avg_tce := if assignments.length > 0 then total_tce / (assignments.length : ℚ)
      else 0 }

/-- `optimize_full_portfolio` (defaults modelled: `dual_speed_mode=False`;
the final stable sort on descending profit is `mergeSort`). -/
def optimize_full_portfolio (dist : DistFn) (price : PriceFn) (cfg : VoyageConfig)
    (cargill_vessels market_vessels : List Vessel)
    (cargill_cargoes market_cargoes : List Cargo)
    (use_eco_speed : Bool) (target_tce : ℚ) (top_n : ℕ) (pdel : String → ℚ) :
    List FullResult :=
  let all_options := calculate_all_options dist price cfg cargill_vessels
    market_vessels cargill_cargoes market_cargoes use_eco_speed target_tce pdel
  let valid := all_options.filter (fun r => r.can_make_laycan)
  let uncoverable := cargill_cargoes.filter
    (fun c => (cargo_coverage valid c.name).isEmpty)
  if ! uncoverable.isEmpty then
    [build_fallback_result cargill_vessels cargill_cargoes valid uncoverable]
  else
    let coverage_lists := cargill_cargoes.map (fun c => cargo_coverage valid c.name)
    let final := (productL coverage_lists).foldl
      (comboFold (vm_lookup valid) (vm_keys valid) cargill_vessels top_n) (0, [])
    if final.2.isEmpty then
      [build_fallback_result cargill_vessels cargill_cargoes valid []]
    else
      (final.2.mergeSort (fun a b => decide (b.profit ≤ a.profit))).map
        (buildFull cargill_vessels cargill_cargoes)

-- =========================================================================
-- C2: uncoverable committed cargo — greedy fallback keeps it unassigned
-- =========================================================================

theorem pickBest_foldl_mem :
    ∀ (rows : List OptRow) (acc : Option OptRow) (b : OptRow),
      rows.foldl pickBestStep acc = some b → b ∈ rows ∨ acc = some b := by
  intro rows
  induction rows with
  | nil => intro acc b h; exact Or.inr h
  | cons r rest ih =>
    intro acc b h
    rw [List.foldl_cons] at h
    rcases ih _ b h with h' | h'
    · exact Or.inl (List.mem_cons_of_mem _ h')
    · cases acc with
      | none =>
        simp only [pickBestStep, Option.some.injEq] at h'
        exact Or.inl (h' ▸ List.mem_cons_self _ _)
      | some a =>
        simp only [pickBestStep] at h'
        split at h'
        · rw [Option.some.injEq] at h'
          exact Or.inl (h' ▸ List.mem_cons_self _ _)
        · exact Or.inr h'

theorem pickBest_mem (rows : List OptRow) (b : OptRow)
    (h : pickBest rows = some b) : b ∈ rows := by
  rcases pickBest_foldl_mem rows none b h with h' | h'
  · exact h'
  · cases h'

/-- Every cargo name the greedy fallback records as assigned is the name of
a processed, coverable cargo, hence never an uncoverable name. -/
theorem fallback_assigned_not_uncoverable (valid : List OptRow)
    (uncNames : List String) :
    ∀ (cs : List Cargo)
      (st : List (String × String × VoyageOption × String) × List String × List String),
      (∀ n ∈ st.2.2, n ∉ uncNames) →
      ∀ n ∈ (cs.foldl (fallbackStep valid uncNames) st).2.2, n ∉ uncNames := by
  intro cs
  induction cs with
  | nil => intro st h; exact h
  | cons cargo rest ih =>
    intro st h
    rw [List.foldl_cons]
    apply ih
    by_cases hu : uncNames.contains cargo.name = true
    · simp only [fallbackStep, if_pos hu]; exact h
    · simp only [fallbackStep, if_neg hu]
      cases hpb : pickBest ((valid.filter (fun r => r.cargo == cargo.name)).filter
          (fun r => ! st.2.1.contains r.vessel)) with
      | none => exact h
      | some best =>
        intro n hn
        simp only at hn
        rcases List.mem_append.mp hn with hn' | hn'
        · exact h n hn'
        · have hb := pickBest_mem _ _ hpb
          have hcar : best.cargo = cargo.name := by
            have := (List.mem_filter.mp (List.mem_of_mem_filter hb)).2
            simpa using this
          have hn'' : n = best.cargo := by simpa using hn'
          subst hn''
          rw [hcar]
          intro hmem
          exact hu (by simpa using hmem)

/-- C2. When some committed cargo has no feasible covering option,
`optimize_full_portfolio` returns the single greedy fallback plan and
lists that cargo among the unassigned committed cargoes. -/
theorem optimize_full_portfolio_uncoverable (dist : DistFn) (price : PriceFn)
    (cfg : VoyageConfig) (cargill_vessels market_vessels : List Vessel)
    (cargill_cargoes market_cargoes : List Cargo)
    (ue : Bool) (tt : ℚ) (top_n : ℕ) (pdel : String → ℚ) (c : Cargo)
    (hc : c ∈ cargill_cargoes)
    (hcov : cargo_coverage ((calculate_all_options dist price cfg cargill_vessels
        market_vessels cargill_cargoes market_cargoes ue tt pdel).filter
        (fun r => r.can_make_laycan)) c.name = []) :
    ∃ res, optimize_full_portfolio dist price cfg cargill_vessels market_vessels
        cargill_cargoes market_cargoes ue tt top_n pdel = [res] ∧
      c.name ∈ res.unassigned_cargill_cargoes := by
  set valid := (calculate_all_options dist price cfg cargill_vessels
    market_vessels cargill_cargoes market_cargoes ue tt pdel).filter
    (fun r => r.can_make_laycan) with hvalid
  set uncoverable := cargill_cargoes.filter
    (fun c' => (cargo_coverage valid c'.name).isEmpty) with huncov
  have hcu : c ∈ uncoverable := by
    rw [huncov]
    exact List.mem_filter.mpr ⟨hc, by rw [hcov]; rfl⟩
  have hne : uncoverable.isEmpty = false := by
    cases he : uncoverable with
    | nil => rw [he] at hcu; cases hcu
    | cons a l => rfl
  have hres : optimize_full_portfolio dist price cfg cargill_vessels market_vessels
      cargill_cargoes market_cargoes ue tt top_n pdel =
      [build_fallback_result cargill_vessels cargill_cargoes valid uncoverable] := by
    simp only [optimize_full_portfolio, ← hvalid, ← huncov, hne, Bool.not_false, if_true]
  refine ⟨_, hres, ?_⟩
  show c.name ∈ (cargill_cargoes.map Cargo.name).filter (fun n =>
    ! (cargill_cargoes.foldl (fallbackStep valid (uncoverable.map Cargo.name))
      ([], [], [])).2.2.contains n)
  refine List.mem_filter.mpr ⟨List.mem_map_of_mem _ hc, ?_⟩
  have hnotin : c.name ∉ (cargill_cargoes.foldl
      (fallbackStep valid (uncoverable.map Cargo.name)) ([], [], [])).2.2 := by
    intro hmem
    exact fallback_assigned_not_uncoverable valid (uncoverable.map Cargo.name)
      cargill_cargoes ([], [], []) (by intro n hn; cases hn) c.name hmem
      (List.mem_map_of_mem _ hcu)
  simpa using hnotin

theorem optimize_full_portfolio_uncoverable_witness :
    ∃ res, optimize_full_portfolio exDist exPrice defaultConfig [] [] [exCargo] []
        false 18000 1 (fun _ => 0) = [res] ∧
      exCargo.name ∈ res.unassigned_cargill_cargoes :=
  optimize_full_portfolio_uncoverable exDist exPrice defaultConfig [] [] [exCargo] []
    false 18000 1 (fun _ => 0) exCargo (List.mem_cons_self _ _) rfl

-- =========================================================================
-- Origin of the rows and entries of the joint optimizer
-- =========================================================================

theorem mkOption_fields (v : Vessel) (c : Cargo) (vt ct : String) (tt : ℚ)
    (e : Except String VoyageResult) :
    (mkOption v c vt ct tt e).vessel = v ∧ (mkOption v c vt ct tt e).cargo = c ∧
      (mkOption v c vt ct tt e).vessel_type = vt ∧
      (mkOption v c vt ct tt e).cargo_type = ct := by
  cases e with
  | error e => exact ⟨rfl, rfl, rfl, rfl⟩
  | ok r =>
    by_cases h : ct = "market" ∧ c.commission = 1
    · simp [mkOption, if_pos h]
    · simp [mkOption, if_neg h]

/-- Every options row is its own option re-serialized, and comes from one
of the three generated vessel-class blocks. -/
theorem all_options_block (dist : DistFn) (price : PriceFn) (cfg : VoyageConfig)
    (cv mv : List Vessel) (cc mc : List Cargo) (ue : Bool) (tt : ℚ)
    (pdel : String → ℚ) :
    ∀ r ∈ calculate_all_options dist price cfg cv mv cc mc ue tt pdel,
      r = option_to_row r.option ∧
      ((r.vessel_type = "cargill" ∧ r.cargo_type = "cargill" ∧
          r.vessel ∈ cv.map Vessel.name ∧ r.cargo ∈ cc.map Cargo.name) ∨
       (r.vessel_type = "cargill" ∧ r.cargo_type = "market" ∧
          r.vessel ∈ cv.map Vessel.name ∧ r.cargo ∈ mc.map Cargo.name) ∨
       (r.vessel_type = "market" ∧ r.cargo_type = "cargill" ∧
          r.vessel ∈ mv.map Vessel.name ∧ r.cargo ∈ cc.map Cargo.name)) := by
  intro r hr
  simp only [calculate_all_options, List.mem_append, List.mem_flatMap,
    List.mem_map] at hr
  rcases hr with (⟨v, hv, c, hc, rfl⟩ | ⟨v, hv, c, hc, rfl⟩) | ⟨v, hv, c, hc, rfl⟩
  · obtain ⟨h1, h2, h3, h4⟩ := mkOption_fields v c "cargill" "cargill" tt
      (calculate_voyage dist price cfg v (temp_cargo c) ue (pdel c.discharge_port) 1
        none none)
    exact ⟨rfl, Or.inl ⟨h3, h4, by
      show (calculate_option dist price cfg v c _ _ _ _ _).vessel.name ∈ _
      rw [show (calculate_option dist price cfg v c "cargill" "cargill" ue tt
        (pdel c.discharge_port)).vessel = v from h1]
      exact List.mem_map_of_mem _ hv, by
      show (calculate_option dist price cfg v c _ _ _ _ _).cargo.name ∈ _
      rw [show (calculate_option dist price cfg v c "cargill" "cargill" ue tt
        (pdel c.discharge_port)).cargo = c from h2]
      exact List.mem_map_of_mem _ hc⟩⟩
  · obtain ⟨h1, h2, h3, h4⟩ := mkOption_fields v c "cargill" "market" tt
      (calculate_voyage dist price cfg v (temp_cargo c) ue (pdel c.discharge_port) 1
        none none)
    exact ⟨rfl, Or.inr (Or.inl ⟨h3, h4, by
      show (calculate_option dist price cfg v c _ _ _ _ _).vessel.name ∈ _
      rw [show (calculate_option dist price cfg v c "cargill" "market" ue tt
        (pdel c.discharge_port)).vessel = v from h1]
      exact List.mem_map_of_mem _ hv, by
      show (calculate_option dist price cfg v c _ _ _ _ _).cargo.name ∈ _
      rw [show (calculate_option dist price cfg v c "cargill" "market" ue tt
        (pdel c.discharge_port)).cargo = c from h2]
      exact List.mem_map_of_mem _ hc⟩)⟩
  · obtain ⟨h1, h2, h3, h4⟩ := mkOption_fields v c "market" "cargill" tt
      (calculate_voyage dist price cfg v (temp_cargo c) ue (pdel c.discharge_port) 1
        none none)
    exact ⟨rfl, Or.inr (Or.inr ⟨h3, h4, by
      show (calculate_option dist price cfg v c _ _ _ _ _).vessel.name ∈ _
      rw [show (calculate_option dist price cfg v c "market" "cargill" ue tt
        (pdel c.discharge_port)).vessel = v from h1]
      exact List.mem_map_of_mem _ hv, by
      show (calculate_option dist price cfg v c _ _ _ _ _).cargo.name ∈ _
      rw [show (calculate_option dist price cfg v c "market" "cargill" ue tt
        (pdel c.discharge_port)).cargo = c from h2]
      exact List.mem_map_of_mem _ hc⟩)⟩

theorem vm_rows_spec (valid : List OptRow) (vn : String) (r : OptRow)
    (h : r ∈ vm_rows valid vn) :
    r ∈ valid ∧ r.vessel = vn ∧ r.cargo_type = "market" ∧ r.total_days > 0 ∧
      r.net_profit / r.total_days > 5000 ∧ r.net_profit > 150000 := by
  obtain ⟨hin, hcond⟩ := List.mem_filter.mp h
  obtain ⟨hval, hvc⟩ := List.mem_filter.mp hin
  simp only [Bool.and_eq_true, beq_iff_eq, decide_eq_true_eq] at hvc hcond
  refine ⟨hval, hvc.1, hvc.2, hcond.1, hcond.2.1, ?_⟩
  have := hcond.2.2
  rw [show MIN_DAILY_PROFIT * 30 = 150000 from by norm_num [MIN_DAILY_PROFIT]] at this
  exact this

theorem getLast?_mem_of_eq {α : Type} :
    ∀ (l : List α) (a : α), l.getLast? = some a → a ∈ l := by
  intro l
  induction l with
  | nil => intro a h; cases h
  | cons x xs ih =>
    intro a h
    cases xs with
    | nil =>
      simp only [List.getLast?_singleton, Option.some.injEq] at h
      exact h ▸ List.mem_cons_self _ _
    | cons y ys =>
      rw [List.getLast?_cons_cons] at h
      exact List.mem_cons_of_mem _ (ih a h)

theorem vm_lookup_spec (valid : List OptRow) (vn cn : String) (r : OptRow)
    (h : vm_lookup valid vn cn = some r) :
    r ∈ vm_rows valid vn ∧ r.cargo = cn := by
  have hmem := getLast?_mem_of_eq _ _ h
  obtain ⟨hin, hcn⟩ := List.mem_filter.mp hmem
  exact ⟨hin, by simpa using hcn⟩

theorem emaBuild_rows (lookup : String → String → Option OptRow) :
    ∀ (pairs : List (String × String)) (as : List OptRow) (p : ℚ),
      emaBuild lookup pairs = some (as, p) →
      ∀ r ∈ as, ∃ vc ∈ pairs, lookup vc.1 vc.2 = some r := by
  intro pairs
  induction pairs with
  | nil =>
    intro as p h r hr
    simp only [emaBuild, Option.some.injEq, Prod.mk.injEq] at h
    obtain ⟨h1, -⟩ := h
    subst h1; cases hr
  | cons vc rest ih =>
    intro as p h r hr
    obtain ⟨vn, cn⟩ := vc
    simp only [emaBuild] at h
    cases hl : lookup vn cn with
    | none => rw [hl] at h; simp at h
    | some row =>
      rw [hl] at h
      cases hb : emaBuild lookup rest with
      | none => rw [hb] at h; simp at h
      | some pr =>
        obtain ⟨as', p'⟩ := pr
        rw [hb] at h
        simp only [Option.some.injEq, Prod.mk.injEq] at h
        obtain ⟨h1, -⟩ := h
        subst h1
        rcases List.mem_cons.mp hr with rfl | hr'
        · exact ⟨(vn, cn), List.mem_cons_self _ _, hl⟩
        · obtain ⟨vc', hvc', hlk⟩ := ih as' p' hb r hr'
          exact ⟨vc', List.mem_cons_of_mem _ hvc', hlk⟩

theorem emaBuild_proj (lookup : String → String → Option OptRow)
    (hlk : ∀ vn cn r, lookup vn cn = some r → r.vessel = vn ∧ r.cargo = cn) :
    ∀ (pairs : List (String × String)) (as : List OptRow) (p : ℚ),
      emaBuild lookup pairs = some (as, p) →
      as.map (fun r => r.vessel) = pairs.map Prod.fst ∧
        as.map (fun r => r.cargo) = pairs.map Prod.snd := by
  intro pairs
  induction pairs with
  | nil =>
    intro as p h
    simp only [emaBuild, Option.some.injEq, Prod.mk.injEq] at h
    obtain ⟨h1, -⟩ := h
    subst h1; exact ⟨rfl, rfl⟩
  | cons vc rest ih =>
    intro as p h
    obtain ⟨vn, cn⟩ := vc
    simp only [emaBuild] at h
    cases hl : lookup vn cn with
    | none => rw [hl] at h; simp at h
    | some row =>
      rw [hl] at h
      cases hb : emaBuild lookup rest with
      | none => rw [hb] at h; simp at h
      | some pr =>
        obtain ⟨as', p'⟩ := pr
        rw [hb] at h
        simp only [Option.some.injEq, Prod.mk.injEq] at h
        obtain ⟨h1, -⟩ := h
        subst h1
        obtain ⟨e1, e2⟩ := ih as' p' hb
        obtain ⟨hv, hc⟩ := hlk vn cn row hl
        simp [List.map_cons, e1, e2, hv, hc]

/-- Elements of the running best of the exhaustive market search all come
from one candidate, itself drawn from the enumerated pair lists. -/
theorem ema_foldl_shape (lookup : String → String → Option OptRow)
    (Q : List OptRow → Prop) :
    ∀ (l : List (List (String × String))) (best : ℚ × List OptRow),
      (∀ pairs ∈ l, ∀ as p, emaBuild lookup pairs = some (as, p) → Q as) →
      Q best.2 →
      Q ((l.foldl (emaStep lookup) best).2) := by
  intro l
  induction l with
  | nil => intro _ _ h; exact h
  | cons pairs rest ih =>
    intro best hl hb
    rw [List.foldl_cons]
    refine ih _ (fun q hq => hl q (List.mem_cons_of_mem _ hq)) ?_
    show Q (emaStep lookup best pairs).2
    cases he : emaBuild lookup pairs with
    | none => simp only [emaStep, he]; exact hb
    | some pr =>
      obtain ⟨as, p⟩ := pr
      simp only [emaStep, he]
      split
      · exact hl pairs (List.mem_cons_self _ _) as p he
      · exact hb

theorem topNStep_subset (tn : ℕ) (l : List ComboEntry) (e x : ComboEntry)
    (hx : x ∈ topNStep tn l e) : x = e ∨ x ∈ l := by
  unfold topNStep at hx
  by_cases hlen : l.length < tn
  · rw [if_pos hlen] at hx
    rcases List.mem_cons.mp hx with rfl | h
    · exact Or.inl rfl
    · exact Or.inr h
  · rw [if_neg hlen] at hx
    cases hm : heapMin l with
    | none =>
      rw [hm] at hx
      exact Or.inr hx
    | some m =>
      rw [hm] at hx
      dsimp only at hx
      by_cases hp : e.profit > m.profit
      · rw [if_pos hp] at hx
        rcases List.mem_cons.mp hx with rfl | h
        · exact Or.inl rfl
        · exact Or.inr (List.mem_of_mem_erase h)
      · rw [if_neg hp] at hx
        exact Or.inr hx

/-- The provenance of an entry of the top-combination tracker. -/
def EntryOrigin (lookup : String → String → Option OptRow)
    (keys : String → List String) (cargill_vessels : List Vessel)
    (cl : List (List CoverageOpt)) (e : ComboEntry) : Prop :=
  e.coverage ∈ productL cl ∧
    (e.coverage.map (fun c => c.vessel)).Nodup ∧
    e.markets = (exhaustive_market_assignments lookup keys
      (cargill_vessels.filter
        (fun v => ! (e.coverage.map (fun c => c.vessel)).contains v.name))).2

theorem comboFold_entries (lookup : String → String → Option OptRow)
    (keys : String → List String) (cv : List Vessel) (tn : ℕ)
    (cl : List (List CoverageOpt)) :
    ∀ (l : List (List CoverageOpt)), (∀ x ∈ l, x ∈ productL cl) →
      ∀ (st : ℕ × List ComboEntry),
        (∀ e ∈ st.2, EntryOrigin lookup keys cv cl e) →
        ∀ e ∈ (l.foldl (comboFold lookup keys cv tn) st).2,
          EntryOrigin lookup keys cv cl e := by
  intro l
  induction l with
  | nil => intro _ st h; exact h
  | cons combo rest ih =>
    intro hl st hst
    rw [List.foldl_cons]
    apply ih (fun x hx => hl x (List.mem_cons_of_mem _ hx))
    intro e he
    by_cases hnd : (combo.map (fun c => c.vessel)).Nodup
    · simp only [comboFold, if_pos hnd] at he
      have hsub := topNStep_subset _ _ _ _ he
      rcases hsub with heq | hmem
      · subst heq
        exact ⟨hl combo (List.mem_cons_self _ _), hnd, rfl⟩
      · exact hst e hmem
    · simp only [comboFold, if_neg hnd] at he
      exact hst e he

theorem productL_forall₂ {α : Type} :
    ∀ (ls : List (List α)) (xs : List α),
      xs ∈ productL ls → List.Forall₂ (fun x l => x ∈ l) xs ls := by
  intro ls
  induction ls with
  | nil =>
    intro xs hxs
    simp only [productL, List.mem_singleton] at hxs
    subst hxs; constructor
  | cons l rest ih =>
    intro xs hxs
    simp only [productL, List.mem_flatMap, List.mem_map] at hxs
    obtain ⟨x, hx, ys, hys, rfl⟩ := hxs
    exact List.Forall₂.cons hx (ih ys hys)

theorem forall₂_mem_left {α β : Type} {R : α → β → Prop} :
    ∀ {xs : List α} {ls : List β}, List.Forall₂ R xs ls →
      ∀ x ∈ xs, ∃ l ∈ ls, R x l := by
  intro xs ls h
  induction h with
  | nil => intro x hx; cases hx
  | @cons a b as bs hR htail ih =>
    intro x hx
    rcases List.mem_cons.mp hx with rfl | hx'
    · exact ⟨b, List.mem_cons_self _ _, hR⟩
    · obtain ⟨l, hl, hR'⟩ := ih x hx'
      exact ⟨l, List.mem_cons_of_mem _ hl, hR'⟩

theorem cargo_coverage_mem (valid : List OptRow) (cname : String)
    (cov : CoverageOpt) (h : cov ∈ cargo_coverage valid cname) :
    ∃ r ∈ valid, cov = coverageOf r ∧ r.cargo = cname := by
  simp only [cargo_coverage, List.mem_map] at h
  obtain ⟨r, hr, rfl⟩ := h
  exact ⟨r, List.mem_of_mem_filter hr, rfl, by
    simpa using (List.mem_filter.mp hr).2⟩

/-- Every market-cargo assignment row selected by the exhaustive search
passed the `vessel_market_lookup` admission thresholds. -/
theorem ema_snd_vm (valid : List OptRow) (remaining : List Vessel) :
    ∀ r ∈ (exhaustive_market_assignments (vm_lookup valid) (vm_keys valid)
        remaining).2,
      ∃ vn, r ∈ vm_rows valid vn := by
  cases remaining with
  | nil => intro r hr; cases hr
  | cons v vs =>
    intro r hr
    refine ema_foldl_shape (vm_lookup valid)
      (fun as => ∀ r ∈ as, ∃ vn, r ∈ vm_rows valid vn) _ _ ?_ ?_ r hr
    · intro pairs _ as p hb r' hr'
      obtain ⟨vc, _, hlk⟩ := emaBuild_rows _ pairs as p hb r' hr'
      exact ⟨vc.1, (vm_lookup_spec valid vc.1 vc.2 r' hlk).1⟩
    · intro r' hr'; cases hr'

/-- Every triple the greedy fallback accumulates is a valid row for one of
the processed committed cargoes. -/
theorem fallback_rows_origin (valid : List OptRow) (uncNames : List String)
    (cc0 : List Cargo) :
    ∀ (cs : List Cargo), (∀ c ∈ cs, c ∈ cc0) →
      ∀ (st : List (String × String × VoyageOption × String) × List String × List String),
        (∀ a ∈ st.1, ∃ r ∈ valid, ∃ c' ∈ cc0, a.2.2.1 = r.option ∧ r.cargo = c'.name) →
        ∀ a ∈ (cs.foldl (fallbackStep valid uncNames) st).1,
          ∃ r ∈ valid, ∃ c' ∈ cc0, a.2.2.1 = r.option ∧ r.cargo = c'.name := by
  intro cs
  induction cs with
  | nil => intro _ st h; exact h
  | cons cargo rest ih =>
    intro hcs st hst
    rw [List.foldl_cons]
    apply ih (fun c hc => hcs c (List.mem_cons_of_mem _ hc))
    by_cases hu : uncNames.contains cargo.name = true
    · simp only [fallbackStep, if_pos hu]; exact hst
    · simp only [fallbackStep, if_neg hu]
      cases hpb : pickBest ((valid.filter (fun r => r.cargo == cargo.name)).filter
          (fun r => ! st.2.1.contains r.vessel)) with
      | none => exact hst
      | some best =>
        intro a ha
        simp only at ha
        rcases List.mem_append.mp ha with ha' | ha'
        · exact hst a ha'
        · have hb := pickBest_mem _ _ hpb
          have hbv : best ∈ valid := List.mem_of_mem_filter (List.mem_of_mem_filter hb)
          have hbc : best.cargo = cargo.name := by
            simpa using (List.mem_filter.mp (List.mem_of_mem_filter hb)).2
          have ha'' : a = (best.vessel, best.cargo, best.option,
              if (best.vessel_type == "cargill") = true then "cargill_to_cargill"
              else "market_to_cargill") := by simpa using ha'
          subst ha''
          exact ⟨best, hbv, cargo, hcs cargo (List.mem_cons_self _ _), rfl, hbc⟩

/-- A row of the valid options: its option round-trips, and the market
cargo-type marks exactly the market-cargo block. -/
theorem valid_rows_pack (dist : DistFn) (price : PriceFn) (cfg : VoyageConfig)
    (cv mv : List Vessel) (cc mc : List Cargo) (ue : Bool) (tt : ℚ)
    (pdel : String → ℚ) :
    ∀ r ∈ (calculate_all_options dist price cfg cv mv cc mc ue tt pdel).filter
        (fun r => r.can_make_laycan),
      r = option_to_row r.option ∧
        (r.cargo_type = "market" → r.cargo ∈ mc.map Cargo.name) := by
  intro r hr
  obtain ⟨h1, h2⟩ := all_options_block dist price cfg cv mv cc mc ue tt pdel r
    (List.mem_of_mem_filter hr)
  refine ⟨h1, fun hm => ?_⟩
  rcases h2 with ⟨-, hct, -, -⟩ | ⟨-, -, -, hmem⟩ | ⟨-, hct, -, -⟩
  · rw [hct] at hm; simp at hm
  · exact hmem
  · rw [hct] at hm; simp at hm

/-- C10. In every plan returned by `optimize_full_portfolio`, an
assignment whose option is of the market cargo type satisfies the
admission thresholds of `vessel_market_lookup`: strictly positive voyage
days, daily profit strictly above `5000` and net profit strictly above
`150000`.  In the greedy fallback plans no market-cargo assignment occurs
at all, so the property holds for every returned plan; committed and
market cargo names are assumed distinct, and `top_n` positive (the source
raises an `IndexError` for `top_n = 0`). -/
theorem optimize_full_portfolio_market_thresholds (dist : DistFn)
    (price : PriceFn) (cfg : VoyageConfig) (cv mv : List Vessel)
    (cc mc : List Cargo) (ue : Bool) (tt : ℚ) (top_n : ℕ) (pdel : String → ℚ)
    (htn : 0 < top_n)
    (hdisj : ∀ c ∈ cc, ∀ m ∈ mc, c.name ≠ m.name) :
    ∀ res ∈ optimize_full_portfolio dist price cfg cv mv cc mc ue tt top_n pdel,
      ∀ a ∈ res.cargill_vessel_assignments ++ res.market_vessel_assignments,
        a.2.2.cargo_type = "market" →
          optField VoyageResult.total_days a.2.2.result > 0 ∧
          a.2.2.net_profit / optField VoyageResult.total_days a.2.2.result > 5000 ∧
          a.2.2.net_profit > 150000 := by
  intro res hres a ha hmkt
  set valid := (calculate_all_options dist price cfg cv mv cc mc ue tt pdel).filter
    (fun r => r.can_make_laycan) with hvalid
  have hpack := valid_rows_pack dist price cfg cv mv cc mc ue tt pdel
  rw [← hvalid] at hpack
  set uncoverable := cc.filter (fun c => (cargo_coverage valid c.name).isEmpty)
    with huncov
  set cl := cc.map (fun c => cargo_coverage valid c.name) with hcl
  set final := (productL cl).foldl
    (comboFold (vm_lookup valid) (vm_keys valid) cv top_n) (0, []) with hfinal
  have hsplit : optimize_full_portfolio dist price cfg cv mv cc mc ue tt top_n pdel =
      if ! uncoverable.isEmpty then
        [build_fallback_result cv cc valid uncoverable]
      else if final.2.isEmpty then [build_fallback_result cv cc valid []]
      else (final.2.mergeSort (fun a b => decide (b.profit ≤ a.profit))).map
        (buildFull cv cc) := rfl
  rw [hsplit] at hres
  have hfb : ∀ unc, res = build_fallback_result cv cc valid unc → False := by
    intro unc hresfb
    subst hresfb
    rcases List.mem_append.mp ha with ha' | ha' <;>
    · obtain ⟨x, hx, rfl⟩ := List.mem_map.mp (by
        obtain ⟨x, hx, hxe⟩ := List.mem_map.mp ha'
        exact List.mem_map.mpr ⟨x, hx, hxe⟩)
      obtain ⟨r, hrv, c', hc', hopt, hcar⟩ := fallback_rows_origin valid
        (unc.map Cargo.name) cc cc (fun c hc => hc) ([], [], [])
        (by intro a' ha''; cases ha'') x (List.mem_of_mem_filter hx)
      have hct : r.option.cargo_type = r.cargo_type := by
        conv_rhs => rw [(hpack r hrv).1]
        rfl
      rw [show ((x.1, x.2.1, x.2.2.1) : String × String × VoyageOption).2.2 = x.2.2.1
        from rfl, hopt, hct] at hmkt
      have := (hpack r hrv).2 hmkt
      rw [hcar] at this
      obtain ⟨m, hm, hmn⟩ := List.mem_map.mp this
      exact hdisj c' hc' m hm hmn.symm
  by_cases hu : uncoverable.isEmpty
  · rw [hu, Bool.not_true, if_neg (by simp)] at hres
    by_cases hfe : final.2.isEmpty
    · rw [if_pos hfe] at hres
      exact absurd (List.mem_singleton.mp hres) (fun h => hfb [] h)
    · rw [if_neg hfe] at hres
      obtain ⟨e, he, rfl⟩ := List.mem_map.mp hres
      have hemem : e ∈ final.2 := (List.mergeSort_perm final.2 _).mem_iff.mp he
      have horigin : EntryOrigin (vm_lookup valid) (vm_keys valid) cv cl e :=
        comboFold_entries (vm_lookup valid) (vm_keys valid) cv top_n cl
          (productL cl) (fun x hx => hx) (0, [])
          (by intro e' he'; cases he') e hemem
      obtain ⟨hcovmem, hcovnd, hmarkets⟩ := horigin
      have hf₂ := productL_forall₂ cl e.coverage hcovmem
      -- a is a coverage triple or a market triple
      have hcovcase : ∀ p ∈ (cc.zip e.coverage),
          (p.2.option.cargo_type = "market") → False := by
        intro p hp hpm
        obtain ⟨hp1, hp2⟩ := List.of_mem_zip hp
        obtain ⟨l, hl, hpl⟩ := forall₂_mem_left hf₂ p.2 hp2
        rw [hcl] at hl
        obtain ⟨c', hc', hleq⟩ := List.mem_map.mp hl
        rw [← hleq] at hpl
        obtain ⟨r, hrv, hceq, hcar⟩ := cargo_coverage_mem valid c'.name p.2 hpl
        have hct : r.option.cargo_type = r.cargo_type := by
          conv_rhs => rw [(hpack r hrv).1]
          rfl
        rw [hceq] at hpm
        rw [show (coverageOf r).option = r.option from rfl, hct] at hpm
        have := (hpack r hrv).2 hpm
        rw [hcar] at this
        obtain ⟨m, hm, hmn⟩ := List.mem_map.mp this
        exact hdisj c' hc' m hm hmn.symm
      rcases List.mem_append.mp ha with ha' | ha'
      · rcases List.mem_append.mp ha' with ha'' | ha''
        · obtain ⟨p, hp, rfl⟩ := List.mem_map.mp ha''
          exact absurd hmkt (fun h => hcovcase p (List.mem_of_mem_filter hp) h)
        · obtain ⟨r, hr, rfl⟩ := List.mem_map.mp ha''
          rw [hmarkets] at hr
          obtain ⟨vn, hvm⟩ := ema_snd_vm valid _ r hr
          obtain ⟨hrv, -, -, hd, hdp, hnp⟩ := vm_rows_spec valid vn r hvm
          have hiq : r = option_to_row r.option := (hpack r hrv).1
          refine ⟨?_, ?_, ?_⟩
          · show optField VoyageResult.total_days r.option.result > 0
            have : r.total_days = optField VoyageResult.total_days r.option.result := by
              conv_lhs => rw [hiq]
              rfl
            rw [← this]; exact hd
          · show r.option.net_profit / optField VoyageResult.total_days r.option.result > 5000
            have h1 : r.total_days = optField VoyageResult.total_days r.option.result := by
              conv_lhs => rw [hiq]
              rfl
            have h2 : r.net_profit = r.option.net_profit := by
              conv_lhs => rw [hiq]
              rfl
            rw [← h1, ← h2]; exact hdp
          · show r.option.net_profit > 150000
            have h2 : r.net_profit = r.option.net_profit := by
              conv_lhs => rw [hiq]
              rfl
            rw [← h2]; exact hnp
      · obtain ⟨p, hp, rfl⟩ := List.mem_map.mp ha'
        exact absurd hmkt (fun h => hcovcase p (List.mem_of_mem_filter hp) h)
  · rw [Bool.not_eq_true] at hu
    rw [hu, Bool.not_false, if_pos rfl] at hres
    exact absurd (List.mem_singleton.mp hres) (fun h => hfb uncoverable h)

-- =========================================================================
-- A concrete joint-optimizer run (shared by the witnesses below)
-- =========================================================================

/-- The option produced for the concrete Cargill vessel bidding on the
concrete cargo offered as a market cargo. -/
def exOpt : VoyageOption :=
  mkOption exVessel exCargo "cargill" "market" 18000 (.ok (roundVoyage exRaw))

theorem exTempCargo : temp_cargo exCargo = exCargo := by
  norm_num [temp_cargo, exCargo]

theorem exOpt_eval :
    calculate_option exDist exPrice defaultConfig exVessel exCargo "cargill"
      "market" false 18000 0 = exOpt := by
  unfold calculate_option exOpt
  rw [exTempCargo, exRound_eval]

theorem exOpt_fields :
    exOpt.vessel = exVessel ∧ exOpt.cargo = exCargo ∧
      exOpt.vessel_type = "cargill" ∧ exOpt.cargo_type = "market" ∧
      exOpt.result = some (roundVoyage exRaw) ∧
      exOpt.can_make_laycan = (roundVoyage exRaw).can_make_laycan ∧
      exOpt.net_profit = (roundVoyage exRaw).net_profit := by
  have hcond : ¬("market" = "market" ∧ exCargo.commission = 1) := by
    norm_num [exCargo]
  unfold exOpt mkOption
  dsimp only
  rw [if_neg hcond]
  exact ⟨rfl, rfl, rfl, rfl, rfl, rfl, rfl⟩

theorem exRound_key_fields :
    (roundVoyage exRaw).can_make_laycan = true ∧
      (roundVoyage exRaw).total_days = 24 ∧
      (roundVoyage exRaw).net_profit = 259000 := by
  refine ⟨rfl, ?_, ?_⟩
  · show round2 exRaw.total_days = 24
    rw [show exRaw.total_days = ((2400 : ℤ) : ℚ) / 100 from by
      show (24 : ℚ) = ((2400 : ℤ) : ℚ) / 100; norm_num]
    rw [round2_intCast]; norm_num
  · show round2 exRaw.net_profit = 259000
    have hnp : exRaw.net_profit = 259000 := by
      show (let gross := (40000 : ℚ) * exCargo.freight_rate +
        (if (0:ℚ) > 0 then (0:ℚ) * exCargo.freight_rate * (1/2) else 0); _) = _
      norm_num [exRaw, assembleRaw, exVessel, exCargo, defaultConfig]
    rw [show exRaw.net_profit = ((25900000 : ℤ) : ℚ) / 100 from by rw [hnp]; norm_num]
    rw [round2_intCast]; norm_num

theorem exRow_fields :
    (option_to_row exOpt).vessel = "VESSEL ONE" ∧
      (option_to_row exOpt).cargo = "CARGO ONE" ∧
      (option_to_row exOpt).cargo_type = "market" ∧
      (option_to_row exOpt).can_make_laycan = true ∧
      (option_to_row exOpt).total_days = 24 ∧
      (option_to_row exOpt).net_profit = 259000 := by
  obtain ⟨hv, hc, -, hct, hres, hcml, hnp⟩ := exOpt_fields
  obtain ⟨k1, k2, k3⟩ := exRound_key_fields
  refine ⟨?_, ?_, ?_, ?_, ?_, ?_⟩
  · show exOpt.vessel.name = "VESSEL ONE"
    rw [hv]; rfl
  · show exOpt.cargo.name = "CARGO ONE"
    rw [hc]; rfl
  · exact hct
  · show exOpt.can_make_laycan = true
    rw [hcml]; exact k1
  · show optField VoyageResult.total_days exOpt.result = 24
    rw [hres]; exact k2
  · show exOpt.net_profit = 259000
    rw [hnp]; exact k3

theorem exValidRun :
    (calculate_all_options exDist exPrice defaultConfig [exVessel] [] [] [exCargo]
      false 18000 (fun _ => 0)).filter (fun r => r.can_make_laycan)
    = [option_to_row exOpt] := by
  have hao : calculate_all_options exDist exPrice defaultConfig [exVessel] [] []
      [exCargo] false 18000 (fun _ => 0) = [option_to_row exOpt] := by
    simp only [calculate_all_options, List.flatMap_nil, List.map_nil,
      List.flatMap_cons, List.map_cons, List.nil_append, List.append_nil]
    rw [exOpt_eval]
  rw [hao]
  have := exRow_fields
  simp [this.2.2.2.1]

theorem exVmRows :
    vm_rows [option_to_row exOpt] "VESSEL ONE" = [option_to_row exOpt] := by
  obtain ⟨hv, hc, hct, -, hd, hnp⟩ := exRow_fields
  have hb1 : ((option_to_row exOpt).vessel == "VESSEL ONE"
      && (option_to_row exOpt).cargo_type == "market") = true := by
    rw [hv, hct]; rfl
  have hb2 : (decide ((option_to_row exOpt).total_days > 0) &&
      (decide ((option_to_row exOpt).net_profit / (option_to_row exOpt).total_days
          > MIN_DAILY_PROFIT) &&
        decide ((option_to_row exOpt).net_profit > MIN_DAILY_PROFIT * 30))) = true := by
    rw [hd, hnp]
    norm_num [MIN_DAILY_PROFIT]
  simp only [vm_rows, List.filter_cons, List.filter_nil, hb1, hb2, if_true]

theorem exVmLookup :
    vm_lookup [option_to_row exOpt] "VESSEL ONE" "CARGO ONE"
      = some (option_to_row exOpt) := by
  have hc := exRow_fields.2.1
  have hb : ((option_to_row exOpt).cargo == "CARGO ONE") = true := by rw [hc]; rfl
  simp only [vm_lookup, exVmRows, List.filter_cons, List.filter_nil, hb, if_true,
    List.getLast?_singleton]

theorem exVmKeys :
    vm_keys [option_to_row exOpt] "VESSEL ONE" = ["CARGO ONE"] := by
  have hc := exRow_fields.2.1
  simp only [vm_keys, exVmRows, List.map_cons, List.map_nil, hc]
  simp [uniqueFirst, uniqueFirstAux]

theorem exEmaStep1 :
    emaStep (vm_lookup [option_to_row exOpt]) (0, []) [] = (0, []) := by
  simp only [emaStep, emaBuild]
  norm_num

theorem exEmaStep2 :
    emaStep (vm_lookup [option_to_row exOpt]) (0, [])
      [("VESSEL ONE", "CARGO ONE")] = (259000, [option_to_row exOpt]) := by
  have hnp := exRow_fields.2.2.2.2.2
  simp only [emaStep, emaBuild, exVmLookup, hnp]
  norm_num

theorem exEma :
    exhaustive_market_assignments (vm_lookup [option_to_row exOpt])
      (vm_keys [option_to_row exOpt]) [exVessel]
    = (259000, [option_to_row exOpt]) := by
  show (emaPairsList ([exVessel].map Vessel.name)
      (uniqueFirst (([exVessel].map Vessel.name).flatMap
        (vm_keys [option_to_row exOpt])))).foldl
      (emaStep (vm_lookup [option_to_row exOpt])) (0, []) = _
  rw [show [exVessel].map Vessel.name = ["VESSEL ONE"] from rfl]
  rw [show (["VESSEL ONE"] : List String).flatMap
      (vm_keys [option_to_row exOpt]) = ["CARGO ONE"] from by
    simp [exVmKeys]]
  rw [show uniqueFirst ["CARGO ONE"] = ["CARGO ONE"] from by
    simp [uniqueFirst, uniqueFirstAux]]
  rw [show emaPairsList ["VESSEL ONE"] ["CARGO ONE"]
      = [[], [("VESSEL ONE", "CARGO ONE")]] from rfl]
  rw [List.foldl_cons, exEmaStep1, List.foldl_cons, exEmaStep2, List.foldl_nil]

theorem exComboFold :
    comboFold (vm_lookup [option_to_row exOpt]) (vm_keys [option_to_row exOpt])
      [exVessel] 1 (0, []) []
    = (1, [⟨259000, 1, [], [option_to_row exOpt]⟩]) := by
  simp only [comboFold, List.map_nil]
  rw [if_pos List.nodup_nil]
  rw [show [exVessel].filter (fun v => ! ([] : List String).contains v.name)
      = [exVessel] from by simp]
  rw [exEma]
  show (0 + 1, topNStep 1 [] ⟨([] : List ℚ).sum + 259000, 0 + 1, [], [option_to_row exOpt]⟩) = _
  norm_num [topNStep]

theorem exJointRun :
    optimize_full_portfolio exDist exPrice defaultConfig [exVessel] [] [] [exCargo]
      false 18000 1 (fun _ => 0)
    = [buildFull [exVessel] [] ⟨259000, 1, [], [option_to_row exOpt]⟩] := by
  simp only [optimize_full_portfolio]
  rw [exValidRun]
  simp only [List.filter_nil, List.map_nil, List.isEmpty_nil, Bool.not_true,
    Bool.false_eq_true, if_false]
  rw [show productL ([] : List (List CoverageOpt)) = [[]] from rfl]
  rw [List.foldl_cons, exComboFold, List.foldl_nil]
  simp only [List.isEmpty_cons, Bool.false_eq_true, if_false]
  rw [List.mergeSort_singleton, List.map_cons, List.map_nil]

/-- Witness for the C10 thresholds at the concrete run: the single
market-cargo assignment of the returned plan satisfies all three
admission thresholds. -/
theorem optimize_full_portfolio_market_thresholds_witness :
    optField VoyageResult.total_days exOpt.result > 0 ∧
      exOpt.net_profit / optField VoyageResult.total_days exOpt.result > 5000 ∧
      exOpt.net_profit > 150000 := by
  have happ := optimize_full_portfolio_market_thresholds exDist exPrice
    defaultConfig [exVessel] [] [] [exCargo] false 18000 1 (fun _ => 0)
    (by norm_num) (by intro c hc; cases hc)
    (buildFull [exVessel] [] ⟨259000, 1, [], [option_to_row exOpt]⟩)
    (by rw [exJointRun]; exact List.mem_singleton.mpr rfl)
    ("VESSEL ONE", "CARGO ONE", exOpt)
    (by
      refine List.mem_append.mpr (Or.inl ?_)
      show ("VESSEL ONE", "CARGO ONE", exOpt) ∈
        ((([] : List Cargo).zip ([] : List CoverageOpt)).filter _).map _
        ++ [option_to_row exOpt].map (fun r => (r.vessel, r.cargo, r.option))
      obtain ⟨hv, hc, -, -, -, -⟩ := exRow_fields
      simp [hv, hc]
      rfl)
    exOpt_fields.2.2.2.1
  exact happ

-- =========================================================================
-- At-most-once and coverage invariants of the joint optimizer
-- =========================================================================

theorem emaPairsList_good (vn mc : List String) (hvn : vn.Nodup) (hmc : mc.Nodup)
    (pairs : List (String × String)) (hp : pairs ∈ emaPairsList vn mc) :
    (pairs.map Prod.fst).Nodup ∧ (pairs.map Prod.snd).Nodup ∧
      ∀ pr ∈ pairs, pr.1 ∈ vn ∧ pr.2 ∈ mc := by
  simp only [emaPairsList, List.mem_flatMap, List.mem_map, List.mem_range] at hp
  obtain ⟨k, _, vs, hvs, cs, hcs, rfl⟩ := hp
  have hvsnd : vs.Nodup := (combinationsL_sublist vn k vs hvs).nodup hvn
  obtain ⟨hcsnd, hcssub⟩ := kperms_nodup_subset k mc hmc cs hcs
  refine ⟨(zip_map_fst_sublist vs cs).nodup hvsnd,
    (zip_map_snd_sublist cs vs).nodup hcsnd, ?_⟩
  intro pr hpr
  obtain ⟨h1, h2⟩ := List.of_mem_zip hpr
  exact ⟨(combinationsL_sublist vn k vs hvs).subset h1, hcssub _ h2⟩

theorem vm_lookup_fields (valid : List OptRow) (vn cn : String) (r : OptRow)
    (h : vm_lookup valid vn cn = some r) : r.vessel = vn ∧ r.cargo = cn := by
  obtain ⟨h1, h2⟩ := vm_lookup_spec valid vn cn r h
  exact ⟨(vm_rows_spec valid vn r h1).2.1, h2⟩

/-- The market-cargo assignment list of the exhaustive search: vessel and
cargo names are each free of repeats, and every row is a valid market-type
row for one of the remaining vessels. -/
theorem ema_markets_pack (valid : List OptRow) (remaining : List Vessel)
    (hrn : (remaining.map Vessel.name).Nodup) :
    ((exhaustive_market_assignments (vm_lookup valid) (vm_keys valid)
        remaining).2.map (fun r => r.vessel)).Nodup ∧
    ((exhaustive_market_assignments (vm_lookup valid) (vm_keys valid)
        remaining).2.map (fun r => r.cargo)).Nodup ∧
    ∀ r ∈ (exhaustive_market_assignments (vm_lookup valid) (vm_keys valid)
        remaining).2,
      r ∈ valid ∧ r.vessel ∈ remaining.map Vessel.name ∧ r.cargo_type = "market" := by
  cases remaining with
  | nil => exact ⟨List.nodup_nil, List.nodup_nil, by intro r hr; cases hr⟩
  | cons v vs =>
    refine ema_foldl_shape (vm_lookup valid)
      (fun as => (as.map (fun r => r.vessel)).Nodup ∧
        (as.map (fun r => r.cargo)).Nodup ∧
        ∀ r ∈ as, r ∈ valid ∧ r.vessel ∈ (v :: vs).map Vessel.name ∧
          r.cargo_type = "market")
      (emaPairsList ((v :: vs).map Vessel.name)
        (uniqueFirst (((v :: vs).map Vessel.name).flatMap (vm_keys valid))))
      (0, []) ?_ ?_
    · intro pairs hp as p hb
      have hlk : ∀ vn cn r, vm_lookup valid vn cn = some r →
          r.vessel = vn ∧ r.cargo = cn := vm_lookup_fields valid
      obtain ⟨e1, e2⟩ := emaBuild_proj (vm_lookup valid) hlk pairs as p hb
      obtain ⟨hnd1, hnd2, hmem⟩ := emaPairsList_good ((v :: vs).map Vessel.name)
        (uniqueFirst (((v :: vs).map Vessel.name).flatMap (vm_keys valid)))
        hrn (uniqueFirst_nodup _) pairs hp
      refine ⟨e1 ▸ hnd1, e2 ▸ hnd2, ?_⟩
      intro r hr
      obtain ⟨vc, hvc, hlook⟩ := emaBuild_rows _ pairs as p hb r hr
      obtain ⟨hvmr, -⟩ := vm_lookup_spec valid vc.1 vc.2 r hlook
      obtain ⟨hval, hves, hct, -, -, -⟩ := vm_rows_spec valid vc.1 r hvmr
      exact ⟨hval, hves ▸ (hmem vc hvc).1, hct⟩
    · exact ⟨List.nodup_nil, List.nodup_nil, by intro r hr; cases hr⟩

/-- Assigned and unassigned names cover the listed inputs without
overlap; assignment lists may also hire outside the inputs. -/
def CoversInputs (inputs assigned unassigned : List String) : Prop :=
  (∀ n ∈ assigned, n ∉ unassigned) ∧ (∀ n ∈ unassigned, n ∈ inputs) ∧
    ∀ n ∈ inputs, n ∈ assigned ∨ n ∈ unassigned

theorem filter_covers (inputs assigned : List String) :
    CoversInputs inputs assigned
      (inputs.filter (fun n => ! assigned.contains n)) := by
  refine ⟨fun n hn hmem => ?_, fun n hn => List.mem_of_mem_filter hn, fun n hn => ?_⟩
  · have hc := (List.mem_filter.mp hmem).2
    rw [Bool.not_eq_true'] at hc
    exact absurd hn (by simpa using hc)
  · by_cases h : n ∈ assigned
    · exact Or.inl h
    · exact Or.inr (List.mem_filter.mpr ⟨hn, by simpa using h⟩)

theorem covers_of_perm (inputs assigned assigned' unassigned : List String)
    (hperm : assigned.Perm assigned')
    (h : CoversInputs inputs assigned' unassigned) :
    CoversInputs inputs assigned unassigned := by
  obtain ⟨h1, h2, h3⟩ := h
  refine ⟨fun n hn => h1 n (hperm.mem_iff.mp hn), h2, fun n hn => ?_⟩
  rcases h3 n hn with h' | h'
  · exact Or.inl (hperm.mem_iff.mpr h')
  · exact Or.inr h'

/-- The per-plan invariant of a top combination: across the two
assignment lists every vessel name and every cargo name occurs at most
once, and the unassigned lists complement the assigned Cargill vessels
and committed cargoes. -/
theorem buildFull_partition (valid : List OptRow) (cv : List Vessel)
    (cc : List Cargo) (mc_names : List String) (e : ComboEntry)
    (hccn : (cc.map Cargo.name).Nodup)
    (hcvn : (cv.map Vessel.name).Nodup)
    (hdisj : ∀ n ∈ cc.map Cargo.name, n ∉ mc_names)
    (hvalidrows : ∀ r ∈ valid, r.cargo_type = "market" → r.cargo ∈ mc_names)
    (horigin : EntryOrigin (vm_lookup valid) (vm_keys valid) cv
      (cc.map (fun c => cargo_coverage valid c.name)) e) :
    (((buildFull cv cc e).cargill_vessel_assignments
        ++ (buildFull cv cc e).market_vessel_assignments).map
      (fun a => a.1)).Nodup ∧
    (((buildFull cv cc e).cargill_vessel_assignments
        ++ (buildFull cv cc e).market_vessel_assignments).map
      (fun a => a.2.1)).Nodup ∧
    CoversInputs (cv.map Vessel.name)
      (((buildFull cv cc e).cargill_vessel_assignments
        ++ (buildFull cv cc e).market_vessel_assignments).map (fun a => a.1))
      (buildFull cv cc e).unassigned_cargill_vessels ∧
    CoversInputs (cc.map Cargo.name)
      (((buildFull cv cc e).cargill_vessel_assignments
        ++ (buildFull cv cc e).market_vessel_assignments).map (fun a => a.2.1))
      (buildFull cv cc e).unassigned_cargill_cargoes := by
  obtain ⟨hcovmem, hcovnd, hmarkets⟩ := horigin
  have hlen : e.coverage.length = cc.length := by
    have := (productL_forall₂ _ _ hcovmem).length_eq
    rw [this, List.length_map]
  have hzf : (cc.zip e.coverage).map Prod.fst = cc :=
    List.map_fst_zip cc e.coverage (le_of_eq hlen.symm)
  have hzs : (cc.zip e.coverage).map Prod.snd = e.coverage :=
    List.map_snd_zip cc e.coverage (le_of_eq hlen)
  set remaining := cv.filter
    (fun v => ! (e.coverage.map (fun c => c.vessel)).contains v.name) with hrem
  have hremn : (remaining.map Vessel.name).Nodup := by
    refine List.Nodup.sublist ?_ hcvn
    exact (List.filter_sublist cv).map Vessel.name
  obtain ⟨hM1, hM2, hM3⟩ := ema_markets_pack valid remaining hremn
  rw [← hmarkets] at hM1 hM2 hM3
  set A := (cc.zip e.coverage).filter (fun p => p.2.vessel_type == "cargill") with hA
  set B := (cc.zip e.coverage).filter
    (fun p => ! (p.2.vessel_type == "cargill")) with hB
  have hABperm : (A ++ B).Perm (cc.zip e.coverage) := List.filter_append_perm _ _
  -- the combined assignment lists, projected to vessel names
  have hasgV : (((buildFull cv cc e).cargill_vessel_assignments
      ++ (buildFull cv cc e).market_vessel_assignments).map (fun a => a.1)).Perm
      (e.coverage.map (fun c => c.vessel) ++ e.markets.map (fun r => r.vessel)) := by
    show ((((A.map (fun p => (p.2.vessel, p.1.name, p.2.option)))
        ++ e.markets.map (fun r => (r.vessel, r.cargo, r.option)))
        ++ B.map (fun p => (p.2.vessel, p.1.name, p.2.option))).map
      (fun a => a.1)).Perm _
    rw [List.map_append, List.map_append, List.map_map, List.map_map, List.map_map]
    rw [show (A.map ((fun a => a.1) ∘ fun p => (p.2.vessel, p.1.name, p.2.option)))
        = A.map (fun p => p.2.vessel) from rfl]
    rw [show (B.map ((fun a => a.1) ∘ fun p => (p.2.vessel, p.1.name, p.2.option)))
        = B.map (fun p => p.2.vessel) from rfl]
    rw [show (e.markets.map ((fun a => a.1) ∘
        fun r => (r.vessel, r.cargo, r.option)))
        = e.markets.map (fun r => r.vessel) from rfl]
    have p1 : ((A.map (fun p => p.2.vessel) ++ e.markets.map (fun r => r.vessel))
        ++ B.map (fun p => p.2.vessel)).Perm
        ((A.map (fun p => p.2.vessel) ++ B.map (fun p => p.2.vessel))
          ++ e.markets.map (fun r => r.vessel)) := by
      rw [List.append_assoc, List.append_assoc]
      exact List.Perm.append_left _ List.perm_append_comm
    have p2 : ((A.map (fun p => p.2.vessel) ++ B.map (fun p => p.2.vessel))
        ++ e.markets.map (fun r => r.vessel)).Perm
        ((cc.zip e.coverage).map (fun p => p.2.vessel)
          ++ e.markets.map (fun r => r.vessel)) := by
      refine List.Perm.append_right _ ?_
      rw [← List.map_append]
      exact hABperm.map _
    have heq : (cc.zip e.coverage).map (fun p => p.2.vessel)
        = e.coverage.map (fun c => c.vessel) := by
      rw [show ((cc.zip e.coverage).map (fun p => p.2.vessel))
          = (((cc.zip e.coverage).map Prod.snd).map (fun c => c.vessel)) from by
        rw [List.map_map]; rfl]
      rw [hzs]
    rw [heq] at p2
    exact p1.trans p2
  have hasgC : (((buildFull cv cc e).cargill_vessel_assignments
      ++ (buildFull cv cc e).market_vessel_assignments).map (fun a => a.2.1)).Perm
      (cc.map Cargo.name ++ e.markets.map (fun r => r.cargo)) := by
    show ((((A.map (fun p => (p.2.vessel, p.1.name, p.2.option)))
        ++ e.markets.map (fun r => (r.vessel, r.cargo, r.option)))
        ++ B.map (fun p => (p.2.vessel, p.1.name, p.2.option))).map
      (fun a => a.2.1)).Perm _
    rw [List.map_append, List.map_append, List.map_map, List.map_map, List.map_map]
    rw [show (A.map ((fun a => a.2.1) ∘ fun p => (p.2.vessel, p.1.name, p.2.option)))
        = A.map (fun p => p.1.name) from rfl]
    rw [show (B.map ((fun a => a.2.1) ∘ fun p => (p.2.vessel, p.1.name, p.2.option)))
        = B.map (fun p => p.1.name) from rfl]
    rw [show (e.markets.map ((fun a => a.2.1) ∘
        fun r => (r.vessel, r.cargo, r.option)))
        = e.markets.map (fun r => r.cargo) from rfl]
    have p1 : ((A.map (fun p => p.1.name) ++ e.markets.map (fun r => r.cargo))
        ++ B.map (fun p => p.1.name)).Perm
        ((A.map (fun p => p.1.name) ++ B.map (fun p => p.1.name))
          ++ e.markets.map (fun r => r.cargo)) := by
      rw [List.append_assoc, List.append_assoc]
      exact List.Perm.append_left _ List.perm_append_comm
    have p2 : ((A.map (fun p => p.1.name) ++ B.map (fun p => p.1.name))
        ++ e.markets.map (fun r => r.cargo)).Perm
        ((cc.zip e.coverage).map (fun p => p.1.name)
          ++ e.markets.map (fun r => r.cargo)) := by
      refine List.Perm.append_right _ ?_
      rw [← List.map_append]
      exact hABperm.map _
    have heq : (cc.zip e.coverage).map (fun p => p.1.name)
        = cc.map Cargo.name := by
      rw [show ((cc.zip e.coverage).map (fun p => p.1.name))
          = (((cc.zip e.coverage).map Prod.fst).map Cargo.name) from by
        rw [List.map_map]; rfl]
      rw [hzf]
    rw [heq] at p2
    exact p1.trans p2
  have hMdisjV : ∀ n ∈ e.markets.map (fun r => r.vessel),
      n ∉ e.coverage.map (fun c => c.vessel) := by
    intro n hn
    obtain ⟨r, hr, rfl⟩ := List.mem_map.mp hn
    obtain ⟨-, hves, -⟩ := hM3 r hr
    obtain ⟨v, hvmem, hveq⟩ := List.mem_map.mp hves
    have hvc := (List.mem_filter.mp hvmem).2
    rw [Bool.not_eq_true'] at hvc
    rw [← hveq]
    simpa using hvc
  have hMC : ∀ n ∈ e.markets.map (fun r => r.cargo), n ∈ mc_names := by
    intro n hn
    obtain ⟨r, hr, rfl⟩ := List.mem_map.mp hn
    obtain ⟨hval, -, hct⟩ := hM3 r hr
    exact hvalidrows r hval hct
  have hndV : (e.coverage.map (fun c => c.vessel)
      ++ e.markets.map (fun r => r.vessel)).Nodup := by
    rw [List.nodup_append]
    exact ⟨hcovnd, hM1, fun n hn hn' => hMdisjV n hn' hn⟩
  have hndC : (cc.map Cargo.name ++ e.markets.map (fun r => r.cargo)).Nodup := by
    rw [List.nodup_append]
    exact ⟨hccn, hM2, fun n hn hn' => hdisj n hn (hMC n hn')⟩
  refine ⟨(hasgV.nodup_iff).mpr hndV, (hasgC.nodup_iff).mpr hndC, ?_, ?_⟩
  · refine covers_of_perm _ _ _ _ hasgV ?_
    have : (buildFull cv cc e).unassigned_cargill_vessels
        = (cv.map Vessel.name).filter (fun n =>
          ! ((cc.zip e.coverage).map (fun p => p.2.vessel)
            ++ e.markets.map (fun r => r.vessel)).contains n) := rfl
    rw [this]
    rw [show ((cc.zip e.coverage).map (fun p => p.2.vessel))
        = e.coverage.map (fun c => c.vessel) from by
      rw [show ((cc.zip e.coverage).map (fun p => p.2.vessel))
          = (((cc.zip e.coverage).map Prod.snd).map (fun c => c.vessel)) from by
        rw [List.map_map]; rfl]
      rw [hzs]]
    exact filter_covers _ _
  · refine covers_of_perm _ _ _ _ hasgC ?_
    have : (buildFull cv cc e).unassigned_cargill_cargoes
        = (cc.map Cargo.name).filter (fun n =>
          ! ((cc.zip e.coverage).map (fun p => p.1.name)
            ++ e.markets.map (fun r => r.cargo)).contains n) := rfl
    rw [this]
    rw [show ((cc.zip e.coverage).map (fun p => p.1.name))
        = cc.map Cargo.name from by
      rw [show ((cc.zip e.coverage).map (fun p => p.1.name))
          = (((cc.zip e.coverage).map Prod.fst).map Cargo.name) from by
        rw [List.map_map]; rfl]
      rw [hzf]]
    exact filter_covers _ _

/-- The running state of the greedy fallback: the two name accumulators
mirror the assignment list, stay repeat-free, and every tag is one of the
two assignment types. -/
theorem fallback_foldl_inv (valid : List OptRow) (uncNames : List String) :
    ∀ (cs : List Cargo)
      (st : List (String × String × VoyageOption × String) × List String × List String),
      st.2.1 = st.1.map (fun a => a.1) →
      st.2.2 = st.1.map (fun a => a.2.1) →
      st.2.1.Nodup → st.2.2.Nodup →
      (∀ a ∈ st.1, a.2.2.2 = "cargill_to_cargill" ∨ a.2.2.2 = "market_to_cargill") →
      (cs.map Cargo.name).Nodup →
      (∀ n ∈ st.2.2, n ∉ cs.map Cargo.name) →
      ((cs.foldl (fallbackStep valid uncNames) st).2.1
          = (cs.foldl (fallbackStep valid uncNames) st).1.map (fun a => a.1) ∧
        (cs.foldl (fallbackStep valid uncNames) st).2.2
          = (cs.foldl (fallbackStep valid uncNames) st).1.map (fun a => a.2.1) ∧
        (cs.foldl (fallbackStep valid uncNames) st).2.1.Nodup ∧
        (cs.foldl (fallbackStep valid uncNames) st).2.2.Nodup ∧
        ∀ a ∈ (cs.foldl (fallbackStep valid uncNames) st).1,
          a.2.2.2 = "cargill_to_cargill" ∨ a.2.2.2 = "market_to_cargill") := by
  intro cs
  induction cs with
  | nil => intro st h1 h2 h3 h4 h5 _ _; exact ⟨h1, h2, h3, h4, h5⟩
  | cons cargo rest ih =>
    intro st h1 h2 h3 h4 h5 hnd hnotin
    rw [List.foldl_cons]
    have hndr : (rest.map Cargo.name).Nodup := (List.nodup_cons.mp
      (by simpa using hnd)).2
    have hcnr : cargo.name ∉ rest.map Cargo.name := (List.nodup_cons.mp
      (by simpa using hnd)).1
    by_cases hu : uncNames.contains cargo.name = true
    · rw [show fallbackStep valid uncNames st cargo = st from by
        simp only [fallbackStep, if_pos hu]]
      exact ih st h1 h2 h3 h4 h5 hndr
        (fun n hn hmem => hnotin n hn (by
          simpa using Or.inr (by simpa using hmem)))
    · cases hpb : pickBest ((valid.filter (fun r => r.cargo == cargo.name)).filter
          (fun r => ! st.2.1.contains r.vessel)) with
      | none =>
        rw [show fallbackStep valid uncNames st cargo = st from by
          simp only [fallbackStep, if_neg hu, hpb]]
        exact ih st h1 h2 h3 h4 h5 hndr
          (fun n hn hmem => hnotin n hn (by
            simpa using Or.inr (by simpa using hmem)))
      | some best =>
        have hb := pickBest_mem _ _ hpb
        have hbc : best.cargo = cargo.name := by
          simpa using (List.mem_filter.mp (List.mem_of_mem_filter hb)).2
        have hbv : best.vessel ∉ st.2.1 := by
          have hcb := (List.mem_filter.mp hb).2
          rw [Bool.not_eq_true'] at hcb
          simpa using hcb
        have hstep : fallbackStep valid uncNames st cargo =
            (st.1 ++ [(best.vessel, best.cargo, best.option,
              if (best.vessel_type == "cargill") = true then "cargill_to_cargill"
              else "market_to_cargill")],
             st.2.1 ++ [best.vessel], st.2.2 ++ [best.cargo]) := by
          simp only [fallbackStep, if_neg hu, hpb]
        rw [hstep]
        refine ih _ ?_ ?_ ?_ ?_ ?_ hndr ?_
        · show st.2.1 ++ [best.vessel]
            = (st.1 ++ [(best.vessel, best.cargo, best.option,
              if (best.vessel_type == "cargill") = true then "cargill_to_cargill"
              else "market_to_cargill")]).map (fun a => a.1)
          rw [List.map_append, ← h1]; rfl
        · show st.2.2 ++ [best.cargo]
            = (st.1 ++ [(best.vessel, best.cargo, best.option,
              if (best.vessel_type == "cargill") = true then "cargill_to_cargill"
              else "market_to_cargill")]).map (fun a => a.2.1)
          rw [List.map_append, ← h2]; rfl
        · show (st.2.1 ++ [best.vessel]).Nodup
          rw [List.nodup_append]
          refine ⟨h3, List.nodup_singleton _, ?_⟩
          intro n hn hmem
          rw [List.mem_singleton.mp hmem] at hn
          exact hbv hn
        · show (st.2.2 ++ [best.cargo]).Nodup
          rw [List.nodup_append]
          refine ⟨h4, List.nodup_singleton _, ?_⟩
          intro n hn hmem
          rw [List.mem_singleton.mp hmem, hbc] at hn
          exact hnotin _ hn (by simp)
        · intro a ha
          rcases List.mem_append.mp ha with ha' | ha'
          · exact h5 a ha'
          · rw [List.mem_singleton.mp ha']
            by_cases ht : (best.vessel_type == "cargill") = true
            · left; simp [ht]
            · right; simp [ht]
        · intro n hn
          rcases List.mem_append.mp hn with hn' | hn'
          · exact fun hmem => hnotin n hn' (by
              simpa using Or.inr (by simpa using hmem))
          · have hnb : n = best.cargo := List.mem_singleton.mp hn'
            rw [hnb, hbc]
            exact hcnr

/-- The per-plan invariant of the greedy fallback result. -/
theorem fallback_partition (valid : List OptRow) (cv : List Vessel)
    (cc : List Cargo) (unc : List Cargo)
    (hccn : (cc.map Cargo.name).Nodup) :
    (((build_fallback_result cv cc valid unc).cargill_vessel_assignments
        ++ (build_fallback_result cv cc valid unc).market_vessel_assignments).map
      (fun a => a.1)).Nodup ∧
    (((build_fallback_result cv cc valid unc).cargill_vessel_assignments
        ++ (build_fallback_result cv cc valid unc).market_vessel_assignments).map
      (fun a => a.2.1)).Nodup ∧
    CoversInputs (cv.map Vessel.name)
      (((build_fallback_result cv cc valid unc).cargill_vessel_assignments
        ++ (build_fallback_result cv cc valid unc).market_vessel_assignments).map
        (fun a => a.1))
      (build_fallback_result cv cc valid unc).unassigned_cargill_vessels ∧
    CoversInputs (cc.map Cargo.name)
      (((build_fallback_result cv cc valid unc).cargill_vessel_assignments
        ++ (build_fallback_result cv cc valid unc).market_vessel_assignments).map
        (fun a => a.2.1))
      (build_fallback_result cv cc valid unc).unassigned_cargill_cargoes := by
  set st := cc.foldl (fallbackStep valid (unc.map Cargo.name)) ([], [], []) with hst
  obtain ⟨h1, h2, h3, h4, h5⟩ := fallback_foldl_inv valid (unc.map Cargo.name) cc
    ([], [], []) rfl rfl List.nodup_nil List.nodup_nil
    (by intro a ha; cases ha) hccn (by intro n hn; cases hn)
  rw [← hst] at h1 h2 h3 h4 h5
  have hcong : ∀ a ∈ st.1, (a.2.2.2 == "market_to_cargill")
      = (! (a.2.2.2 == "cargill_to_cargill")) := by
    intro a ha
    rcases h5 a ha with h | h <;> rw [h] <;> rfl
  have hABperm : (st.1.filter (fun a => a.2.2.2 == "cargill_to_cargill")
      ++ st.1.filter (fun a => a.2.2.2 == "market_to_cargill")).Perm st.1 := by
    rw [List.filter_congr hcong]
    exact List.filter_append_perm _ _
  have hasgV : (((build_fallback_result cv cc valid unc).cargill_vessel_assignments
      ++ (build_fallback_result cv cc valid unc).market_vessel_assignments).map
      (fun a => a.1)).Perm st.2.1 := by
    show (((st.1.filter (fun a => a.2.2.2 == "cargill_to_cargill")).map
        (fun a => (a.1, a.2.1, a.2.2.1))
      ++ (st.1.filter (fun a => a.2.2.2 == "market_to_cargill")).map
        (fun a => (a.1, a.2.1, a.2.2.1))).map (fun a => a.1)).Perm st.2.1
    rw [List.map_append, List.map_map, List.map_map]
    rw [show ((st.1.filter (fun a => a.2.2.2 == "cargill_to_cargill")).map
        ((fun a => a.1) ∘ fun a => (a.1, a.2.1, a.2.2.1)))
      = (st.1.filter (fun a => a.2.2.2 == "cargill_to_cargill")).map
        (fun a => a.1) from rfl]
    rw [show ((st.1.filter (fun a => a.2.2.2 == "market_to_cargill")).map
        ((fun a => a.1) ∘ fun a => (a.1, a.2.1, a.2.2.1)))
      = (st.1.filter (fun a => a.2.2.2 == "market_to_cargill")).map
        (fun a => a.1) from rfl]
    rw [← List.map_append, h1]
    exact hABperm.map _
  have hasgC : (((build_fallback_result cv cc valid unc).cargill_vessel_assignments
      ++ (build_fallback_result cv cc valid unc).market_vessel_assignments).map
      (fun a => a.2.1)).Perm st.2.2 := by
    show (((st.1.filter (fun a => a.2.2.2 == "cargill_to_cargill")).map
        (fun a => (a.1, a.2.1, a.2.2.1))
      ++ (st.1.filter (fun a => a.2.2.2 == "market_to_cargill")).map
        (fun a => (a.1, a.2.1, a.2.2.1))).map (fun a => a.2.1)).Perm st.2.2
    rw [List.map_append, List.map_map, List.map_map]
    rw [show ((st.1.filter (fun a => a.2.2.2 == "cargill_to_cargill")).map
        ((fun a => a.2.1) ∘ fun a => (a.1, a.2.1, a.2.2.1)))
      = (st.1.filter (fun a => a.2.2.2 == "cargill_to_cargill")).map
        (fun a => a.2.1) from rfl]
    rw [show ((st.1.filter (fun a => a.2.2.2 == "market_to_cargill")).map
        ((fun a => a.2.1) ∘ fun a => (a.1, a.2.1, a.2.2.1)))
      = (st.1.filter (fun a => a.2.2.2 == "market_to_cargill")).map
        (fun a => a.2.1) from rfl]
    rw [← List.map_append, h2]
    exact hABperm.map _
  refine ⟨hasgV.nodup_iff.mpr h3, hasgC.nodup_iff.mpr h4, ?_, ?_⟩
  · refine covers_of_perm _ _ _ _ hasgV ?_
    show CoversInputs (cv.map Vessel.name) st.2.1
      ((cv.map Vessel.name).filter (fun n => ! st.2.1.contains n))
    exact filter_covers _ _
  · refine covers_of_perm _ _ _ _ hasgC ?_
    show CoversInputs (cc.map Cargo.name) st.2.2
      ((cc.map Cargo.name).filter (fun n => ! st.2.2.contains n))
    exact filter_covers _ _

/-- C1 (amended).  The pairwise `optimize_assignments` result satisfies
the full partition invariant: vessel and cargo names occur in at most one
triple, assigned names come from the inputs, and together with the
unassigned lists they cover the inputs exactly.  The joint
`optimize_full_portfolio` satisfies the at-most-once invariant across both
assignment lists, but accounts only for Cargill vessels and committed
cargoes in its unassigned lists: assigned names may lie outside the
Cargill inputs (hired market vessels), and market vessels and market
cargoes that end up unused are absent from every list of the result, so
the partition holds only relative to the Cargill-side inputs. -/
theorem optimizer_assignment_partition (dist : DistFn) (price : PriceFn)
    (cfg : VoyageConfig) (vessels : List Vessel) (cargoes : List Cargo)
    (ue : Bool) (epd ba : ℚ) (m : String) (inc : Bool)
    (cv mv : List Vessel) (cc mc : List Cargo) (ue2 : Bool) (tt : ℚ)
    (top_n : ℕ) (pdel : String → ℚ)
    (hccn : (cc.map Cargo.name).Nodup)
    (hcvn : (cv.map Vessel.name).Nodup)
    (hdisj : ∀ c ∈ cc, ∀ mcg ∈ mc, c.name ≠ mcg.name) :
    (GoodAssign (vessels.map Vessel.name) (cargoes.map Cargo.name)
      (optimize_assignments dist price cfg vessels cargoes ue epd ba m inc).assignments ∧
    NamePartition (vessels.map Vessel.name)
      ((optimize_assignments dist price cfg vessels cargoes ue epd ba m inc).assignments.map
        (fun a => a.1))
      (optimize_assignments dist price cfg vessels cargoes ue epd ba m inc).unassigned_vessels ∧
    NamePartition (cargoes.map Cargo.name)
      ((optimize_assignments dist price cfg vessels cargoes ue epd ba m inc).assignments.map
        (fun a => a.2.1))
      (optimize_assignments dist price cfg vessels cargoes ue epd ba m inc).unassigned_cargoes) ∧
    (∀ res ∈ optimize_full_portfolio dist price cfg cv mv cc mc ue2 tt top_n pdel,
      (((res.cargill_vessel_assignments ++ res.market_vessel_assignments).map
        (fun a => a.1)).Nodup ∧
      ((res.cargill_vessel_assignments ++ res.market_vessel_assignments).map
        (fun a => a.2.1)).Nodup ∧
      CoversInputs (cv.map Vessel.name)
        ((res.cargill_vessel_assignments ++ res.market_vessel_assignments).map
          (fun a => a.1))
        res.unassigned_cargill_vessels ∧
      CoversInputs (cc.map Cargo.name)
        ((res.cargill_vessel_assignments ++ res.market_vessel_assignments).map
          (fun a => a.2.1))
        res.unassigned_cargill_cargoes)) := by
  refine ⟨optimize_assignments_invariant dist price cfg vessels cargoes ue epd ba m inc, ?_⟩
  intro res hres
  set valid := (calculate_all_options dist price cfg cv mv cc mc ue2 tt pdel).filter
    (fun r => r.can_make_laycan) with hvalid
  have hpack := valid_rows_pack dist price cfg cv mv cc mc ue2 tt pdel
  rw [← hvalid] at hpack
  set uncoverable := cc.filter (fun c => (cargo_coverage valid c.name).isEmpty)
    with huncov
  set cl := cc.map (fun c => cargo_coverage valid c.name) with hcl
  set final := (productL cl).foldl
    (comboFold (vm_lookup valid) (vm_keys valid) cv top_n) (0, []) with hfinal
  have hsplit : optimize_full_portfolio dist price cfg cv mv cc mc ue2 tt top_n pdel =
      if ! uncoverable.isEmpty then
        [build_fallback_result cv cc valid uncoverable]
      else if final.2.isEmpty then [build_fallback_result cv cc valid []]
      else (final.2.mergeSort (fun a b => decide (b.profit ≤ a.profit))).map
        (buildFull cv cc) := rfl
  rw [hsplit] at hres
  by_cases hu : uncoverable.isEmpty
  · rw [hu, Bool.not_true, if_neg (by simp)] at hres
    by_cases hfe : final.2.isEmpty
    · rw [if_pos hfe] at hres
      rw [List.mem_singleton.mp hres]
      exact fallback_partition valid cv cc [] hccn
    · rw [if_neg hfe] at hres
      obtain ⟨e, he, rfl⟩ := List.mem_map.mp hres
      have hemem : e ∈ final.2 := (List.mergeSort_perm final.2 _).mem_iff.mp he
      have horigin : EntryOrigin (vm_lookup valid) (vm_keys valid) cv cl e :=
        comboFold_entries (vm_lookup valid) (vm_keys valid) cv top_n cl
          (productL cl) (fun x hx => hx) (0, [])
          (by intro e' he'; cases he') e hemem
      refine buildFull_partition valid cv cc (mc.map Cargo.name) e hccn hcvn
        ?_ ?_ (hcl ▸ horigin)
      · intro n hn hmem
        obtain ⟨c, hc, hceq⟩ := List.mem_map.mp hn
        obtain ⟨mcg, hmcg, hmeq⟩ := List.mem_map.mp hmem
        exact hdisj c hc mcg hmcg (by rw [hceq, hmeq])
      · exact fun r hr => (hpack r hr).2
  · rw [Bool.not_eq_true] at hu
    rw [hu, Bool.not_false, if_pos rfl] at hres
    rw [List.mem_singleton.mp hres]
    exact fallback_partition valid cv cc uncoverable hccn

/-- Witness: the pairwise partition invariant at a concrete one-vessel,
one-cargo instance, through the combined partition theorem. -/
theorem optimizer_assignment_partition_witness :
    GoodAssign ([exVessel].map Vessel.name) ([exCargo].map Cargo.name)
      (optimize_assignments exDist exPrice defaultConfig [exVessel] [exCargo]
        false 0 1 "profit" false).assignments :=
  (optimizer_assignment_partition exDist exPrice defaultConfig [exVessel] [exCargo]
    false 0 1 "profit" false [exVessel] [] [] [exCargo] false 18000 1 (fun _ => 0)
    (by simp) (by simp) (by intro c hc; cases hc)).1.1

-- =========================================================================
-- C1 counterexample: the joint result omits an unused market vessel
-- =========================================================================

/-- A market vessel sitting at a port with no route to the load port. -/
def exVesselM : Vessel :=
  { exVessel with name := "VESSEL M", current_port := "Z", is_cargill := false }

/-- The committed-coverage option of the Cargill vessel. -/
def exOptCC : VoyageOption :=
  mkOption exVessel exCargo "cargill" "cargill" 18000 (.ok (roundVoyage exRaw))

/-- The errored option of the unreachable market vessel. -/
def exOptM : VoyageOption :=
  mkOption exVesselM exCargo "market" "cargill" 18000
    (.error "Cannot find distance: Z -> B")

theorem exVoyM :
    calculate_voyage exDist exPrice defaultConfig exVesselM exCargo false 0 1
      none none = .error "Cannot find distance: Z -> B" := by
  unfold calculate_voyage calcVoyageRaw
  rw [show exVesselM.current_port = "Z" from rfl,
    show exCargo.load_port = "B" from rfl,
    show exCargo.discharge_port = "C" from rfl]
  rw [show exDist "Z" "B" = none from by simp [exDist]]
  simp [distOrError, legDistance, calcVoyageWithLegs, Except.map]

theorem exOptCC_eval :
    calculate_option exDist exPrice defaultConfig exVessel exCargo "cargill"
      "cargill" false 18000 0 = exOptCC := by
  unfold calculate_option exOptCC
  rw [exTempCargo, exRound_eval]

theorem exOptM_eval :
    calculate_option exDist exPrice defaultConfig exVesselM exCargo "market"
      "cargill" false 18000 0 = exOptM := by
  unfold calculate_option exOptM
  rw [exTempCargo, exVoyM]

theorem exOptCC_fields :
    exOptCC.vessel = exVessel ∧ exOptCC.cargo = exCargo ∧
      exOptCC.vessel_type = "cargill" ∧ exOptCC.cargo_type = "cargill" ∧
      exOptCC.can_make_laycan = (roundVoyage exRaw).can_make_laycan := by
  have hcond : ¬("cargill" = "market" ∧ exCargo.commission = 1) := by simp
  unfold exOptCC mkOption
  dsimp only
  rw [if_neg hcond]
  exact ⟨rfl, rfl, rfl, rfl, rfl⟩

theorem exRowCC_fields :
    (option_to_row exOptCC).vessel = "VESSEL ONE" ∧
      (option_to_row exOptCC).cargo = "CARGO ONE" ∧
      (option_to_row exOptCC).vessel_type = "cargill" ∧
      (option_to_row exOptCC).can_make_laycan = true := by
  obtain ⟨hv, hc, hvt, -, hcml⟩ := exOptCC_fields
  refine ⟨?_, ?_, hvt, ?_⟩
  · show exOptCC.vessel.name = "VESSEL ONE"
    rw [hv]; rfl
  · show exOptCC.cargo.name = "CARGO ONE"
    rw [hc]; rfl
  · show exOptCC.can_make_laycan = true
    rw [hcml]; exact exRound_key_fields.1

theorem exValidRunM :
    (calculate_all_options exDist exPrice defaultConfig [exVessel] [exVesselM]
      [exCargo] [] false 18000 (fun _ => 0)).filter (fun r => r.can_make_laycan)
    = [option_to_row exOptCC] := by
  have hao : calculate_all_options exDist exPrice defaultConfig [exVessel]
      [exVesselM] [exCargo] [] false 18000 (fun _ => 0)
      = [option_to_row exOptCC, option_to_row exOptM] := by
    simp only [calculate_all_options, List.flatMap_nil, List.map_nil,
      List.flatMap_cons, List.map_cons, List.nil_append, List.append_nil]
    rw [exOptCC_eval, exOptM_eval]
    rfl
  rw [hao]
  have h1 := exRowCC_fields.2.2.2
  have h2 : (option_to_row exOptM).can_make_laycan = false := rfl
  simp [h1, h2]

theorem exCovM :
    cargo_coverage [option_to_row exOptCC] "CARGO ONE"
      = [coverageOf (option_to_row exOptCC)] := by
  have hc : ((option_to_row exOptCC).cargo == "CARGO ONE") = true := by
    rw [exRowCC_fields.2.1]; rfl
  simp only [cargo_coverage, List.filter_cons, List.filter_nil, hc, if_true,
    List.map_cons, List.map_nil]

theorem exCovM_vessel :
    (coverageOf (option_to_row exOptCC)).vessel = "VESSEL ONE" :=
  exRowCC_fields.1

theorem exComboFoldM :
    comboFold (vm_lookup [option_to_row exOptCC]) (vm_keys [option_to_row exOptCC])
      [exVessel] 1 (0, []) [coverageOf (option_to_row exOptCC)]
    = (1, [⟨([coverageOf (option_to_row exOptCC)].map (fun c => c.profit)).sum, 1,
        [coverageOf (option_to_row exOptCC)], []⟩]) := by
  simp only [comboFold, List.map_cons, List.map_nil]
  rw [if_pos (List.nodup_singleton _)]
  rw [show [exVessel].filter (fun v =>
      ! ([(coverageOf (option_to_row exOptCC)).vessel] : List String).contains v.name)
      = [] from by simp [exCovM_vessel, exVessel]]
  rw [show exhaustive_market_assignments (vm_lookup [option_to_row exOptCC])
      (vm_keys [option_to_row exOptCC]) ([] : List Vessel) = (0, []) from rfl]
  unfold topNStep
  norm_num [List.map_cons, List.map_nil]

theorem exJointRunM :
    optimize_full_portfolio exDist exPrice defaultConfig [exVessel] [exVesselM]
      [exCargo] [] false 18000 1 (fun _ => 0)
    = [buildFull [exVessel] [exCargo]
        ⟨([coverageOf (option_to_row exOptCC)].map (fun c => c.profit)).sum, 1,
          [coverageOf (option_to_row exOptCC)], []⟩] := by
  simp only [optimize_full_portfolio]
  rw [exValidRunM]
  rw [show ([exCargo].filter (fun c =>
      (cargo_coverage [option_to_row exOptCC] c.name).isEmpty)) = [] from by
    simp only [List.filter_cons, List.filter_nil]
    rw [show (cargo_coverage [option_to_row exOptCC] exCargo.name).isEmpty = false
      from by rw [show exCargo.name = "CARGO ONE" from rfl, exCovM]; rfl]
    simp]
  simp only [List.isEmpty_nil, Bool.not_true, Bool.false_eq_true, if_false]
  rw [show ([exCargo].map (fun c => cargo_coverage [option_to_row exOptCC] c.name))
      = [[coverageOf (option_to_row exOptCC)]] from by
    simp only [List.map_cons, List.map_nil]
    rw [show exCargo.name = "CARGO ONE" from rfl, exCovM]]
  rw [show productL [[coverageOf (option_to_row exOptCC)]]
      = [[coverageOf (option_to_row exOptCC)]] from rfl]
  rw [List.foldl_cons, exComboFoldM, List.foldl_nil]
  simp only [List.isEmpty_cons, Bool.false_eq_true, if_false]
  rw [List.mergeSort_singleton, List.map_cons, List.map_nil]

/-- C1 counterexample: the input market vessel that no plan hires is
absent from both assignment lists and from both unassigned lists of the
returned plan, so the assigned and unassigned names do not partition the
full input vessel set. -/
theorem optimize_full_portfolio_drops_market_vessel :
    "VESSEL M" ∈ [exVesselM].map Vessel.name ∧
    ∃ res, optimize_full_portfolio exDist exPrice defaultConfig [exVessel]
        [exVesselM] [exCargo] [] false 18000 1 (fun _ => 0) = [res] ∧
      "VESSEL M" ∉ (res.cargill_vessel_assignments
          ++ res.market_vessel_assignments).map (fun a => a.1) ∧
      "VESSEL M" ∉ res.unassigned_cargill_vessels ∧
      "VESSEL M" ∉ res.unassigned_cargill_cargoes := by
  refine ⟨by simp [exVesselM], _, exJointRunM, ?_, ?_, ?_⟩
  · have hbeq : ((coverageOf (option_to_row exOptCC)).vessel_type == "cargill")
        = true := by
      rw [show (coverageOf (option_to_row exOptCC)).vessel_type
          = (option_to_row exOptCC).vessel_type from rfl, exRowCC_fields.2.2.1]
      rfl
    have hca : (buildFull [exVessel] [exCargo]
        ⟨([coverageOf (option_to_row exOptCC)].map (fun c => c.profit)).sum, 1,
          [coverageOf (option_to_row exOptCC)], []⟩).cargill_vessel_assignments
        = [((coverageOf (option_to_row exOptCC)).vessel, exCargo.name,
            (coverageOf (option_to_row exOptCC)).option)] := by
      show ((([exCargo].zip [coverageOf (option_to_row exOptCC)]).filter
          (fun p => p.2.vessel_type == "cargill")).map
          (fun p => (p.2.vessel, p.1.name, p.2.option))) ++ [] = _
      rw [show ([exCargo].zip [coverageOf (option_to_row exOptCC)])
          = [(exCargo, coverageOf (option_to_row exOptCC))] from rfl]
      simp [List.filter_cons, hbeq]
    have hma : (buildFull [exVessel] [exCargo]
        ⟨([coverageOf (option_to_row exOptCC)].map (fun c => c.profit)).sum, 1,
          [coverageOf (option_to_row exOptCC)], []⟩).market_vessel_assignments
        = [] := by
      show (([exCargo].zip [coverageOf (option_to_row exOptCC)]).filter
          (fun p => ! (p.2.vessel_type == "cargill"))).map
          (fun p => (p.2.vessel, p.1.name, p.2.option)) = _
      rw [show ([exCargo].zip [coverageOf (option_to_row exOptCC)])
          = [(exCargo, coverageOf (option_to_row exOptCC))] from rfl]
      simp [List.filter_cons, hbeq]
    rw [hca, hma, exCovM_vessel]
    simp
  · show "VESSEL M" ∉ ([exVessel].map Vessel.name).filter (fun n =>
      ! (([exCargo].zip [coverageOf (option_to_row exOptCC)]).map
          (fun p => p.2.vessel) ++ ([] : List OptRow).map (fun r => r.vessel)).contains n)
    intro hmem
    have := List.mem_of_mem_filter hmem
    simp [exVessel] at this
  · show "VESSEL M" ∉ ([exCargo].map Cargo.name).filter (fun n =>
      ! (([exCargo].zip [coverageOf (option_to_row exOptCC)]).map
          (fun p => p.1.name) ++ ([] : List OptRow).map (fun r => r.cargo)).contains n)
    intro hmem
    have := List.mem_of_mem_filter hmem
    simp [exCargo] at this

-- =========================================================================
-- C8: benchmark-rate substitution happens only in the joint costing path
-- =========================================================================

theorem assembleRaw_zeroRate (vessel : Vessel) (cargo : Cargo) (cfg : VoyageConfig)
    (a1 a2 a3 a4 a5 a6 a7 : ℚ) (cm : Bool) (b1 b2 b3 b4 b5 b6 b7 b8 b9 : ℚ)
    (ns : ℕ) (c1 c2 c3 : ℚ) (sp : Option String) (d1 d2 d3 d4 : ℚ)
    (h : cargo.freight_rate = 0) :
    (assembleRaw vessel cargo cfg a1 a2 a3 a4 a5 a6 a7 cm
      b1 b2 b3 b4 b5 b6 b7 b8 b9 ns c1 c2 c3 sp d1 d2 d3 d4).gross_freight = 0 ∧
    (assembleRaw vessel cargo cfg a1 a2 a3 a4 a5 a6 a7 cm
      b1 b2 b3 b4 b5 b6 b7 b8 b9 ns c1 c2 c3 sp d1 d2 d3 d4).net_freight = 0 ∧
    (assembleRaw vessel cargo cfg a1 a2 a3 a4 a5 a6 a7 cm
      b1 b2 b3 b4 b5 b6 b7 b8 b9 ns c1 c2 c3 sp d1 d2 d3 d4).net_profit
      = -(assembleRaw vessel cargo cfg a1 a2 a3 a4 a5 a6 a7 cm
        b1 b2 b3 b4 b5 b6 b7 b8 b9 ns c1 c2 c3 sp d1 d2 d3 d4).total_costs := by
  unfold assembleRaw
  dsimp only
  rw [h]
  refine ⟨?_, ?_, ?_⟩ <;> split <;> ring

theorem bunkeredRaw_zeroRate (vessel : Vessel) (cargo : Cargo) (cfg : VoyageConfig)
    (adj : ℚ) (price : PriceFn) (s1 s2 s3 : ℚ) (a0 a1 a2 a3 a4 a5 a6 a7 : ℚ)
    (cm : Bool) (q1 q2 q3 : ℚ) (l1 l2 l3 l4 : ℚ) (p1 p2 p3 p4 p5 p6 : ℚ)
    (dl : Option ℚ) (t : Option String × ℚ × ℚ × ℚ × ℚ)
    (h : cargo.freight_rate = 0) :
    (bunkeredRaw vessel cargo cfg adj price s1 s2 s3 a0 a1 a2 a3 a4 a5 a6 a7 cm
      q1 q2 q3 l1 l2 l3 l4 p1 p2 p3 p4 p5 p6 dl t).gross_freight = 0 ∧
    (bunkeredRaw vessel cargo cfg adj price s1 s2 s3 a0 a1 a2 a3 a4 a5 a6 a7 cm
      q1 q2 q3 l1 l2 l3 l4 p1 p2 p3 p4 p5 p6 dl t).net_freight = 0 ∧
    (bunkeredRaw vessel cargo cfg adj price s1 s2 s3 a0 a1 a2 a3 a4 a5 a6 a7 cm
      q1 q2 q3 l1 l2 l3 l4 p1 p2 p3 p4 p5 p6 dl t).net_profit
      = -(bunkeredRaw vessel cargo cfg adj price s1 s2 s3 a0 a1 a2 a3 a4 a5 a6 a7 cm
        q1 q2 q3 l1 l2 l3 l4 p1 p2 p3 p4 p5 p6 dl t).total_costs := by
  rcases t with ⟨op, w1, w2, w3, w4⟩
  cases op with
  | none =>
    apply assembleRaw_zeroRate
    exact h
  | some p =>
    apply assembleRaw_zeroRate
    exact h

/-- Every successful raw voyage of a zero-rate cargo has zero gross and
net freight, and its net profit is exactly minus the total costs. -/
theorem calcVoyageRaw_ok_zeroRate (dist : DistFn) (price : PriceFn)
    (cfg : VoyageConfig) (vessel : Vessel) (cargo : Cargo) (eco : Bool)
    (delay adj : ℚ) (cb cl : Option ℚ) (raw : VoyageResult)
    (hz : cargo.freight_rate = 0)
    (h : calcVoyageRaw dist price cfg vessel cargo eco delay adj cb cl = .ok raw) :
    raw.gross_freight = 0 ∧ raw.net_freight = 0 ∧
      raw.net_profit = -raw.total_costs := by
  unfold calcVoyageRaw at h
  cases hE1 : legDistance cb (distOrError (dist vessel.current_port cargo.load_port)
      vessel.current_port cargo.load_port) with
  | error e =>
    rw [hE1] at h
    simp [calcVoyageWithLegs] at h
  | ok b =>
    rw [hE1] at h
    cases hE2 : legDistance cl (distOrError (dist cargo.load_port cargo.discharge_port)
        cargo.load_port cargo.discharge_port) with
    | error e =>
      rw [hE2] at h
      simp [calcVoyageWithLegs] at h
    | ok l =>
      rw [hE2] at h
      simp only [calcVoyageWithLegs, calcVoyageCore] at h
      split at h
      · simp at h
      · split at h
        · rw [Except.ok.injEq] at h
          rw [← h]
          apply bunkeredRaw_zeroRate
          exact hz
        · rw [Except.ok.injEq] at h
          rw [← h]
          apply assembleRaw_zeroRate
          exact hz

/-- C8 (amended).  The benchmark-rate substitution for a zero-rate cargo
happens only in `_calculate_option`, the costing path of the joint
optimizer: there the voyage is costed with the positive estimated rate
(21, 9 or 15 $/MT by load port).  The pairwise
`calculate_all_voyages` path costs the cargo with its literal zero rate,
so a successful voyage there has zero gross and net freight and its net
profit equals minus the total costs — typically a negative-revenue row. -/
theorem zero_rate_costing (dist : DistFn) (price : PriceFn) (cfg : VoyageConfig)
    (v : Vessel) (cargo : Cargo) (vt ct : String) (ue : Bool) (tt ed ba : ℚ)
    (r : VoyageResult) (hz : cargo.freight_rate = 0) :
    (calculate_option dist price cfg v cargo vt ct ue tt ed
      = mkOption v cargo vt ct tt (calculate_voyage dist price cfg v
          { cargo with freight_rate := estimated_rate cargo.load_port } ue ed 1
          none none)
      ∧ 0 < estimated_rate cargo.load_port) ∧
    (calculate_voyage dist price cfg v cargo ue ed ba none none = .ok r →
      r.gross_freight = 0 ∧ r.net_freight = 0) := by
  constructor
  · constructor
    · unfold calculate_option temp_cargo
      rw [if_pos hz]
    · unfold estimated_rate
      dsimp only
      split
      · norm_num
      · split <;> norm_num
  · intro h
    unfold calculate_voyage at h
    cases hraw : calcVoyageRaw dist price cfg v cargo ue ed ba none none with
    | error e => rw [hraw] at h; simp [Except.map] at h
    | ok raw =>
      rw [hraw] at h
      simp only [Except.map, Except.ok.injEq] at h
      obtain ⟨hg, hn, -⟩ := calcVoyageRaw_ok_zeroRate dist price cfg v cargo ue
        ed ba none none raw hz hraw
      rw [← h]
      constructor
      · show round2 raw.gross_freight = 0
        rw [hg, round2_zero]
      · show round2 raw.net_freight = 0
        rw [hn, round2_zero]

/-- The concrete cargo with a zero freight rate. -/
def exCargoZ : Cargo := { exCargo with freight_rate := 0 }

def exRawZ : VoyageResult :=
  assembleRaw exVessel exCargoZ defaultConfig 10 10 2 2 0 24 20 true
    40000 40000 0 500 500 200 4 0 0 0 0 0 0 none 0 0 3000 3000

theorem exRawZ_eval :
    calcVoyageRaw exDist exPrice defaultConfig exVessel exCargoZ false 0 1 none none
      = .ok exRawZ := by
  unfold calcVoyageRaw
  rw [show exVessel.current_port = "A" from rfl, show exCargoZ.load_port = "B" from rfl,
    show exCargoZ.discharge_port = "C" from rfl]
  rw [show exDist "A" "B" = some 3000 from by simp [exDist],
    show exDist "B" "C" = some 3000 from by simp [exDist]]
  simp only [distOrError, legDistance, calcVoyageWithLegs]
  unfold calcVoyageCore exRawZ
  norm_num [ecoSel, leBool, waitingCalc, halfFreightSplit, pyTrunc, max_def,
    exVessel, exCargoZ, exCargo, exPrice, defaultConfig]

theorem exRoundZ_eval :
    calculate_voyage exDist exPrice defaultConfig exVessel exCargoZ false 0 1 none none
      = .ok (roundVoyage exRawZ) := by
  unfold calculate_voyage
  rw [exRawZ_eval]
  rfl

/-- C8 counterexample: the pairwise voyage matrix contains a successful,
error-free row for a zero-rate cargo with zero net freight and strictly
negative net profit — no benchmark rate was substituted on this path. -/
theorem calculate_all_voyages_zero_rate_negative :
    exCargoZ.freight_rate = 0 ∧
    ∃ row ∈ calculate_all_voyages exDist exPrice defaultConfig [exVessel]
        [exCargoZ] false 0 1,
      row.error = none ∧ row.net_freight = 0 ∧ row.net_profit < 0 := by
  refine ⟨rfl, voyageRowOf exVessel exCargoZ (.ok (roundVoyage exRawZ)), ?_, rfl, ?_, ?_⟩
  · show voyageRowOf exVessel exCargoZ (.ok (roundVoyage exRawZ)) ∈
      [exVessel].flatMap (fun v => [exCargoZ].map (fun c =>
        voyageRowOf v c (calculate_voyage exDist exPrice defaultConfig v c false
          0 1 none none)))
    simp only [List.flatMap_cons, List.flatMap_nil, List.map_cons, List.map_nil,
      List.append_nil]
    rw [exRoundZ_eval]
    exact List.mem_singleton.mpr rfl
  · show (roundVoyage exRawZ).net_freight = 0
    show round2 exRawZ.net_freight = 0
    rw [show exRawZ.net_freight = 0 from by
      unfold exRawZ assembleRaw
      dsimp only
      norm_num [exCargoZ, exCargo]]
    exact round2_zero
  · show (roundVoyage exRawZ).net_profit < 0
    show round2 exRawZ.net_profit < 0
    rw [show exRawZ.net_profit = ((-14100000 : ℤ) : ℚ) / 100 from by
      unfold exRawZ assembleRaw
      dsimp only
      norm_num [exCargoZ, exCargo, exVessel, defaultConfig]]
    rw [round2_intCast]
    norm_num

/-- Witness for the amended zero-rate costing facts at the concrete
zero-rate cargo. -/
theorem zero_rate_costing_witness :
    ((calculate_option exDist exPrice defaultConfig exVessel exCargoZ "cargill"
        "market" false 18000 0
      = mkOption exVessel exCargoZ "cargill" "market" 18000
          (calculate_voyage exDist exPrice defaultConfig exVessel
            { exCargoZ with freight_rate := estimated_rate exCargoZ.load_port }
            false 0 1 none none)
      ∧ 0 < estimated_rate exCargoZ.load_port) ∧
    (calculate_voyage exDist exPrice defaultConfig exVessel exCargoZ false 0 1
        none none = .ok (roundVoyage exRawZ) →
      (roundVoyage exRawZ).gross_freight = 0 ∧
        (roundVoyage exRawZ).net_freight = 0)) :=
  zero_rate_costing exDist exPrice defaultConfig exVessel exCargoZ "cargill"
    "market" false 18000 0 1 (roundVoyage exRawZ) rfl

-- =========================================================================
-- C7: the bunker tipping-point sweep of `find_tipping_points`
-- =========================================================================

/-- The assignment signature: the vessel-cargo pairs of a result
(`frozenset((a[0], a[1]) for a in ...)`, compared as a set). -/
def assignment_sig (res : PortfolioResult) : List (String × String) :=
  res.assignments.map (fun a => (a.1, a.2.1))

/-- Set equality of two signatures. -/
def sigEq (s t : List (String × String)) : Bool :=
  s.all (fun p => t.contains p) && t.all (fun p => s.contains p)

/-- `np.arange(1.0, 1 + max_pct/100 + 0.01, 0.01)` for an integral
percentage bound: the multipliers `1.00, 1.01, ..., 1 + max_pct/100`. -/
def sweep_multipliers (max_pct : ℕ) : List ℚ :=
  (List.range (max_pct + 1)).map (fun (k : ℕ) => 1 + (k : ℚ) / 100)

def tippingStep (q : ℚ → Bool) (g : ℚ → ℚ) (acc : Option ℚ) (adj : ℚ) : Option ℚ :=
  match acc with
  | some t => some t
  | none => if q adj then none else some (g adj)

/-- The bunker sweep of `find_tipping_points`: re-run the optimizer at
each multiplier, break at the first whose signature differs from the
baseline (reporting `round(adj, 2)`), and report `None` when the sweep
completes without a divergence. -/
def find_tipping_bunker (optimize : ℚ → PortfolioResult) (max_pct : ℕ) : Option ℚ :=
  (sweep_multipliers max_pct).foldl
    (tippingStep
      (fun adj => sigEq (assignment_sig (optimize adj)) (assignment_sig (optimize 1)))
      round2) none

theorem tipping_foldl_some (q : ℚ → Bool) (g : ℚ → ℚ) :
    ∀ (l : List ℚ) (t : ℚ), l.foldl (tippingStep q g) none = some t →
      ∃ l₁ adj l₂, l = l₁ ++ adj :: l₂ ∧ (∀ a ∈ l₁, q a = true) ∧
        q adj = false ∧ t = g adj := by
  intro l
  induction l with
  | nil => intro t h; cases h
  | cons a l ih =>
    intro t h
    rw [List.foldl_cons] at h
    by_cases hq : q a = true
    · rw [show tippingStep q g none a = none from by
        simp only [tippingStep, if_pos hq]] at h
      obtain ⟨l₁, adj, l₂, heq, hall, hqa, ht⟩ := ih t h
      refine ⟨a :: l₁, adj, l₂, (by rw [heq]; rfl), ?_, hqa, ht⟩
      intro x hx
      rcases List.mem_cons.mp hx with rfl | hx'
      · exact hq
      · exact hall x hx'
    · rw [Bool.not_eq_true] at hq
      rw [show tippingStep q g none a = some (g a) from by
        simp only [tippingStep, hq, Bool.false_eq_true, if_false]] at h
      rw [foldl_fixed (tippingStep q g) (some (g a)) l
        (fun p _ => rfl)] at h
      rw [Option.some.injEq] at h
      exact ⟨[], a, l, rfl, (by intro x hx; cases hx), hq, h.symm⟩

theorem tipping_foldl_none (q : ℚ → Bool) (g : ℚ → ℚ) :
    ∀ (l : List ℚ), l.foldl (tippingStep q g) none = none →
      ∀ a ∈ l, q a = true := by
  intro l
  induction l with
  | nil => intro _ a ha; cases ha
  | cons a l ih =>
    intro h x hx
    rw [List.foldl_cons] at h
    by_cases hq : q a = true
    · rw [show tippingStep q g none a = none from by
        simp only [tippingStep, if_pos hq]] at h
      rcases List.mem_cons.mp hx with rfl | hx'
      · exact hq
      · exact ih h x hx'
    · rw [Bool.not_eq_true] at hq
      rw [show tippingStep q g none a = some (g a) from by
        simp only [tippingStep, hq, Bool.false_eq_true, if_false]] at h
      rw [foldl_fixed (tippingStep q g) (some (g a)) l (fun p _ => rfl)] at h
      cases h

theorem pairwise_map_lt (f : ℕ → ℚ) (hf : ∀ a b, a < b → f a < f b) :
    ∀ (l : List ℕ), l.Pairwise (· < ·) → (l.map f).Pairwise (· < ·) := by
  intro l
  induction l with
  | nil => intro _; simp
  | cons a l ih =>
    intro h
    rw [List.map_cons]
    rw [List.pairwise_cons] at h ⊢
    refine ⟨?_, ih h.2⟩
    intro b hb
    obtain ⟨x, hx, rfl⟩ := List.mem_map.mp hb
    exact hf a x (h.1 x hx)

theorem sweep_multipliers_sorted (max_pct : ℕ) :
    (sweep_multipliers max_pct).Pairwise (· < ·) := by
  unfold sweep_multipliers
  refine pairwise_map_lt _ ?_ _ (List.pairwise_lt_range (max_pct + 1))
  intro a b hab
  have h : (a : ℚ) < (b : ℚ) := by exact_mod_cast hab
  linarith

/-- C7.  The bunker sweep enumerates the multipliers `1 + k/100` for
`k = 0, ..., max_pct` in increasing order, re-running the optimizer (at
the source defaults apart from the adjustment) at each step.  A reported
tipping point is `round(adj, 2)` for the smallest enumerated multiplier
`adj` whose assignment signature differs from the baseline (every smaller
enumerated multiplier agrees with the baseline), and when every enumerated
multiplier-run agrees with the baseline the sweep reports `None` instead
of failing. -/
theorem find_tipping_points_bunker_spec (dist : DistFn) (price : PriceFn)
    (cfg : VoyageConfig) (vessels : List Vessel) (cargoes : List Cargo)
    (max_pct : ℕ) :
    (∀ t, find_tipping_bunker
        (fun ba => optimize_assignments dist price cfg vessels cargoes true 0 ba
          "profit" false) max_pct = some t →
      ∃ adj ∈ sweep_multipliers max_pct, t = round2 adj ∧
        sigEq (assignment_sig (optimize_assignments dist price cfg vessels cargoes
            true 0 adj "profit" false))
          (assignment_sig (optimize_assignments dist price cfg vessels cargoes
            true 0 1 "profit" false)) = false ∧
        ∀ adj' ∈ sweep_multipliers max_pct, adj' < adj →
          sigEq (assignment_sig (optimize_assignments dist price cfg vessels cargoes
              true 0 adj' "profit" false))
            (assignment_sig (optimize_assignments dist price cfg vessels cargoes
              true 0 1 "profit" false)) = true) ∧
    (find_tipping_bunker
        (fun ba => optimize_assignments dist price cfg vessels cargoes true 0 ba
          "profit" false) max_pct = none →
      ∀ adj ∈ sweep_multipliers max_pct,
        sigEq (assignment_sig (optimize_assignments dist price cfg vessels cargoes
            true 0 adj "profit" false))
          (assignment_sig (optimize_assignments dist price cfg vessels cargoes
            true 0 1 "profit" false)) = true) := by
  constructor
  · intro t h
    obtain ⟨l₁, adj, l₂, heq, hall, hqa, ht⟩ := tipping_foldl_some _ round2
      (sweep_multipliers max_pct) t h
    refine ⟨adj, by rw [heq]; simp, ht, hqa, ?_⟩
    intro adj' hmem hlt
    have hsorted := sweep_multipliers_sorted max_pct
    rw [heq] at hsorted hmem
    rcases List.mem_append.mp hmem with h1 | h2
    · exact hall adj' h1
    · exfalso
      rcases List.mem_cons.mp h2 with rfl | h3
      · exact absurd hlt (lt_irrefl _)
      · have := (List.pairwise_append.mp hsorted).2.1
        have hlt' : adj < adj' := (List.pairwise_cons.mp this).1 adj' h3
        linarith
  · intro h adj hmem
    exact tipping_foldl_none _ round2 (sweep_multipliers max_pct) h adj hmem

theorem optimize_assignments_empty_inputs (ba : ℚ) :
    optimize_assignments exDist exPrice defaultConfig [] [] true 0 ba
      "profit" false = ⟨[], [], [], 0, 0, 0⟩ := by
  simp [optimize_assignments, calculate_all_voyages]

theorem find_tipping_points_bunker_spec_witness :
    ∀ adj ∈ sweep_multipliers 100,
      sigEq (assignment_sig (optimize_assignments exDist exPrice defaultConfig [] []
          true 0 adj "profit" false))
        (assignment_sig (optimize_assignments exDist exPrice defaultConfig [] []
          true 0 1 "profit" false)) = true := by
  refine (find_tipping_points_bunker_spec exDist exPrice defaultConfig [] [] 100).2 ?_
  unfold find_tipping_bunker
  refine foldl_fixed _ _ _ ?_
  intro adj _
  show tippingStep _ round2 none adj = none
  simp only [tippingStep]
  rw [if_pos]
  rw [optimize_assignments_empty_inputs, optimize_assignments_empty_inputs]
  rfl

end Freight
